import Mathlib

/-!
Verification of the smart-routing decision engine (classifier, candidate
ranker, fallback executor, and configuration normalizer) against its
specification.

The embedding is a shallow one:

* Python `float` values are modelled as exact rationals (`ℚ`).  IEEE-754
  artefacts (rounding of literals, `inf`, `nan`) are outside the model;
  numeric comparisons and arithmetic are exact.
* Python strings are modelled as Lean `String`s; `str.lower()`, `str.upper()`
  and `str.strip()` are modelled on ASCII (the repository's keyword tables
  are already lower case, and `?`, digits and the regex literals involved are
  ASCII).
* JSON-like Python values (the raw configuration structures, model
  descriptors, chat requests, conversation contexts and responses) are
  modelled by the inductive type `JValue`; Python `dict`s become ordered
  association lists, matching insertion-ordered `dict` semantics.
* The transcendental confidence calibration
  `_calibrate_confidence(distance, steepness) = 1/(1+exp(-steepness*distance))`
  is abstracted as an explicit function parameter `cal : ℚ → ℚ → ℚ` of
  `classify`; every theorem about the classifier is proved for an arbitrary
  calibration function, which only strengthens the results (none of the
  claims depends on the numeric value of the sigmoid).
* Code paths that raise `AttributeError` in Python (`.get` called on a
  non-`dict` nested configuration value) are modelled by `Except Unit`.
* `asyncio`, logging and the process-wide statistics counters have no
  effect on routing decisions or results and are not modelled.
-/

set_option maxRecDepth 20000

namespace SmartRouting

/-! ## ASCII string helpers (Python `lower`, `upper`, `strip`, `in`) -/

def lowerChar (c : Char) : Char :=
  if 'A' ≤ c && c ≤ 'Z' then Char.ofNat (c.toNat + 32) else c

def upperChar (c : Char) : Char :=
  if 'a' ≤ c && c ≤ 'z' then Char.ofNat (c.toNat - 32) else c

def lowerStr (s : String) : String := ⟨s.data.map lowerChar⟩

def upperStr (s : String) : String := ⟨s.data.map upperChar⟩

/-- Python whitespace for `str.strip` and the regex class `\s` (ASCII part). -/
def isPySpace (c : Char) : Bool :=
  c = ' ' || c = '\t' || c = '\n' || c = '\r' || c = Char.ofNat 11 || c = Char.ofNat 12

/-- Python `str.strip()` (ASCII whitespace). -/
def pyStrip (s : String) : String :=
  ⟨((s.data.dropWhile isPySpace).reverse.dropWhile isPySpace).reverse⟩

/-- Is `n` a prefix of `h` (character lists)? -/
def charsPre : List Char → List Char → Bool
  | _, [] => true
  | [], _ :: _ => false
  | c :: cs, d :: ds => (c = d) && charsPre cs ds

/-- Does `n` occur as a contiguous run inside `h`? -/
def charsInfix (n : List Char) : List Char → Bool
  | [] => charsPre [] n
  | c :: cs => charsPre (c :: cs) n || charsInfix n cs

/-- Python `needle in hay` for strings (substring containment). -/
def strContains (hay needle : String) : Bool :=
  charsInfix needle.data hay.data

/-- Python `", ".join(xs)`-style joining. -/
def joinSep (sep : String) : List String → String
  | [] => ""
  | [x] => x
  | x :: y :: rest => x ++ sep ++ joinSep sep (y :: rest)

/-! ## Exact-rational stand-ins for float formatting and rounding -/

/-- Round a rational to the nearest integer, ties to even (Python `round`
and `%.nf` formatting use this rule; modelled exactly on `ℚ`). -/
def roundHalfEven (q : ℚ) : ℤ :=
  let f : ℤ := ⌊q⌋
  if q - f < 1/2 then f
  else if (1:ℚ)/2 < q - f then f + 1
  else if f % 2 = 0 then f else f + 1

/-- Python `round(q, n)` (exact-rational model). -/
def roundQ (q : ℚ) (n : ℕ) : ℚ :=
  (roundHalfEven (q * (10 ^ n : ℕ))) / ((10 ^ n : ℕ) : ℚ)

/-- Python `"%.2f" % q` (exact-rational model). -/
def fmtFixed2 (q : ℚ) : String :=
  let m : ℤ := roundHalfEven (q * 100)
  let a : ℕ := m.natAbs
  let frac : ℕ := a % 100
  (if m < 0 then "-" else "") ++ toString (a / 100) ++ "." ++
    (if frac < 10 then "0" else "") ++ toString frac

/-! ## JSON-like values (Python objects handled by the routing code) -/

/-- A JSON-like Python value.  `nul` is Python `None`; `obj` is a `dict`
as an insertion-ordered association list with string keys. -/
inductive JValue where
  | nul
  | bool (b : Bool)
  | int (n : ℤ)
  | float (q : ℚ)
  | str (s : String)
  | list (xs : List JValue)
  | obj (kvs : List (String × JValue))

/-- First-occurrence lookup in an association list (Python `dict` access;
Python `dict`s cannot hold duplicate keys, so on the images of actual
`dict`s this is exact). -/
def jlook : List (String × JValue) → String → Option JValue
  | [], _ => none
  | (k, v) :: rest, key => if k = key then some v else jlook rest key

/-- `d[key] = v`: replace the first binding of `key` in place, else append
(insertion-ordered `dict` update). -/
def oset : List (String × JValue) → String → JValue → List (String × JValue)
  | [], key, v => [(key, v)]
  | (k, w) :: rest, key, v =>
      if k = key then (key, v) :: rest else (k, w) :: oset rest key v

/-- Python truthiness `bool(v)`. -/
def jtruthy : JValue → Bool
  | .nul => false
  | .bool b => b
  | .int n => n ≠ 0
  | .float q => q ≠ 0
  | .str s => s ≠ ""
  | .list xs => !xs.isEmpty
  | .obj kvs => !kvs.isEmpty

/-- `v.get(key)` when `v` is known to be a `dict`; returns `None` when the
key is absent.  On a non-`dict` this helper is only used where the source
guards with `isinstance(v, dict)` (then the `nul` default is unreachable). -/
def jobjGet (v : JValue) (key : String) : JValue :=
  match v with
  | .obj kvs => (jlook kvs key).getD .nul
  | _ => .nul

/-- `v.get(key, d)` for a `dict` `v` (see `jobjGet`). -/
def jobjGetD (v : JValue) (key : String) (d : JValue) : JValue :=
  match v with
  | .obj kvs => (jlook kvs key).getD d
  | _ => d

/-- The key/value list of a `dict`, `[]` for non-`dict`s (used to model
`x if isinstance(x, dict) else {}` guards). -/
def asKvs : JValue → List (String × JValue)
  | .obj kvs => kvs
  | _ => []

/-- Keys of an association list. -/
def jkeys (kvs : List (String × JValue)) : List String := kvs.map Prod.fst

/-! ## `_deep_merge` (src/llms/extensions/smart_routing/__init__.py:54-67)

`_deep_merge(base, override)`: a copy of `base` updated key by key from
`override`; a key whose value is a `dict` on both sides is merged
recursively, any other override value replaces the base value wholesale.
`deepcopy` is identity in a pure model. -/

mutual

def dmList (base : List (String × JValue)) : List (String × JValue) → List (String × JValue)
  | [] => base
  | (k, v) :: rest => dmList (oset base k (dmVal (jlook base k) v)) rest

def dmVal : Option JValue → JValue → JValue
  | some (.obj bkvs), .obj okvs => .obj (dmList bkvs okvs)
  | _, v => v

end

def deepMerge : JValue → JValue → JValue
  | .obj base, .obj over => .obj (dmList base over)
  | .obj base, _ => .obj base
  | _, over => over

/-! ## Python numeric coercions (`int(x)`, `float(x)`) -/

/-- Numeric value of a list of ASCII digits. -/
def digitsVal : List Char → ℕ
  | [] => 0
  | c :: cs => (c.toNat - '0'.toNat) * 10 ^ cs.length + digitsVal cs

/-- Python `int(s)` for a string: optional sign and a nonempty digit run
(after stripping whitespace); anything else raises `ValueError` (`none`).
Underscore digit separators and non-ASCII digits are outside the model. -/
def pyParseInt (s : String) : Option ℤ :=
  let cs := (pyStrip s).data
  let signed : ℤ × List Char :=
    match cs with
    | '-' :: rest => (-1, rest)
    | '+' :: rest => (1, rest)
    | _ => (1, cs)
  match signed.2 with
  | [] => none
  | ds => if ds.all Char.isDigit then some (signed.1 * digitsVal ds) else none

/-- Python `float(s)` for a string: optional sign, a decimal literal with
optional fraction and optional exponent.  `inf`/`nan` literals are outside
the exact-rational model (`none`). -/
def pyParseFloat (s : String) : Option ℚ :=
  let cs := (pyStrip s).data
  let signed : ℚ × List Char :=
    match cs with
    | '-' :: rest => (-1, rest)
    | '+' :: rest => (1, rest)
    | _ => (1, cs)
  let ip := signed.2.takeWhile Char.isDigit
  let r1 := signed.2.dropWhile Char.isDigit
  let hasDot := match r1 with | '.' :: _ => true | _ => false
  let fp := (if hasDot then r1.drop 1 else []).takeWhile Char.isDigit
  let r2 := (if hasDot then r1.drop 1 else r1).dropWhile Char.isDigit
  if ip.isEmpty && fp.isEmpty then none
  else
    let mant : ℚ := signed.1 * ((digitsVal ip : ℚ) + (digitsVal fp : ℚ) / 10 ^ fp.length)
    match r2 with
    | [] => some mant
    | e :: rest =>
        if e = 'e' || e = 'E' then
          let esigned : Bool × List Char :=
            match rest with
            | '-' :: rest2 => (true, rest2)
            | '+' :: rest2 => (false, rest2)
            | _ => (false, rest)
          match esigned.2 with
          | [] => none
          | eds =>
              if eds.all Char.isDigit then
                let ex : ℚ := 10 ^ digitsVal eds
                some (if esigned.1 then mant / ex else mant * ex)
              else none
        else none

/-- Truncation of a rational toward zero (Python `int(float)`). -/
def truncQ (q : ℚ) : ℤ := if 0 ≤ q then ⌊q⌋ else -⌊-q⌋

/-- Python `float(v)`: `none` models `TypeError`/`ValueError`. -/
def pyToFloat : JValue → Option ℚ
  | .bool b => some (if b then 1 else 0)
  | .int n => some n
  | .float q => some q
  | .str s => pyParseFloat s
  | _ => none

/-- Python `int(v)`: `none` models `TypeError`/`ValueError`. -/
def pyToInt : JValue → Option ℤ
  | .bool b => some (if b then 1 else 0)
  | .int n => some n
  | .float q => some (truncQ q)
  | .str s => pyParseInt s
  | _ => none

/-! ## The classifier (src/llms/extensions/smart_routing/scorer.py)

`classify` receives the scoring configuration as a plain `dict` in Python;
its callers always pass a fully normalized scoring configuration, so the
configuration is embedded as the structured record `ScoringConfig` (the
spec's `ScoringConfig` data model).  `dimensionWeights` is a total function
modelling `weights.get(name, 0.0)`. -/

structure ScoringConfig where
  tokenSimple : ℤ
  tokenComplex : ℤ
  codeKeywords : List String
  reasoningKeywords : List String
  simpleKeywords : List String
  technicalKeywords : List String
  creativeKeywords : List String
  imperativeVerbs : List String
  constraintIndicators : List String
  outputFormatKeywords : List String
  referenceKeywords : List String
  negationKeywords : List String
  domainSpecificKeywords : List String
  agenticTaskKeywords : List String
  dimensionWeights : String → ℚ
  simpleMedium : ℚ
  mediumComplex : ℚ
  complexReasoning : ℚ
  confidenceSteepness : ℚ
  confidenceThreshold : ℚ

structure ScoringResult where
  score : ℚ
  tier : Option String
  confidence : ℚ
  signals : List String
  agentic_score : ℚ

/-- One dimension: (name, score, optional signal). -/
abbrev DimensionScore := String × ℚ × Option String

/-- scorer.py:25-32 (the two thresholds are `int()`-coerced dict entries;
here they arrive as the structured config's integers). -/
def score_token_count (estimated_tokens simple_threshold complex_threshold : ℤ) :
    DimensionScore :=
  if estimated_tokens < simple_threshold then
    ("tokenCount", -1, some ("short (" ++ toString estimated_tokens ++ " tokens)"))
  else if complex_threshold < estimated_tokens then
    ("tokenCount", 1, some ("long (" ++ toString estimated_tokens ++ " tokens)"))
  else ("tokenCount", 0, none)

/-- scorer.py:35-48.  `thresholds`/`scores` dicts are passed as literals at
every call site and arrive here as the two counts and three scores. -/
def score_keyword_match (text : String) (keywords : List String)
    (name signal_label : String) (lowT highT : ℕ) (noneS lowS highS : ℚ) :
    DimensionScore :=
  let mkws := keywords.filter (fun kw => strContains text (lowerStr kw))
  if highT ≤ mkws.length then
    (name, highS, some (signal_label ++ " (" ++ joinSep ", " (mkws.take 3) ++ ")"))
  else if lowT ≤ mkws.length then
    (name, lowS, some (signal_label ++ " (" ++ joinSep ", " (mkws.take 3) ++ ")"))
  else (name, noneS, none)

/-- `first.*then` part 2: find `then` with no newline in between (`.` does
not match a newline). -/
def thenSameLine : List Char → Bool
  | [] => false
  | c :: cs => charsPre (c :: cs) "then".data || (!(c = '\n') && thenSameLine cs)

/-- Regex `first.*then` (case handled by the caller's lowering). -/
def hasFirstThen : List Char → Bool
  | [] => false
  | c :: cs =>
      (charsPre (c :: cs) "first".data && thenSameLine ((c :: cs).drop 5)) ||
      hasFirstThen cs

/-- Regex `step \d`. -/
def hasStepDigit : List Char → Bool
  | [] => false
  | c :: cs =>
      (charsPre (c :: cs) "step ".data &&
        (match (c :: cs).drop 5 with | d :: _ => d.isDigit | [] => false)) ||
      hasStepDigit cs

/-- Regex `\d\.\s`. -/
def hasNumberedItem : List Char → Bool
  | c :: d :: e :: rest =>
      (c.isDigit && d = '.' && isPySpace e) || hasNumberedItem (d :: e :: rest)
  | _ => false

/-- scorer.py:51-56.  The three patterns all yield the same result, so the
first-match loop is equivalent to a disjunction. -/
def score_multi_step (text : String) : DimensionScore :=
  if hasFirstThen text.data || hasStepDigit text.data || hasNumberedItem text.data then
    ("multiStepPatterns", mkRat 1 2, some "multi-step")
  else ("multiStepPatterns", 0, none)

/-- scorer.py:59-63. -/
def score_question_complexity (prompt : String) : DimensionScore :=
  let count := prompt.data.count '?'
  if 3 < count then
    ("questionComplexity", mkRat 1 2, some (toString count ++ " questions"))
  else ("questionComplexity", 0, none)

/-- scorer.py:66-81.  The loop collects matching keywords in list order and
keeps the first three as the signal, i.e. `mkws.take 3`. -/
def score_agentic_task (text : String) (keywords : List String) :
    DimensionScore × ℚ :=
  let mkws := keywords.filter (fun kw => strContains text (lowerStr kw))
  let sig := joinSep ", " (mkws.take 3)
  if 4 ≤ mkws.length then
    (("agenticTask", 1, some ("agentic (" ++ sig ++ ")")), 1)
  else if 3 ≤ mkws.length then
    (("agenticTask", mkRat 3 5, some ("agentic (" ++ sig ++ ")")), mkRat 3 5)
  else if 1 ≤ mkws.length then
    (("agenticTask", mkRat 1 5, some ("agentic-light (" ++ sig ++ ")")), mkRat 1 5)
  else (("agenticTask", 0, none), 0)

/-- scorer.py:88-244.  `cal` abstracts `_calibrate_confidence` (scorer.py:84-85),
the sigmoid `1/(1+exp(-steepness*distance))` applied to `(distance, steepness)`;
all theorems hold for an arbitrary calibration function. -/
def classify (cal : ℚ → ℚ → ℚ) (prompt : String) (system_prompt : Option String)
    (estimated_tokens : ℤ) (config : ScoringConfig) : ScoringResult :=
  let text := lowerStr ((system_prompt.getD "") ++ " " ++ prompt)
  let user_text := lowerStr prompt
  let dims : List DimensionScore :=
    [score_token_count estimated_tokens config.tokenSimple config.tokenComplex,
     score_keyword_match text config.codeKeywords "codePresence" "code"
       1 2 0 (mkRat 1 2) 1,
     score_keyword_match user_text config.reasoningKeywords "reasoningMarkers" "reasoning"
       1 2 0 (mkRat 7 10) 1,
     score_keyword_match text config.technicalKeywords "technicalTerms" "technical"
       2 4 0 (mkRat 1 2) 1,
     score_keyword_match text config.creativeKeywords "creativeMarkers" "creative"
       1 2 0 (mkRat 1 2) (mkRat 7 10),
     score_keyword_match text config.simpleKeywords "simpleIndicators" "simple"
       1 2 0 (-1) (-1),
     score_multi_step text,
     score_question_complexity prompt,
     score_keyword_match text config.imperativeVerbs "imperativeVerbs" "imperative"
       1 2 0 (mkRat 3 10) (mkRat 1 2),
     score_keyword_match text config.constraintIndicators "constraintCount" "constraints"
       1 3 0 (mkRat 3 10) (mkRat 7 10),
     score_keyword_match text config.outputFormatKeywords "outputFormat" "format"
       1 2 0 (mkRat 2 5) (mkRat 7 10),
     score_keyword_match text config.referenceKeywords "referenceComplexity" "references"
       1 2 0 (mkRat 3 10) (mkRat 1 2),
     score_keyword_match text config.negationKeywords "negationComplexity" "negation"
       2 3 0 (mkRat 3 10) (mkRat 1 2),
     score_keyword_match text config.domainSpecificKeywords "domainSpecificity" "domain-specific"
       1 2 0 (mkRat 1 2) (mkRat 4 5)]
  let agentic := score_agentic_task text config.agenticTaskKeywords
  let dims := dims ++ [agentic.1]
  let signals := dims.filterMap (fun d => d.2.2)
  let weighted_score :=
    dims.foldl (fun acc d => acc + d.2.1 * config.dimensionWeights d.1) 0
  let reasoning_matches :=
    config.reasoningKeywords.filter (fun kw => strContains user_text (lowerStr kw))
  let steepness := config.confidenceSteepness
  if 2 ≤ reasoning_matches.length then
    { score := weighted_score
      tier := some "REASONING"
      confidence := max (cal (max weighted_score (mkRat 3 10)) steepness) (mkRat 17 20)
      signals := signals
      agentic_score := agentic.2 }
  else
    let tierDist : String × ℚ :=
      if weighted_score < config.simpleMedium then
        ("SIMPLE", config.simpleMedium - weighted_score)
      else if weighted_score < config.mediumComplex then
        ("MEDIUM", min (weighted_score - config.simpleMedium)
          (config.mediumComplex - weighted_score))
      else if weighted_score < config.complexReasoning then
        ("COMPLEX", min (weighted_score - config.mediumComplex)
          (config.complexReasoning - weighted_score))
      else
        ("REASONING", weighted_score - config.complexReasoning)
    let confidence := cal tierDist.2 steepness
    if confidence < config.confidenceThreshold then
      { score := weighted_score, tier := none, confidence := confidence
        signals := signals, agentic_score := agentic.2 }
    else
      { score := weighted_score, tier := some tierDist.1, confidence := confidence
        signals := signals, agentic_score := agentic.2 }

/-! ## The candidate ranker (src/llms/extensions/smart_routing/router.py)

A provider catalog entry.  `provider_model` returns the resolved model
identifier or a falsy value (`None`/`""`); `model_info` returns an arbitrary
value (the code only uses it when it is a `dict`), `nul` standing for
Python `None`; `models` is the full model-id → descriptor catalog; `pchat`
is the provider's `chat` coroutine, modelled as a pure function from
(request, context) to (possibly updated context, response or exception),
with exceptions drawn from an arbitrary type `ε`. -/

structure Provider (ε : Type) where
  provider_model : String → Option String
  model_info : String → JValue
  models : List (String × JValue)
  pchat : JValue → JValue → JValue × Except ε JValue

/-- A ranked candidate: (provider id, resolved model id, model descriptor). -/
abbrev Candidate := String × String × JValue

/-- Python falsiness of `provider_model`'s result (`if not resolved`). -/
def presentStr : Option String → Option String
  | some s => if s = "" then none else some s
  | none => none

/-- router.py:140-150 (`_input_cost`); `none` models `math.inf`. -/
def input_cost (model_info : JValue) : Option ℚ :=
  match jobjGetD model_info "cost" (.obj []) with
  | .obj ckvs =>
      match (jlook ckvs "input").getD .nul with
      | .nul => none
      | v => pyToFloat v
  | _ => none

/-- Ascending cost order with `none` (= `math.inf`) last. -/
def costLe : Option ℚ → Option ℚ → Bool
  | none, none => true
  | none, some _ => false
  | some _, none => true
  | some x, some y => decide (x ≤ y)

/-- Stable insertion into a list sorted by `le` (the new element goes after
every already-placed element `b` with `le b a`). -/
def insSorted {α : Type} (le : α → α → Bool) (a : α) : List α → List α
  | [] => [a]
  | b :: bs => if le b a then b :: insSorted le a bs else a :: b :: bs

/-- Stable ascending sort (Python `list.sort(key=...)`). -/
def stableSort {α : Type} (le : α → α → Bool) (l : List α) : List α :=
  l.foldl (fun acc a => insSorted le a acc) []

/-- router.py:153-164 (`_model_info`): try the requested name, the resolved
name, then the raw `models` table; only `dict` results count. -/
def model_info_of {ε : Type} (p : Provider ε) (requested resolved : String) :
    Option JValue :=
  match p.model_info requested with
  | .obj kvs => some (.obj kvs)
  | _ =>
      match p.model_info resolved with
      | .obj kvs => some (.obj kvs)
      | _ =>
          match jlook p.models resolved with
          | some (.obj kvs) => some (.obj kvs)
          | _ => none

/-- router.py:93-99 (`_meets_capabilities`): every required-true capability
must be truthy on the descriptor.  The required values arrive as booleans
(`bool(required)` applied by the caller's normalization). -/
def meets_capabilities (model_info : JValue) (required_caps : List (String × Bool)) :
    Bool :=
  required_caps.all (fun cr => !cr.2 || jtruthy (jobjGet model_info cr.1))

/-- router.py:70-90 (`_find_provider_candidates_for_model`). -/
def find_provider_candidates_for_model {ε : Type} (model_name : String)
    (providers : List (String × Provider ε)) (required_caps : List (String × Bool)) :
    List Candidate :=
  let ranked : List (Option ℚ × Candidate) :=
    providers.filterMap (fun pp =>
      if pp.1 = "smart_routing" then none
      else
        match presentStr (pp.2.provider_model model_name) with
        | none => none
        | some resolved =>
            match model_info_of pp.2 model_name resolved with
            | none => none
            | some info =>
                if meets_capabilities info required_caps then
                  some (input_cost info, (pp.1, resolved, info))
                else none)
  (stableSort (fun a b => costLe a.1 b.1) ranked).map (fun rc => rc.2)

/-- config.py:233-238 (`TIER_COST_THRESHOLDS`). -/
def TIER_COST_THRESHOLDS : List (String × ℚ) :=
  [("SIMPLE", 1), ("MEDIUM", 5), ("COMPLEX", 20), ("REASONING", 50)]

/-- The body of the fallback scan loop (router.py:115-122): one catalog
entry `mi` of provider `pid` yields a keyed candidate when its descriptor
is a `dict`, meets the required capabilities and costs at most `max_cost`. -/
def fallback_entry (max_cost : ℚ) (required_caps : List (String × Bool))
    (pid : String) (mi : String × JValue) : Option (ℚ × Candidate) :=
  match mi.2 with
  | .obj _ =>
      if meets_capabilities mi.2 required_caps then
        match input_cost mi.2 with
        | some c => if c ≤ max_cost then some (c, (pid, mi.1, mi.2)) else none
        | none => none
      else none
  | _ => none

/-- router.py:102-125 (`_fallback_by_cost_candidates`). -/
def fallback_by_cost_candidates {ε : Type} (tier : String)
    (providers : List (String × Provider ε)) (required_caps : List (String × Bool)) :
    List Candidate :=
  let max_cost := (List.lookup tier TIER_COST_THRESHOLDS).getD 50
  let ranked : List (ℚ × Candidate) :=
    providers.flatMap (fun pp =>
      if pp.1 = "smart_routing" then []
      else pp.2.models.filterMap (fallback_entry max_cost required_caps pp.1))
  (stableSort (fun a b => decide (a.1 ≤ b.1)) ranked).map (fun rc => rc.2)

/-- router.py:128-137 (`_any_available_models`). -/
def any_available_models {ε : Type} (providers : List (String × Provider ε)) :
    List Candidate :=
  providers.flatMap (fun pp =>
    if pp.1 = "smart_routing" then []
    else
      pp.2.models.filterMap (fun mi =>
        match mi.2 with
        | .obj _ => some (pp.1, mi.1, mi.2)
        | _ => none))

/-- The de-duplication key `(candidate[0], candidate[1])` of router.py:171. -/
def candKey (c : Candidate) : String × String := (c.1, c.2.1)

/-- router.py:167-176 (`_dedupe_candidates`), with the `seen` set made
explicit as the list of already-emitted (provider, model) keys. -/
def dedupeGo (seen : List (String × String)) : List Candidate → List Candidate
  | [] => []
  | c :: rest =>
      if candKey c ∈ seen then dedupeGo seen rest
      else c :: dedupeGo (candKey c :: seen) rest

def dedupe_candidates (candidates : List Candidate) : List Candidate :=
  dedupeGo [] candidates

/-- One tier's preference entry (spec §3 `TierPreferenceTable`): ordered
preferred model identifiers and required capabilities.  `rank_candidates`
receives these already normalized. -/
structure TierPref where
  preferred_models : List String
  capabilities : List (String × Bool)

abbrev PrefTable := List (String × TierPref)

/-- config.py:168-193 (`DEFAULT_TIER_PREFERENCES`). -/
def DEFAULT_TIER_PREFERENCES : PrefTable :=
  [("SIMPLE", ⟨["gemini-2.5-flash", "deepseek-chat", "gpt-4o-mini"], []⟩),
   ("MEDIUM", ⟨["deepseek-chat", "gpt-4o-mini", "gemini-2.5-flash"], []⟩),
   ("COMPLEX", ⟨["gemini-2.5-pro", "claude-sonnet-4", "gpt-4o"], []⟩),
   ("REASONING", ⟨["deepseek-reasoner", "o3-mini", "gemini-2.5-pro"],
      [("reasoning", true)]⟩)]

/-- config.py:196-221 (`DEFAULT_AGENTIC_PREFERENCES`). -/
def DEFAULT_AGENTIC_PREFERENCES : PrefTable :=
  [("SIMPLE", ⟨["claude-haiku-4.5", "gpt-4o-mini", "gemini-2.5-flash"],
      [("tool_call", true)]⟩),
   ("MEDIUM", ⟨["claude-sonnet-4", "gpt-4o", "gemini-2.5-flash"],
      [("tool_call", true)]⟩),
   ("COMPLEX", ⟨["claude-sonnet-4", "claude-opus-4", "gpt-4o"],
      [("tool_call", true)]⟩),
   ("REASONING", ⟨["claude-sonnet-4", "deepseek-reasoner", "gemini-2.5-pro"],
      [("tool_call", true)]⟩)]

/-- router.py:60-67 (`_tier_preferences`): `x or DEFAULT`, where both
`None` and an empty table are falsy. -/
def tier_preferences (agentic : Bool)
    (preferences agentic_preferences : Option PrefTable) : PrefTable :=
  if agentic then
    match agentic_preferences with
    | some (e :: es) => e :: es
    | _ => DEFAULT_AGENTIC_PREFERENCES
  else
    match preferences with
    | some (e :: es) => e :: es
    | _ => DEFAULT_TIER_PREFERENCES

/-- router.py:36-57 (`rank_candidates`). -/
def rank_candidates {ε : Type} (tier : String) (agentic : Bool)
    (providers : List (String × Provider ε))
    (preferences agentic_preferences : Option PrefTable) : List Candidate :=
  let prefs := tier_preferences agentic preferences agentic_preferences
  let tier_pref := (List.lookup tier prefs).getD ⟨[], []⟩
  let required_caps := tier_pref.capabilities
  let first_pass :=
    tier_pref.preferred_models.flatMap
      (fun m => find_provider_candidates_for_model m providers required_caps)
  let with_fallback := first_pass ++ fallback_by_cost_candidates tier providers required_caps
  let all_candidates :=
    if with_fallback.isEmpty then any_available_models providers else with_fallback
  dedupe_candidates all_candidates

/-! ## The fallback executor (src/llms/extensions/smart_routing/__init__.py)

`SmartRouterProvider.chat` and its helpers.  The provider's own normalized
configuration is carried as the structured record `SmartCfg`; the mutable
`chat` request dict and conversation context are threaded explicitly;
logging and the global statistics counters do not influence any result and
are omitted. -/

/-- config.py:230 (`TIER_RANK`). -/
def TIER_RANK : List (String × ℤ) :=
  [("SIMPLE", 0), ("MEDIUM", 1), ("COMPLEX", 2), ("REASONING", 3)]

/-- The normalized `overrides` table (.__init__.py:223-228 defaults). -/
structure Overrides where
  maxTokensForceComplex : ℤ
  structuredOutputMinTier : String
  ambiguousDefaultTier : String
  agenticMode : Bool

/-- The parts of `SmartRouterProvider`'s normalized configuration that
`chat` reads (`self.scoring_config`, `self.overrides`,
`self.tier_preferences`, `self.agentic_preferences`). -/
structure SmartCfg where
  scoring : ScoringConfig
  overrides : Overrides
  tier_preferences : PrefTable
  agentic_preferences : PrefTable

/-- __init__.py:283-300 (`_chat_content_to_text`). -/
def chat_content_to_text (content : JValue) : String :=
  match content with
  | .str s => s
  | .list parts =>
      joinSep " " (parts.filterMap (fun part =>
        match part with
        | .obj kvs =>
            match jlook kvs "type", jlook kvs "text" with
            | some (.str ty), some (.str t) =>
                if ty = "text" then some t
                else
                  match jlook kvs "content" with
                  | some (.str c) => some c
                  | _ => none
            | _, _ =>
                match jlook kvs "content" with
                | some (.str c) => some c
                | _ => none
        | _ => none))
  | .obj kvs =>
      match jlook kvs "text" with
      | some (.str s) => s
      | _ => ""
  | _ => ""

/-- __init__.py:303-309 (`_last_user_prompt`). -/
def last_user_prompt (messages : JValue) : String :=
  match messages with
  | .list ms =>
      (ms.reverse.findSome? (fun m =>
        match m with
        | .obj kvs =>
            match jlook kvs "role" with
            | some (.str r) =>
                if r = "user" then
                  some (chat_content_to_text ((jlook kvs "content").getD .nul))
                else none
            | _ => none
        | _ => none)).getD ""
  | _ => ""

/-- __init__.py:312-320 (`_system_prompt`): the first system message decides
the outcome; an empty extracted text yields `None`. -/
def system_prompt_of (messages : JValue) : Option String :=
  match messages with
  | .list ms =>
      match ms.findSome? (fun m =>
        match m with
        | .obj kvs =>
            match jlook kvs "role" with
            | some (.str r) =>
                if r = "system" then
                  some (chat_content_to_text ((jlook kvs "content").getD .nul))
                else none
            | _ => none
        | _ => none) with
      | some t => if t = "" then none else some t
      | none => none
  | _ => none

/-- The reserved conversation-context key (__init__.py:42). -/
def SELECTION_CONTEXT_KEY : String := "_smart_routing_selection"

/-- __init__.py:379-403 (`_get_pinned_selection`).  A pinned `provider` or
`model` of non-string type cannot match any provider in a string-keyed
catalog and yields no pin. -/
def get_pinned_selection {ε : Type} (context : JValue)
    (providers : List (String × Provider ε)) : Option Candidate :=
  match context with
  | .obj ckvs =>
      match (jlook ckvs SELECTION_CONTEXT_KEY).getD .nul with
      | .obj pkvs =>
          let pv := (jlook pkvs "provider").getD .nul
          let mv := (jlook pkvs "model").getD .nul
          if !jtruthy pv || !jtruthy mv then none
          else
            match pv, mv with
            | .str provider_id, .str model_id =>
                match List.lookup provider_id providers with
                | none => none
                | some p =>
                    if provider_id = "smart_routing" then none
                    else
                      match presentStr (p.provider_model model_id) with
                      | none => none
                      | some resolved =>
                          let info :=
                            if jtruthy (p.model_info model_id) then p.model_info model_id
                            else p.model_info resolved
                          match info with
                          | .obj _ => some (provider_id, resolved, info)
                          | _ =>
                              match jlook p.models resolved with
                              | some (.obj mkvs) => some (provider_id, resolved, .obj mkvs)
                              | _ => none
            | _, _ => none
      | _ => none
  | _ => none

/-- __init__.py:405-414 (`_pin_selection`). -/
def pin_selection (context : JValue) (provider_id model_id tier : String)
    (confidence : ℚ) (agentic : Bool) : JValue :=
  match context with
  | .obj ckvs =>
      .obj (oset ckvs SELECTION_CONTEXT_KEY (.obj
        [("provider", .str provider_id), ("model", .str model_id),
         ("tier", .str tier), ("confidence", .float (roundQ confidence 6)),
         ("agentic", .bool agentic)]))
  | _ => context

/-- __init__.py:416-423 (`_update_context_provider_info`). -/
def update_context_provider_info {ε : Type} (context : JValue) (p : Provider ε)
    (provider_id model_id : String) : JValue :=
  match context with
  | .obj ckvs =>
      let ckvs1 := oset ckvs "provider" (.str provider_id)
      let mi0 := p.model_info model_id
      let mi :=
        if jtruthy mi0 then mi0
        else p.model_info ((presentStr (p.provider_model model_id)).getD model_id)
      match mi with
      | .obj mkvs =>
          .obj (oset (oset ckvs1 "modelInfo" (.obj mkvs)) "modelCost"
            (jobjGetD (.obj mkvs) "cost" (.obj [("input", .int 0), ("output", .int 0)])))
      | _ => .obj ckvs1
  | _ => context

/-- The executor's failure modes (__init__.py:486, 537-539): a distinct
"no available provider candidates" error for an empty candidate list, the
re-raised first per-candidate exception, and the generic "no candidate
provider could fulfill this request" error when candidates existed but
none was ever invoked. -/
inductive RouteError (ε : Type) where
  | noCandidates
  | raised (e : ε)
  | exhausted

/-- The routing metadata attached to a successful `dict` response
(__init__.py:522-534). -/
def routing_meta (tier : String) (confidence score : ℚ) (provider_id model_id : String)
    (agentic : Bool) (signals : List String) (pinned : Bool) (attempts : ℤ)
    (reasoning_parts : List String) : JValue :=
  .obj [("tier", .str tier), ("confidence", .float (roundQ confidence 3)),
        ("score", .float (roundQ score 4)), ("provider", .str provider_id),
        ("model", .str model_id), ("agentic", .bool agentic),
        ("signals", .list (signals.map .str)), ("pinned", .bool pinned),
        ("attempts", .int attempts), ("reasoning", .str (joinSep " | " reasoning_parts))]

/-- The candidate walk (__init__.py:488-539): `idx` is the `enumerate`
counter (it advances over skipped candidates too), `first_exn` remembers
the first invocation failure.  Returns the final context and the outcome. -/
def walk {ε : Type} (providers : List (String × Provider ε))
    (tier : String) (confidence score : ℚ) (signals : List String)
    (use_agentic pinned : Bool) :
    List Candidate → ℕ → List (String × JValue) → JValue → Option ε → List String →
    JValue × Except (RouteError ε) JValue
  | [], _, _, context, first_exn, _ =>
      (context, .error (match first_exn with
        | some e => .raised e
        | none => .exhausted))
  | c :: rest, idx, chat, context, first_exn, parts =>
      match List.lookup c.1 providers with
      | none => walk providers tier confidence score signals use_agentic pinned
          rest (idx + 1) chat context first_exn parts
      | some p =>
          if c.1 = "smart_routing" then
            walk providers tier confidence score signals use_agentic pinned
              rest (idx + 1) chat context first_exn parts
          else
            let parts := if 0 < idx then parts ++ ["fallback=" ++ c.1 ++ "/" ++ c.2.1] else parts
            let chat := oset chat "model" (.str c.2.1)
            let context := update_context_provider_info context p c.1 c.2.1
            match p.pchat (.obj chat) context with
            | (context2, .error e) =>
                walk providers tier confidence score signals use_agentic pinned
                  rest (idx + 1) chat context2
                  (match first_exn with | none => some e | some e0 => some e0) parts
            | (context2, .ok response) =>
                let context3 := pin_selection context2 c.1 c.2.1 tier confidence use_agentic
                let response2 :=
                  match response with
                  | .obj rkvs =>
                      JValue.obj (oset rkvs "routing"
                        (routing_meta tier confidence score c.1 c.2.1 use_agentic
                          signals pinned (idx + 1) parts))
                  | _ => response
                (context3, .ok response2)

/-- The first candidate of a list that the walk actually invokes: its
provider id is in the catalog and is not the router's own entry. -/
def firstInvocable {ε : Type} (providers : List (String × Provider ε)) :
    List Candidate → Option Candidate
  | [] => none
  | c :: rest =>
      match List.lookup c.1 providers with
      | none => firstInvocable providers rest
      | some _ =>
          if c.1 = "smart_routing" then firstInvocable providers rest else some c

/-- __init__.py:485-539: the executor proper, applied to an already chosen
candidate list. -/
def execute {ε : Type} (providers : List (String × Provider ε))
    (candidates : List Candidate) (tier : String) (confidence score : ℚ)
    (signals : List String) (use_agentic pinned : Bool)
    (chat : List (String × JValue)) (context : JValue) (parts : List String) :
    JValue × Except (RouteError ε) JValue :=
  if candidates.isEmpty then (context, .error .noCandidates)
  else walk providers tier confidence score signals use_agentic pinned
    candidates 0 chat context none parts

/-- __init__.py:425-539 (`SmartRouterProvider.chat`).  `cal` abstracts the
sigmoid exactly as in `classify`; `chat` is the request `dict`'s key/value
list; returns the final conversation context and the outcome. -/
def smart_chat {ε : Type} (cal : ℚ → ℚ → ℚ) (S : SmartCfg)
    (providers : List (String × Provider ε))
    (chat : List (String × JValue)) (context : JValue) :
    JValue × Except (RouteError ε) JValue :=
  let messages := (jlook chat "messages").getD (.list [])
  let prompt := last_user_prompt messages
  let system_prompt := system_prompt_of messages
  let full_text := (system_prompt.getD "") ++ " " ++ prompt
  let estimated_tokens : ℤ := max 1 (((full_text.length + 3) / 4 : ℕ) : ℤ)
  let has_tools := jtruthy ((jlook chat "tools").getD .nul)
  let result := classify cal prompt system_prompt estimated_tokens S.scoring
  let is_auto_agentic := decide (mkRat 3 4 ≤ result.agentic_score)
  let is_explicit_agentic := S.overrides.agenticMode
  let use_agentic := has_tools || is_auto_agentic || is_explicit_agentic
  let parts0 := ["score=" ++ fmtFixed2 result.score] ++
    (if result.signals.isEmpty then [] else [joinSep ", " result.signals])
  let step1 : Option String × ℚ × List String :=
    if S.overrides.maxTokensForceComplex < estimated_tokens then
      (some "COMPLEX", mkRat 19 20,
        parts0 ++ ["large context (" ++ toString estimated_tokens ++ " tokens)"])
    else (result.tier, result.confidence, parts0)
  let step2 : String × ℚ × List String :=
    match step1.1 with
    | none =>
        (S.overrides.ambiguousDefaultTier, mkRat 1 2,
          step1.2.2 ++ ["ambiguous -> " ++ S.overrides.ambiguousDefaultTier])
    | some t => (t, step1.2.1, step1.2.2)
  let structured_sys :=
    match system_prompt with
    | some sp =>
        sp ≠ "" && (strContains (lowerStr sp) "json" ||
          strContains (lowerStr sp) "structured" || strContains (lowerStr sp) "schema")
    | none => false
  let step3 : String × List String :=
    if structured_sys then
      let min_tier := S.overrides.structuredOutputMinTier
      if (List.lookup step2.1 TIER_RANK).getD 0 < (List.lookup min_tier TIER_RANK).getD 0 then
        (min_tier, step2.2.2 ++ ["upgraded to " ++ min_tier ++ " (structured output)"])
      else (step2.1, step2.2.2)
    else (step2.1, step2.2.2)
  let tier := step3.1
  let confidence := step2.2.1
  let parts := step3.2 ++
    (if has_tools then ["agentic"]
     else if is_auto_agentic then ["auto-agentic"]
     else if is_explicit_agentic then ["forced-agentic"]
     else [])
  match get_pinned_selection context providers with
  | some sel =>
      execute providers [sel] tier confidence result.score result.signals
        use_agentic true chat context parts
  | none =>
      execute providers
        (rank_candidates tier use_agentic providers
          (some S.tier_preferences) (some S.agentic_preferences))
        tier confidence result.score result.signals use_agentic false chat context parts

/-! ## Default configuration (src/llms/extensions/smart_routing/config.py)

All rational constants are written with `mkRat` so that concrete runs of the
normalizer reduce inside the kernel; `mkRat a b = a / b` exactly. -/

def TIERS : List String := ["SIMPLE", "MEDIUM", "COMPLEX", "REASONING"]

def defaultCodeKeywords : List String :=
  ["function", "class", "import", "def", "select", "async", "await",
   "const", "let", "var", "return", "```",
   "函数", "类", "导入", "定义", "查询", "异步", "等待", "常量", "变量", "返回",
   "関数", "クラス", "インポート", "非同期", "定数", "変数",
   "функция", "класс", "импорт", "определ", "запрос", "асинхронный",
   "ожидать", "константа", "переменная", "вернуть",
   "funktion", "klasse", "importieren", "definieren", "abfrage",
   "asynchron", "erwarten", "konstante", "variable", "zurückgeben"]

def defaultReasoningKeywords : List String :=
  ["prove", "theorem", "derive", "step by step", "chain of thought",
   "formally", "mathematical", "proof", "logically",
   "证明", "定理", "推导", "逐步", "思维链", "形式化", "数学", "逻辑",
   "証明", "定理", "導出", "ステップバイステップ", "論理的",
   "доказать", "докажи", "доказательств", "теорема", "вывести",
   "шаг за шагом", "пошагово", "поэтапно", "цепочка рассуждений",
   "рассуждени", "формально", "математически", "логически",
   "beweisen", "beweis", "theorem", "ableiten", "schritt für schritt",
   "gedankenkette", "formal", "mathematisch", "logisch"]

def defaultSimpleKeywords : List String :=
  ["what is", "define", "translate", "hello", "yes or no", "capital of",
   "how old", "who is", "when was",
   "什么是", "定义", "翻译", "你好", "是否", "首都", "多大", "谁是", "何时",
   "とは", "定義", "翻訳", "こんにちは", "はいかいいえ", "首都", "誰",
   "что такое", "определение", "перевести", "переведи", "привет",
   "да или нет", "столица", "сколько лет", "кто такой", "когда", "объясни",
   "was ist", "definiere", "übersetze", "hallo", "ja oder nein",
   "hauptstadt", "wie alt", "wer ist", "wann", "erkläre"]

def defaultTechnicalKeywords : List String :=
  ["algorithm", "optimize", "architecture", "distributed", "kubernetes",
   "microservice", "database", "infrastructure",
   "算法", "优化", "架构", "分布式", "微服务", "数据库", "基础设施",
   "アルゴリズム", "最適化", "アーキテクチャ", "分散", "マイクロサービス", "データベース",
   "алгоритм", "оптимизировать", "оптимизаци", "оптимизируй", "архитектура",
   "распределённый", "микросервис", "база данных", "инфраструктура",
   "algorithmus", "optimieren", "architektur", "verteilt", "kubernetes",
   "mikroservice", "datenbank", "infrastruktur"]

def defaultCreativeKeywords : List String :=
  ["story", "poem", "compose", "brainstorm", "creative", "imagine", "write a",
   "故事", "诗", "创作", "头脑风暴", "创意", "想象", "写一个",
   "物語", "詩", "作曲", "ブレインストーム", "創造的", "想像",
   "история", "рассказ", "стихотворение", "сочинить", "сочини",
   "мозговой штурм", "творческий", "представить", "придумай", "напиши",
   "geschichte", "gedicht", "komponieren", "brainstorming", "kreativ",
   "vorstellen", "schreibe", "erzählung"]

def defaultImperativeVerbs : List String :=
  ["build", "create", "implement", "design", "develop", "construct",
   "generate", "deploy", "configure", "set up",
   "构建", "创建", "实现", "设计", "开发", "生成", "部署", "配置", "设置",
   "構築", "作成", "実装", "設計", "開発", "生成", "デプロイ", "設定",
   "построить", "построй", "создать", "создай", "реализовать", "реализуй",
   "спроектировать", "разработать", "разработай", "сконструировать",
   "сгенерировать", "сгенерируй", "развернуть", "разверни", "настроить", "настрой",
   "erstellen", "bauen", "implementieren", "entwerfen", "entwickeln",
   "konstruieren", "generieren", "bereitstellen", "konfigurieren", "einrichten"]

def defaultConstraintIndicators : List String :=
  ["under", "at most", "at least", "within", "no more than", "o(",
   "maximum", "minimum", "limit", "budget",
   "不超过", "至少", "最多", "在内", "最大", "最小", "限制", "预算",
   "以下", "最大", "最小", "制限", "予算",
   "не более", "не менее", "как минимум", "в пределах", "максимум",
   "минимум", "ограничение", "бюджет",
   "höchstens", "mindestens", "innerhalb", "nicht mehr als",
   "maximal", "minimal", "grenze", "budget"]

def defaultOutputFormatKeywords : List String :=
  ["json", "yaml", "xml", "table", "csv", "markdown", "schema",
   "format as", "structured",
   "表格", "格式化为", "结构化",
   "テーブル", "フォーマット", "構造化",
   "таблица", "форматировать как", "структурированный",
   "tabelle", "formatieren als", "strukturiert"]

def defaultReferenceKeywords : List String :=
  ["above", "below", "previous", "following", "the docs", "the api",
   "the code", "earlier", "attached",
   "上面", "下面", "之前", "接下来", "文档", "代码", "附件",
   "上記", "下記", "前の", "次の", "ドキュメント", "コード",
   "выше", "ниже", "предыдущий", "следующий", "документация", "код",
   "ранее", "вложение",
   "oben", "unten", "vorherige", "folgende", "dokumentation", "der code",
   "früher", "anhang"]

def defaultNegationKeywords : List String :=
  ["don\x27t", "do not", "avoid", "never", "without", "except", "exclude",
   "no longer",
   "不要", "避免", "从不", "没有", "除了", "排除",
   "しないで", "避ける", "決して", "なしで", "除く",
   "не делай", "не надо", "нельзя", "избегать", "никогда", "без",
   "кроме", "исключить", "больше не",
   "nicht", "vermeide", "niemals", "ohne", "außer", "ausschließen", "nicht mehr"]

def defaultDomainSpecificKeywords : List String :=
  ["quantum", "fpga", "vlsi", "risc-v", "asic", "photonics", "genomics",
   "proteomics", "topological", "homomorphic", "zero-knowledge", "lattice-based",
   "量子", "光子学", "基因组学", "蛋白质组学", "拓扑", "同态", "零知识", "格密码",
   "量子", "フォトニクス", "ゲノミクス", "トポロジカル",
   "квантовый", "фотоника", "геномика", "протеомика", "топологический",
   "гомоморфный", "с нулевым разглашением", "на основе решёток",
   "quanten", "photonik", "genomik", "proteomik", "topologisch",
   "homomorph", "zero-knowledge", "gitterbasiert"]

def defaultAgenticTaskKeywords : List String :=
  ["read file", "read the file", "look at", "check the", "open the",
   "edit", "modify", "update the", "change the", "write to", "create file",
   "execute", "deploy", "install", "npm", "pip", "compile",
   "after that", "and also", "once done", "step 1", "step 2",
   "fix", "debug", "until it works", "keep trying", "iterate",
   "make sure", "verify", "confirm",
   "读取文件", "查看", "打开", "编辑", "修改", "更新", "创建",
   "执行", "部署", "安装", "第一步", "第二步", "修复", "调试",
   "直到", "确认", "验证"]

/-- config.py:138-154 (`dimensionWeights` defaults, in source order). -/
def defaultDimensionWeights : List (String × ℚ) :=
  [("tokenCount", mkRat 2 25), ("codePresence", mkRat 3 20),
   ("reasoningMarkers", mkRat 9 50), ("technicalTerms", mkRat 1 10),
   ("creativeMarkers", mkRat 1 20), ("simpleIndicators", mkRat 1 50),
   ("multiStepPatterns", mkRat 3 25), ("questionComplexity", mkRat 1 20),
   ("imperativeVerbs", mkRat 3 100), ("constraintCount", mkRat 1 25),
   ("outputFormat", mkRat 3 100), ("referenceComplexity", mkRat 1 50),
   ("negationComplexity", mkRat 1 100), ("domainSpecificity", mkRat 1 50),
   ("agenticTask", mkRat 1 25)]

/-- config.py:13-165 (`DEFAULT_SCORING_CONFIG`), keys in source order.
`confidenceSteepness` is the Python `int` 12. -/
def DEFAULT_SCORING_CONFIG_KVS : List (String × JValue) :=
  [("tokenCountThresholds", .obj [("simple", .int 50), ("complex", .int 500)]),
   ("codeKeywords", .list (defaultCodeKeywords.map .str)),
   ("reasoningKeywords", .list (defaultReasoningKeywords.map .str)),
   ("simpleKeywords", .list (defaultSimpleKeywords.map .str)),
   ("technicalKeywords", .list (defaultTechnicalKeywords.map .str)),
   ("creativeKeywords", .list (defaultCreativeKeywords.map .str)),
   ("imperativeVerbs", .list (defaultImperativeVerbs.map .str)),
   ("constraintIndicators", .list (defaultConstraintIndicators.map .str)),
   ("outputFormatKeywords", .list (defaultOutputFormatKeywords.map .str)),
   ("referenceKeywords", .list (defaultReferenceKeywords.map .str)),
   ("negationKeywords", .list (defaultNegationKeywords.map .str)),
   ("domainSpecificKeywords", .list (defaultDomainSpecificKeywords.map .str)),
   ("agenticTaskKeywords", .list (defaultAgenticTaskKeywords.map .str)),
   ("dimensionWeights", .obj (defaultDimensionWeights.map
      (fun kw => (kw.1, JValue.float kw.2)))),
   ("tierBoundaries", .obj [("simpleMedium", .float 0),
      ("mediumComplex", .float (mkRat 9 50)), ("complexReasoning", .float (mkRat 2 5))]),
   ("confidenceSteepness", .int 12),
   ("confidenceThreshold", .float (mkRat 7 10))]

/-- The default preference tables as (tier, preferred models, capability
dict) triples, shared by the `JValue` default configuration and the
normalizer's fallback entries. -/
def defaultTierPrefsBase : List (String × List String × List (String × JValue)) :=
  [("SIMPLE", ["gemini-2.5-flash", "deepseek-chat", "gpt-4o-mini"], []),
   ("MEDIUM", ["deepseek-chat", "gpt-4o-mini", "gemini-2.5-flash"], []),
   ("COMPLEX", ["gemini-2.5-pro", "claude-sonnet-4", "gpt-4o"], []),
   ("REASONING", ["deepseek-reasoner", "o3-mini", "gemini-2.5-pro"],
      [("reasoning", .bool true)])]

def defaultAgenticPrefsBase : List (String × List String × List (String × JValue)) :=
  [("SIMPLE", ["claude-haiku-4.5", "gpt-4o-mini", "gemini-2.5-flash"],
      [("tool_call", .bool true)]),
   ("MEDIUM", ["claude-sonnet-4", "gpt-4o", "gemini-2.5-flash"],
      [("tool_call", .bool true)]),
   ("COMPLEX", ["claude-sonnet-4", "claude-opus-4", "gpt-4o"],
      [("tool_call", .bool true)]),
   ("REASONING", ["claude-sonnet-4", "deepseek-reasoner", "gemini-2.5-pro"],
      [("tool_call", .bool true)])]

def prefsBaseToKvs (base : List (String × List String × List (String × JValue))) :
    List (String × JValue) :=
  base.map (fun e => (e.1, JValue.obj
    [("preferred_models", .list (e.2.1.map .str)), ("capabilities", .obj e.2.2)]))

/-- config.py:223-228 (`DEFAULT_OVERRIDES`). -/
def DEFAULT_OVERRIDES_KVS : List (String × JValue) :=
  [("maxTokensForceComplex", .int 100000),
   ("structuredOutputMinTier", .str "MEDIUM"),
   ("ambiguousDefaultTier", .str "MEDIUM"),
   ("agenticMode", .bool false)]

/-- config.py:240-249 (`DEFAULT_CONFIG` / `default_config()`). -/
def default_config_kvs : List (String × JValue) :=
  [("scoring", .obj DEFAULT_SCORING_CONFIG_KVS),
   ("overrides", .obj DEFAULT_OVERRIDES_KVS),
   ("tierPreferences", .obj (prefsBaseToKvs defaultTierPrefsBase)),
   ("agenticPreferences", .obj (prefsBaseToKvs defaultAgenticPrefsBase))]

/-! ## The configuration normalizer (src/llms/extensions/smart_routing/__init__.py)

`Except Unit` models the `AttributeError` raised when a nested
configuration entry that the code calls `.get` on is not a `dict`
(`_normalize_scoring` reads `tokenCountThresholds`, `dimensionWeights`
and `tierBoundaries` without an `isinstance` guard). -/

/-- __init__.py:70-79 (`_coerce_bool`). -/
def coerce_bool (value : JValue) (default : Bool) : Bool :=
  match value with
  | .bool b => b
  | .str s =>
      let lowered := lowerStr (pyStrip s)
      if lowered = "1" || lowered = "true" || lowered = "yes" || lowered = "on" then true
      else if lowered = "0" || lowered = "false" || lowered = "no" || lowered = "off" then false
      else default
  | _ => default

/-- __init__.py:82-87 (`_coerce_int`). -/
def coerce_int (value : JValue) (default : ℤ) (minimum : ℤ) : ℤ :=
  match pyToInt value with
  | none => default
  | some c => if minimum ≤ c then c else default

/-- __init__.py:90-99 (`_coerce_float`). -/
def coerce_float (value : JValue) (default : ℚ) (minimum maximum : Option ℚ) : ℚ :=
  match pyToFloat value with
  | none => default
  | some c =>
      if (match minimum with | some m => decide (c < m) | none => false) then default
      else if (match maximum with | some m => decide (m < c) | none => false) then default
      else c

/-- __init__.py:102-106 (`_coerce_tier`): `str(value).upper()` of a
non-string value is never one of the four tier labels. -/
def coerce_tier (value : JValue) (default : String) : String :=
  match value with
  | .nul => default
  | .str s => let t := upperStr s; if t ∈ TIERS then t else default
  | _ => default

/-- __init__.py:109-118 (`_sanitize_string_list`). -/
def sanitize_string_list (value : JValue) (default : List String) : List String :=
  match value with
  | .list xs =>
      let ret := xs.filterMap (fun item =>
        match item with
        | .str s => let stripped := pyStrip s; if stripped = "" then none else some stripped
        | _ => none)
      if ret.isEmpty then default else ret
  | _ => default

/-- __init__.py:121-124 (`_sanitize_capabilities`). -/
def sanitize_capabilities (value : JValue) (default : List (String × JValue)) :
    List (String × JValue) :=
  match value with
  | .obj kvs => kvs.map (fun kv => (kv.1, JValue.bool (jtruthy kv.2)))
  | _ => default

/-- The replacement value `_normalize_scoring` assigns to the key `k` of
the merged scoring `dict` (with `v` its merged value, kept for keys the
function does not reassign).  The merged `dict` always contains all
seventeen default keys, each reassignment reads the merged `dict` before
its own key is written, and the seventeen reassigned keys are pairwise
distinct, so the source's sequence of `merged[key] = ...` statements is a
single keyed in-place replacement over `merged`. -/
def scoringFieldValue (merged tkvs wkvs bkvs : List (String × JValue))
    (k : String) (v : JValue) : JValue :=
  if k = "tokenCountThresholds" then
    let simple := coerce_int ((jlook tkvs "simple").getD .nul) 50 1
    let cplx := coerce_int ((jlook tkvs "complex").getD .nul) 500 1
    .obj [("simple", .int simple),
          ("complex", .int (if cplx < simple then simple else cplx))]
  else if k = "codeKeywords" then
    .list ((sanitize_string_list ((jlook merged k).getD .nul) defaultCodeKeywords).map .str)
  else if k = "reasoningKeywords" then
    .list ((sanitize_string_list ((jlook merged k).getD .nul) defaultReasoningKeywords).map .str)
  else if k = "simpleKeywords" then
    .list ((sanitize_string_list ((jlook merged k).getD .nul) defaultSimpleKeywords).map .str)
  else if k = "technicalKeywords" then
    .list ((sanitize_string_list ((jlook merged k).getD .nul) defaultTechnicalKeywords).map .str)
  else if k = "creativeKeywords" then
    .list ((sanitize_string_list ((jlook merged k).getD .nul) defaultCreativeKeywords).map .str)
  else if k = "imperativeVerbs" then
    .list ((sanitize_string_list ((jlook merged k).getD .nul) defaultImperativeVerbs).map .str)
  else if k = "constraintIndicators" then
    .list ((sanitize_string_list ((jlook merged k).getD .nul) defaultConstraintIndicators).map .str)
  else if k = "outputFormatKeywords" then
    .list ((sanitize_string_list ((jlook merged k).getD .nul) defaultOutputFormatKeywords).map .str)
  else if k = "referenceKeywords" then
    .list ((sanitize_string_list ((jlook merged k).getD .nul) defaultReferenceKeywords).map .str)
  else if k = "negationKeywords" then
    .list ((sanitize_string_list ((jlook merged k).getD .nul) defaultNegationKeywords).map .str)
  else if k = "domainSpecificKeywords" then
    .list ((sanitize_string_list ((jlook merged k).getD .nul) defaultDomainSpecificKeywords).map .str)
  else if k = "agenticTaskKeywords" then
    .list ((sanitize_string_list ((jlook merged k).getD .nul) defaultAgenticTaskKeywords).map .str)
  else if k = "dimensionWeights" then
    .obj (defaultDimensionWeights.map (fun kd => (kd.1, JValue.float
      (coerce_float ((jlook wkvs kd.1).getD .nul) kd.2 (some (-2)) (some 2)))))
  else if k = "tierBoundaries" then
    let sm := coerce_float ((jlook bkvs "simpleMedium").getD .nul) 0 none none
    let mc0 := coerce_float ((jlook bkvs "mediumComplex").getD .nul) (mkRat 9 50) none none
    let cr0 := coerce_float ((jlook bkvs "complexReasoning").getD .nul) (mkRat 2 5) none none
    let mc := if mc0 < sm then sm else mc0
    .obj [("simpleMedium", .float sm), ("mediumComplex", .float mc),
          ("complexReasoning", .float (if cr0 < mc then mc else cr0))]
  else if k = "confidenceSteepness" then
    .float (coerce_float ((jlook merged k).getD .nul) 12 (some (mkRat 1 10)) (some 100))
  else if k = "confidenceThreshold" then
    .float (coerce_float ((jlook merged k).getD .nul) (mkRat 7 10) (some 0) (some 1))
  else v

/-- __init__.py:127-196 (`_normalize_scoring`), returning the normalized
scoring `dict`'s key/value list.  The three unguarded `.get` reads on
`tokenCountThresholds`, `dimensionWeights` and `tierBoundaries` raise
`AttributeError` when the merged value is not a `dict` (`.error ()`). -/
def normalize_scoring (scoring : JValue) : Except Unit (List (String × JValue)) :=
  let merged := dmList DEFAULT_SCORING_CONFIG_KVS (asKvs scoring)
  match (jlook merged "tokenCountThresholds").getD (.obj []) with
  | .obj tkvs =>
      match (jlook merged "dimensionWeights").getD (.obj []) with
      | .obj wkvs =>
          match (jlook merged "tierBoundaries").getD (.obj []) with
          | .obj bkvs =>
              .ok (merged.map (fun kv =>
                (kv.1, scoringFieldValue merged tkvs wkvs bkvs kv.1 kv.2)))
          | _ => .error ()
      | _ => .error ()
  | _ => .error ()

/-- __init__.py:199-217 (`_normalize_preferences`).  The `defaults`
argument is always one of the two built-in preference tables, passed in
the shared base representation. -/
def normalize_preferences (prefs : JValue)
    (defaults : List (String × List String × List (String × JValue))) :
    List (String × JValue) :=
  let source := asKvs prefs
  defaults.map (fun dflt =>
    let raw := asKvs ((jlook source dflt.1).getD (.obj []))
    (dflt.1, JValue.obj
      [("preferred_models", .list
         ((sanitize_string_list ((jlook raw "preferred_models").getD .nul) dflt.2.1).map .str)),
       ("capabilities", .obj
         (sanitize_capabilities ((jlook raw "capabilities").getD .nul) dflt.2.2))]))

/-- __init__.py:220-238 (`_normalize_overrides`). -/
def normalize_overrides (overrides : JValue) : List (String × JValue) :=
  let merged := dmList DEFAULT_OVERRIDES_KVS (asKvs overrides)
  [("maxTokensForceComplex", .int
     (coerce_int ((jlook merged "maxTokensForceComplex").getD .nul) 100000 1)),
   ("structuredOutputMinTier", .str
     (coerce_tier ((jlook merged "structuredOutputMinTier").getD .nul) "MEDIUM")),
   ("ambiguousDefaultTier", .str
     (coerce_tier ((jlook merged "ambiguousDefaultTier").getD .nul) "MEDIUM")),
   ("agenticMode", .bool (coerce_bool ((jlook merged "agenticMode").getD .nul) false))]

/-- __init__.py:241-254 (`normalize_config`). -/
def normalize_config (raw_config : JValue) : Except Unit JValue := do
  let merged := dmList default_config_kvs (asKvs raw_config)
  let s ← normalize_scoring ((jlook merged "scoring").getD (.obj []))
  let o := normalize_overrides ((jlook merged "overrides").getD (.obj []))
  let tp := normalize_preferences ((jlook merged "tierPreferences").getD (.obj []))
    defaultTierPrefsBase
  let ap := normalize_preferences ((jlook merged "agenticPreferences").getD (.obj []))
    defaultAgenticPrefsBase
  pure (.obj [("scoring", .obj s), ("overrides", .obj o),
    ("tierPreferences", .obj tp), ("agenticPreferences", .obj ap)])

/-- No-duplicate check for key lists. -/
def strNodup : List String → Bool
  | [] => true
  | k :: rest => !(decide (k ∈ rest)) && strNodup rest

mutual

/-- Well-formedness of a JSON-like value as the image of a Python object:
every `dict` has pairwise distinct keys (Python `dict`s cannot hold
duplicates).  All values produced by `json.loads` satisfy this. -/
def jwfB : JValue → Bool
  | .nul => true
  | .bool _ => true
  | .int _ => true
  | .float _ => true
  | .str _ => true
  | .list xs => jwfArr xs
  | .obj kvs => strNodup (kvs.map Prod.fst) && jwfObj kvs

def jwfArr : List JValue → Bool
  | [] => true
  | v :: rest => jwfB v && jwfArr rest

def jwfObj : List (String × JValue) → Bool
  | [] => true
  | kv :: rest => jwfB kv.2 && jwfObj rest

end

/-- Whether a value is a Python `bool`. -/
def isBoolV : JValue → Bool
  | .bool _ => true
  | _ => false

/-- The well-formedness the two built-in preference tables satisfy, phrased
over the shared base representation: distinct tier keys, and per tier a
non-empty list of stripped non-empty model names and a `bool`-valued
capability `dict` with distinct keys. -/
def baseClean (base : List (String × List String × List (String × JValue))) : Prop :=
  (base.map Prod.fst).Nodup ∧
  ∀ e ∈ base, (∀ t ∈ e.2.1, pyStrip t = t ∧ t ≠ "") ∧ e.2.1 ≠ [] ∧
    (∀ kv ∈ e.2.2, isBoolV kv.2 = true) ∧ (jkeys e.2.2).Nodup

/-- `merged.get(key, {})` for the defaults-merged top-level configuration
(the argument `normalize_config` passes to each section normalizer). -/
def cfgSection (raw : JValue) (key : String) : JValue :=
  (jlook (dmList default_config_kvs (asKvs raw)) key).getD (.obj [])

/-- The `raw_entry` `dict` `_normalize_preferences` reads for one tier:
`source.get(tier, {})` coerced to `{}` when not a `dict`. -/
def prefRawEntry (prefs : JValue) (tier : String) : List (String × JValue) :=
  asKvs ((jlook (asKvs prefs) tier).getD (.obj []))

/-- Path lookup inside nested `dict` values (used to state properties of
the normalized configuration). -/
def jgetPath : JValue → List String → Option JValue
  | v, [] => some v
  | .obj kvs, k :: rest =>
      match jlook kvs k with
      | some v => jgetPath v rest
      | none => none
  | _, _ :: _ => none

/-! ## Concrete fixtures used by witness theorems -/

/-- A minimal scoring configuration for witness instantiations. -/
def witnessScoring : ScoringConfig :=
  { tokenSimple := 50, tokenComplex := 500
    codeKeywords := [], reasoningKeywords := ["prove", "theorem"]
    simpleKeywords := [], technicalKeywords := [], creativeKeywords := []
    imperativeVerbs := [], constraintIndicators := [], outputFormatKeywords := []
    referenceKeywords := [], negationKeywords := [], domainSpecificKeywords := []
    agenticTaskKeywords := []
    dimensionWeights := fun _ => 0
    simpleMedium := 0, mediumComplex := 1, complexReasoning := 2
    confidenceSteepness := 12, confidenceThreshold := 1 }

/-- A degenerate calibration function for witness instantiations (claims
hold for every calibration function). -/
def witnessCal : ℚ → ℚ → ℚ := fun _ _ => 0

/-- A small model descriptor for witness catalogs. -/
def witnessInfo1 : JValue :=
  .obj [("id", .str "m1"), ("cost", .obj [("input", .int 1), ("output", .int 2)])]

def witnessInfo2 : JValue :=
  .obj [("id", .str "m2"), ("cost", .obj [("input", .int 3), ("output", .int 4)])]

/-- A provider serving model `m1` whose chat always fails. -/
def witnessProvFail : Provider Unit :=
  { provider_model := fun m => if m = "m1" then some "m1" else none
    model_info := fun m => if m = "m1" then witnessInfo1 else .nul
    models := [("m1", witnessInfo1)]
    pchat := fun _ c => (c, .error ()) }

/-- A provider serving model `m2` whose chat always succeeds with a fixed
`dict` response. -/
def witnessProvOk : Provider Unit :=
  { provider_model := fun m => if m = "m2" then some "m2" else none
    model_info := fun m => if m = "m2" then witnessInfo2 else .nul
    models := [("m2", witnessInfo2)]
    pchat := fun _ c => (c, .ok (.obj [("choices", .list [])])) }

def witnessProviders : List (String × Provider Unit) :=
  [("pa", witnessProvFail), ("pb", witnessProvOk)]

/-- A conversation context carrying a Selection Pin on `pb`/`m2`. -/
def witnessPinnedCtx : JValue :=
  .obj [(SELECTION_CONTEXT_KEY, .obj
    [("provider", .str "pb"), ("model", .str "m2"), ("tier", .str "SIMPLE"),
     ("confidence", .float 1), ("agentic", .bool false)])]

def witnessSmartCfg : SmartCfg :=
  { scoring := witnessScoring
    overrides :=
      { maxTokensForceComplex := 100000, structuredOutputMinTier := "MEDIUM"
        ambiguousDefaultTier := "MEDIUM", agenticMode := false }
    tier_preferences := DEFAULT_TIER_PREFERENCES
    agentic_preferences := DEFAULT_AGENTIC_PREFERENCES }

def witnessChat : List (String × JValue) :=
  [("model", .str "auto"),
   ("messages", .list [.obj [("role", .str "user"), ("content", .str "hello there")]])]

end SmartRouting

namespace SmartRouting

/-! # Helper lemmas -/

theorem jlook_oset_self (kvs : List (String × JValue)) (k : String) (v : JValue) :
    jlook (oset kvs k v) k = some v := by
  induction kvs with
  | nil => simp [oset, jlook]
  | cons kv rest ih =>
      rcases kv with ⟨k0, v0⟩
      simp only [oset]
      split
      · simp [jlook]
      · simp only [jlook]
        rename_i hne
        rw [if_neg hne]
        exact ih

theorem jlook_oset_ne (kvs : List (String × JValue)) (k key : String) (v : JValue)
    (h : k ≠ key) : jlook (oset kvs key v) k = jlook kvs k := by
  induction kvs with
  | nil => simp only [oset, jlook, if_neg (Ne.symm h)]
  | cons kv rest ih =>
      rcases kv with ⟨k0, v0⟩
      simp only [oset]
      split
      · rename_i heq
        subst heq
        simp only [jlook]
        rw [if_neg (Ne.symm h), if_neg (Ne.symm h)]
      · simp only [jlook]
        split
        · rfl
        · exact ih

theorem dedupeGo_sublist (seen : List (String × String)) (l : List Candidate) :
    (dedupeGo seen l).Sublist l := by
  induction l generalizing seen with
  | nil => simp [dedupeGo]
  | cons c rest ih =>
      simp only [dedupeGo]
      split
      · exact (ih seen).trans (List.sublist_cons_self _ _)
      · exact (ih _).cons₂ c

theorem notMem_seen_of_mem_dedupeGo {seen : List (String × String)}
    {l : List Candidate} {c : Candidate} (hc : c ∈ dedupeGo seen l) :
    candKey c ∉ seen := by
  induction l generalizing seen with
  | nil => simp [dedupeGo] at hc
  | cons d rest ih =>
      simp only [dedupeGo] at hc
      split at hc
      · exact ih hc
      · rcases List.mem_cons.1 hc with h | h
        · subst h; assumption
        · intro hmem
          exact ih h (List.mem_cons_of_mem _ hmem)

theorem nodup_key_dedupeGo (seen : List (String × String)) (l : List Candidate) :
    ((dedupeGo seen l).map candKey).Nodup := by
  induction l generalizing seen with
  | nil => simp [dedupeGo]
  | cons c rest ih =>
      simp only [dedupeGo]
      split
      · exact ih seen
      · simp only [List.map_cons, List.nodup_cons]
        refine ⟨?_, ih _⟩
        intro hmem
        rcases List.mem_map.1 hmem with ⟨d, hd, hkey⟩
        exact notMem_seen_of_mem_dedupeGo hd (hkey ▸ List.mem_cons_self _ _)

theorem dedupeGo_append (seen : List (String × String)) (a b : List Candidate) :
    ∃ seen2 : List (String × String),
      dedupeGo seen (a ++ b) = dedupeGo seen a ++ dedupeGo seen2 b := by
  induction a generalizing seen with
  | nil => exact ⟨seen, rfl⟩
  | cons c rest ih =>
      by_cases hk : candKey c ∈ seen
      · rcases ih seen with ⟨seen2, h2⟩
        exact ⟨seen2, by simp only [List.cons_append, dedupeGo, if_pos hk]; exact h2⟩
      · rcases ih (candKey c :: seen) with ⟨seen2, h2⟩
        refine ⟨seen2, ?_⟩
        simp only [List.cons_append, dedupeGo, if_neg hk, List.append_eq]
        rw [h2]

/-! Stable insertion sort lemmas. -/

theorem mem_insSorted {α : Type} (le : α → α → Bool) (a x : α) (l : List α) :
    x ∈ insSorted le a l ↔ x = a ∨ x ∈ l := by
  induction l with
  | nil => simp [insSorted]
  | cons b bs ih =>
      simp only [insSorted]
      split
      · simp only [List.mem_cons, ih]
        tauto
      · simp only [List.mem_cons]

theorem mem_stableSort {α : Type} (le : α → α → Bool) (x : α) (l : List α) :
    x ∈ stableSort le l ↔ x ∈ l := by
  have general : ∀ (l acc : List α), x ∈ l.foldl (fun acc a => insSorted le a acc) acc ↔
      x ∈ acc ∨ x ∈ l := by
    intro l
    induction l with
    | nil => simp
    | cons a as ih =>
        intro acc
        simp only [List.foldl_cons, ih, mem_insSorted, List.mem_cons]
        tauto
  simpa [stableSort] using general l []

theorem pairwise_insSorted {α : Type} (le : α → α → Bool)
    (htot : ∀ a b, le a b || le b a)
    (htrans : ∀ a b c, le a b = true → le b c = true → le a c = true)
    (a : α) (l : List α) (h : l.Pairwise (fun x y => le x y = true)) :
    (insSorted le a l).Pairwise (fun x y => le x y = true) := by
  induction l with
  | nil => simp [insSorted]
  | cons b bs ih =>
      simp only [insSorted]
      rcases List.pairwise_cons.1 h with ⟨hb, hbs⟩
      split
      · refine List.pairwise_cons.2 ⟨?_, ih hbs⟩
        intro x hx
        rcases (mem_insSorted le a x bs).1 hx with rfl | hx
        · assumption
        · exact hb x hx
      · refine List.pairwise_cons.2 ⟨?_, h⟩
        intro x hx
        have hab : le a b = true := by
          rcases Bool.or_eq_true_iff.1 (htot b a) with h1 | h1
          · simp_all
          · rcases Bool.or_eq_true_iff.1 (htot a b) with h2 | h2
            · exact h2
            · exact h1
        rcases List.mem_cons.1 hx with rfl | hx
        · exact hab
        · exact htrans a b x hab (hb x hx)

theorem pairwise_stableSort {α : Type} (le : α → α → Bool)
    (htot : ∀ a b, le a b || le b a)
    (htrans : ∀ a b c, le a b = true → le b c = true → le a c = true)
    (l : List α) : (stableSort le l).Pairwise (fun x y => le x y = true) := by
  have general : ∀ (l acc : List α), acc.Pairwise (fun x y => le x y = true) →
      (l.foldl (fun acc a => insSorted le a acc) acc).Pairwise (fun x y => le x y = true) := by
    intro l
    induction l with
    | nil => intro acc h; simpa using h
    | cons a as ih =>
        intro acc h
        exact ih _ (pairwise_insSorted le htot htrans a acc h)
  exact general l [] (List.Pairwise.nil)

/-- The fallback scan body, characterized. -/
theorem fallback_entry_eq_some (max_cost : ℚ) (caps : List (String × Bool))
    (pid : String) (mi : String × JValue) (qc : ℚ × Candidate) :
    fallback_entry max_cost caps pid mi = some qc ↔
    (∃ kvs, mi.2 = .obj kvs) ∧ meets_capabilities mi.2 caps = true ∧
      input_cost mi.2 = some qc.1 ∧ qc.1 ≤ max_cost ∧ qc.2 = (pid, mi.1, mi.2) := by
  rcases mi with ⟨mid, info⟩
  rcases qc with ⟨q, c⟩
  cases info with
  | obj mkvs =>
      simp only [fallback_entry]
      by_cases hmc : meets_capabilities (.obj mkvs) caps = true
      · rw [if_pos hmc]
        cases hcost : input_cost (.obj mkvs) with
        | none => simp [hcost, hmc]
        | some q0 =>
            by_cases hle : q0 ≤ max_cost
            · simp only [if_pos hle, Option.some_inj, Prod.mk.injEq, hmc, hcost]
              aesop
            · simp only [if_neg hle, hmc, hcost]
              constructor
              · rintro ⟨⟩
              · rintro ⟨_, _, hq, hle2, _⟩
                cases hq
                exact absurd hle2 hle
      · simp [fallback_entry, hmc]
  | nul => simp [fallback_entry]
  | bool b => simp [fallback_entry]
  | int n => simp [fallback_entry]
  | float x => simp [fallback_entry]
  | str s => simp [fallback_entry]
  | list xs => simp [fallback_entry]

/-- Membership in the cost-based fallback pass, characterized. -/
theorem mem_fallback_by_cost {ε : Type} (tier : String)
    (providers : List (String × Provider ε)) (caps : List (String × Bool))
    (c : Candidate) :
    c ∈ fallback_by_cost_candidates tier providers caps ↔
    ∃ (p : Provider ε) (q : ℚ), (c.1, p) ∈ providers ∧ c.1 ≠ "smart_routing" ∧
      (c.2.1, c.2.2) ∈ p.models ∧ (∃ kvs, c.2.2 = .obj kvs) ∧
      meets_capabilities c.2.2 caps = true ∧ input_cost c.2.2 = some q ∧
      q ≤ (List.lookup tier TIER_COST_THRESHOLDS).getD 50 := by
  unfold fallback_by_cost_candidates
  constructor
  · intro hc
    rcases List.mem_map.1 hc with ⟨⟨q, c'⟩, hmem, hcq⟩
    rw [mem_stableSort] at hmem
    rcases List.mem_flatMap.1 hmem with ⟨⟨pid, p⟩, hp, hin⟩
    by_cases hsr : pid = "smart_routing"
    · simp [hsr] at hin
    · simp only [hsr, ite_false] at hin
      rcases List.mem_filterMap.1 hin with ⟨⟨mid, info⟩, hmi, hg⟩
      rcases (fallback_entry_eq_some _ _ _ _ _).1 hg with
        ⟨⟨kvs, hkvs⟩, hmc, hcost, hle, hc'⟩
      refine ⟨p, q, ?_⟩
      simp only at hcq
      subst hcq
      subst hc'
      exact ⟨hp, hsr, hmi, ⟨kvs, hkvs⟩, hmc, hcost, hle⟩
  · rintro ⟨p, q, hp, hsr, hmi, ⟨kvs, hkvs⟩, hmc, hcost, hle⟩
    refine List.mem_map.2 ⟨(q, c), ?_, rfl⟩
    rw [mem_stableSort]
    refine List.mem_flatMap.2 ⟨(c.1, p), hp, ?_⟩
    simp only [hsr, ite_false]
    refine List.mem_filterMap.2 ⟨(c.2.1, c.2.2), hmi, ?_⟩
    exact (fallback_entry_eq_some _ _ _ _ _).2 ⟨⟨kvs, hkvs⟩, hmc, hcost, hle, rfl⟩

/-- Every keyed element of the fallback scan carries its own input cost. -/
theorem fallback_ranked_cost {ε : Type} (max_cost : ℚ)
    (providers : List (String × Provider ε)) (caps : List (String × Bool))
    (qc : ℚ × Candidate)
    (h : qc ∈ providers.flatMap (fun pp =>
      if pp.1 = "smart_routing" then []
      else pp.2.models.filterMap (fallback_entry max_cost caps pp.1))) :
    input_cost qc.2.2.2 = some qc.1 := by
  rcases List.mem_flatMap.1 h with ⟨⟨pid, p⟩, _, hin⟩
  by_cases hsr : pid = "smart_routing"
  · simp [hsr] at hin
  · simp only [hsr, ite_false] at hin
    rcases List.mem_filterMap.1 hin with ⟨⟨mid, info⟩, _, hg⟩
    rcases (fallback_entry_eq_some _ _ _ _ _).1 hg with ⟨_, _, hcost, _, hc⟩
    rw [hc]
    exact hcost

/-! # Claims -/

/-- **C1.** For every prompt, optional system prompt, estimated token count
and configuration: if the lowercased user prompt contains at least two
reasoning keywords of the configured list (case-insensitive substring
match), `classify` returns tier REASONING with confidence equal to
`max(sigmoid(max(weightedScore, 0.3) * steepness), 0.85)` — stated for an
arbitrary calibration function `cal` standing for the sigmoid — hence
confidence ≥ 0.85, regardless of the weighted score and all other
dimension scores. -/
theorem c1_reasoning_override (cal : ℚ → ℚ → ℚ) (prompt : String)
    (system_prompt : Option String) (estimated_tokens : ℤ) (config : ScoringConfig)
    (h : 2 ≤ (config.reasoningKeywords.filter
        (fun kw => strContains (lowerStr prompt) (lowerStr kw))).length) :
    (classify cal prompt system_prompt estimated_tokens config).tier = some "REASONING" ∧
    (classify cal prompt system_prompt estimated_tokens config).confidence =
      max (cal (max (classify cal prompt system_prompt estimated_tokens config).score
        (mkRat 3 10)) config.confidenceSteepness) (mkRat 17 20) ∧
    mkRat 17 20 ≤ (classify cal prompt system_prompt estimated_tokens config).confidence := by
  simp only [classify, h, if_true, if_pos]
  refine ⟨trivial, trivial, le_max_right _ _⟩

theorem c1_reasoning_override_witness :
    2 ≤ (witnessScoring.reasoningKeywords.filter
        (fun kw => strContains (lowerStr "Prove the theorem step by step") (lowerStr kw))).length ∧
    (classify witnessCal "Prove the theorem step by step" none 10 witnessScoring).tier =
      some "REASONING" ∧
    mkRat 17 20 ≤
      (classify witnessCal "Prove the theorem step by step" none 10 witnessScoring).confidence :=
  ⟨by decide,
   (c1_reasoning_override witnessCal "Prove the theorem step by step" none 10 witnessScoring
     (by decide)).1,
   (c1_reasoning_override witnessCal "Prove the theorem step by step" none 10 witnessScoring
     (by decide)).2.2⟩

/-- **C9.** When the reasoning override fires (≥ 2 reasoning keywords in
the user text), `classify` returns before the confidence-threshold check:
the tier is REASONING (never the ambiguous `none`) and the result does not
depend on `confidenceThreshold` at all, so the tier stays REASONING even
when the confidence is below the threshold. -/
theorem c9_override_ignores_threshold (cal : ℚ → ℚ → ℚ) (prompt : String)
    (system_prompt : Option String) (estimated_tokens : ℤ) (config : ScoringConfig)
    (h : 2 ≤ (config.reasoningKeywords.filter
        (fun kw => strContains (lowerStr prompt) (lowerStr kw))).length) :
    (classify cal prompt system_prompt estimated_tokens config).tier = some "REASONING" ∧
    (classify cal prompt system_prompt estimated_tokens config).tier ≠ none ∧
    ∀ t' : ℚ, classify cal prompt system_prompt estimated_tokens
        { config with confidenceThreshold := t' } =
      classify cal prompt system_prompt estimated_tokens config := by
  refine ⟨?_, ?_, ?_⟩
  · simp only [classify, h, if_true, if_pos]
  · simp only [classify, h, if_true, if_pos]
    exact Option.some_ne_none _
  · intro t'
    simp only [classify, h, if_true, if_pos]

theorem c9_override_ignores_threshold_witness :
    2 ≤ (witnessScoring.reasoningKeywords.filter
        (fun kw => strContains (lowerStr "prove this theorem") (lowerStr kw))).length ∧
    (classify witnessCal "prove this theorem" none 3 witnessScoring).tier ≠ none ∧
    classify witnessCal "prove this theorem" none 3
        { witnessScoring with confidenceThreshold := mkRat 9 10 } =
      classify witnessCal "prove this theorem" none 3 witnessScoring :=
  ⟨by decide,
   (c9_override_ignores_threshold witnessCal "prove this theorem" none 3 witnessScoring
     (by decide)).2.1,
   (c9_override_ignores_threshold witnessCal "prove this theorem" none 3 witnessScoring
     (by decide)).2.2 (mkRat 9 10)⟩

/-- **C2.** `rank_candidates` never returns two candidates with the same
(provider, resolved model) pair, and — whenever the preferred-model passes
or the cost fallback produced anything, so that the last-resort pass is not
taken — the result is the de-duplicated preferred-model passes followed by
a (first-seen order preserving) selection of cost-fallback candidates:
preferred-model matches always precede cost-fallback matches. -/
theorem c2_rank_candidates_dedupe_order {ε : Type} (tier : String) (agentic : Bool)
    (providers : List (String × Provider ε))
    (preferences agentic_preferences : Option PrefTable) (tp : TierPref)
    (htp : (List.lookup tier
      (tier_preferences agentic preferences agentic_preferences)).getD ⟨[], []⟩ = tp) :
    ((rank_candidates tier agentic providers preferences agentic_preferences).map
      candKey).Nodup ∧
    (tp.preferred_models.flatMap (fun m =>
        find_provider_candidates_for_model m providers tp.capabilities) ++
      fallback_by_cost_candidates tier providers tp.capabilities ≠ [] →
      ∃ rest, rest.Sublist (fallback_by_cost_candidates tier providers tp.capabilities) ∧
        rank_candidates tier agentic providers preferences agentic_preferences =
          dedupe_candidates (tp.preferred_models.flatMap (fun m =>
            find_provider_candidates_for_model m providers tp.capabilities)) ++ rest) := by
  have hrank : rank_candidates tier agentic providers preferences agentic_preferences =
      dedupe_candidates
        (if (tp.preferred_models.flatMap (fun m =>
              find_provider_candidates_for_model m providers tp.capabilities) ++
            fallback_by_cost_candidates tier providers tp.capabilities).isEmpty then
          any_available_models providers
        else
          tp.preferred_models.flatMap (fun m =>
            find_provider_candidates_for_model m providers tp.capabilities) ++
          fallback_by_cost_candidates tier providers tp.capabilities) := by
    simp only [rank_candidates, htp]
  constructor
  · rw [hrank]
    exact nodup_key_dedupeGo [] _
  · intro hne
    have hempty : (tp.preferred_models.flatMap (fun m =>
        find_provider_candidates_for_model m providers tp.capabilities) ++
        fallback_by_cost_candidates tier providers tp.capabilities).isEmpty = false := by
      cases hL : tp.preferred_models.flatMap (fun m =>
          find_provider_candidates_for_model m providers tp.capabilities) ++
          fallback_by_cost_candidates tier providers tp.capabilities with
      | nil => exact absurd hL hne
      | cons a L => rfl
    rw [hempty] at hrank
    simp only [Bool.false_eq_true, if_false, ite_false] at hrank
    rcases dedupeGo_append []
      (tp.preferred_models.flatMap (fun m =>
        find_provider_candidates_for_model m providers tp.capabilities))
      (fallback_by_cost_candidates tier providers tp.capabilities) with ⟨seen2, hsplit⟩
    refine ⟨dedupeGo seen2 (fallback_by_cost_candidates tier providers tp.capabilities),
      dedupeGo_sublist _ _, ?_⟩
    rw [hrank]
    unfold dedupe_candidates
    exact hsplit

theorem c2_rank_candidates_dedupe_order_witness :
    ((rank_candidates "SIMPLE" false witnessProviders none none).map candKey).Nodup ∧
    (∃ rest, rest.Sublist (fallback_by_cost_candidates "SIMPLE" witnessProviders []) ∧
      rank_candidates "SIMPLE" false witnessProviders none none =
        dedupe_candidates
          ((["gemini-2.5-flash", "deepseek-chat", "gpt-4o-mini"] : List String).flatMap
            (fun m => find_provider_candidates_for_model m witnessProviders [])) ++ rest) :=
  ⟨(c2_rank_candidates_dedupe_order "SIMPLE" false witnessProviders none none
      ⟨["gemini-2.5-flash", "deepseek-chat", "gpt-4o-mini"], []⟩ rfl).1,
   (c2_rank_candidates_dedupe_order "SIMPLE" false witnessProviders none none
      ⟨["gemini-2.5-flash", "deepseek-chat", "gpt-4o-mini"], []⟩ rfl).2
     (fun h => List.noConfusion h)⟩

/-- **C6.** For every tier among the four labels, and every provider
catalog and required-capability set: the cost-based fallback pass contains
exactly the (provider, model, descriptor) entries of the providers' full
catalogs — the router's own `smart_routing` entry excluded — whose `dict`
descriptors satisfy every required capability and whose input cost is a
known number at most the per-tier ceiling (SIMPLE: 1.0, MEDIUM: 5.0,
COMPLEX: 20.0, REASONING: 50.0; an unknown or non-numeric cost is
infinite, hence excluded), sorted ascending by input cost. -/
theorem c6_cost_fallback_pass {ε : Type} (tier : String)
    (providers : List (String × Provider ε)) (caps : List (String × Bool))
    (htier : tier ∈ TIERS) :
    (∀ c : Candidate, c ∈ fallback_by_cost_candidates tier providers caps ↔
      ∃ (p : Provider ε) (q : ℚ), (c.1, p) ∈ providers ∧ c.1 ≠ "smart_routing" ∧
        (c.2.1, c.2.2) ∈ p.models ∧ (∃ kvs, c.2.2 = .obj kvs) ∧
        meets_capabilities c.2.2 caps = true ∧ input_cost c.2.2 = some q ∧
        q ≤ (if tier = "SIMPLE" then (1 : ℚ) else if tier = "MEDIUM" then 5
             else if tier = "COMPLEX" then 20 else 50)) ∧
    (fallback_by_cost_candidates tier providers caps).Pairwise
      (fun a b => ∀ qa qb : ℚ, input_cost a.2.2 = some qa →
        input_cost b.2.2 = some qb → qa ≤ qb) := by
  have hceil : (List.lookup tier TIER_COST_THRESHOLDS).getD 50 =
      (if tier = "SIMPLE" then (1 : ℚ) else if tier = "MEDIUM" then 5
       else if tier = "COMPLEX" then 20 else 50) := by
    simp only [TIERS, List.mem_cons, List.not_mem_nil, or_false] at htier
    rcases htier with rfl | rfl | rfl | rfl <;> rfl
  constructor
  · intro c
    rw [← hceil]
    exact mem_fallback_by_cost tier providers caps c
  · unfold fallback_by_cost_candidates
    rw [List.pairwise_map]
    have htot : ∀ a b : ℚ × Candidate,
        (decide (a.1 ≤ b.1) || decide (b.1 ≤ a.1)) = true := by
      intro a b
      rcases le_total a.1 b.1 with h | h <;> simp [h]
    have htrans : ∀ a b c : ℚ × Candidate, decide (a.1 ≤ b.1) = true →
        decide (b.1 ≤ c.1) = true → decide (a.1 ≤ c.1) = true := by
      intro a b c hab hbc
      rw [decide_eq_true_eq] at *
      exact le_trans hab hbc
    have hsorted := pairwise_stableSort (fun a b : ℚ × Candidate => decide (a.1 ≤ b.1))
      htot htrans
      (providers.flatMap (fun pp =>
        if pp.1 = "smart_routing" then []
        else pp.2.models.filterMap
          (fallback_entry ((List.lookup tier TIER_COST_THRESHOLDS).getD 50) caps pp.1)))
    refine hsorted.imp_of_mem ?_
    intro a b ha hb hab
    rw [mem_stableSort] at ha hb
    have hca := fallback_ranked_cost _ providers caps a ha
    have hcb := fallback_ranked_cost _ providers caps b hb
    intro qa qb hqa hqb
    rw [hca] at hqa
    rw [hcb] at hqb
    cases hqa
    cases hqb
    exact of_decide_eq_true hab

theorem c6_cost_fallback_pass_witness :
    ("SIMPLE" ∈ TIERS) ∧
    ((("pa", "m1", witnessInfo1) : Candidate) ∈
      fallback_by_cost_candidates "SIMPLE" witnessProviders [] ↔
      ∃ (p : Provider Unit) (q : ℚ), ("pa", p) ∈ witnessProviders ∧
        "pa" ≠ "smart_routing" ∧ ("m1", witnessInfo1) ∈ p.models ∧
        (∃ kvs, witnessInfo1 = .obj kvs) ∧
        meets_capabilities witnessInfo1 [] = true ∧ input_cost witnessInfo1 = some q ∧
        q ≤ 1) ∧
    (fallback_by_cost_candidates "SIMPLE" witnessProviders []).Pairwise
      (fun a b => ∀ qa qb : ℚ, input_cost a.2.2 = some qa →
        input_cost b.2.2 = some qb → qa ≤ qb) :=
  ⟨by decide,
   by
    have h := (c6_cost_fallback_pass "SIMPLE" witnessProviders [] (by decide)).1
      ("pa", "m1", witnessInfo1)
    simpa using h,
   (c6_cost_fallback_pass "SIMPLE" witnessProviders [] (by decide)).2⟩

end SmartRouting

namespace SmartRouting

theorem lookup_mem {β : Type _} {l : List (String × β)} {k : String} {b : β}
    (h : List.lookup k l = some b) : (k, b) ∈ l := by
  induction l with
  | nil => cases h
  | cons kv rest ih =>
      rcases kv with ⟨k0, b0⟩
      simp only [List.lookup] at h
      by_cases hk : k = k0
      · subst hk
        simp only [beq_self_eq_true] at h
        cases h
        exact List.mem_cons_self _ _
      · rw [beq_eq_false_iff_ne.2 hk] at h
        exact List.mem_cons_of_mem _ (ih h)

/-- Under catalog-wide failure, the walk runs the whole candidate list and
reports the first invocable candidate's exception (or the generic
exhausted error when nothing was invocable, or an earlier remembered
exception). -/
theorem walk_all_fail {ε : Type} (providers : List (String × Provider ε))
    (E : String → ε)
    (hfail : ∀ pid p, (pid, p) ∈ providers → ∀ c x, p.pchat c x = (x, .error (E pid)))
    (tier : String) (confidence score : ℚ) (signals : List String)
    (use_agentic pinned : Bool) :
    ∀ (cands : List Candidate) (idx : ℕ) (chat : List (String × JValue))
      (ctx : JValue) (fe : Option ε) (parts : List String),
      (walk providers tier confidence score signals use_agentic pinned
        cands idx chat ctx fe parts).2 =
      .error (match fe, firstInvocable providers cands with
        | some e, _ => .raised e
        | none, some c => .raised (E c.1)
        | none, none => .exhausted) := by
  intro cands
  induction cands with
  | nil =>
      intro idx chat ctx fe parts
      cases fe <;> rfl
  | cons c rest ih =>
      intro idx chat ctx fe parts
      rw [walk]
      cases hlook : List.lookup c.1 providers with
      | none =>
          simp only [firstInvocable, hlook]
          exact ih _ _ _ _ _
      | some p =>
          by_cases hsr : c.1 = "smart_routing"
          · simp only [firstInvocable, hlook, if_pos hsr]
            exact ih _ _ _ _ _
          · simp only [firstInvocable, hlook, if_neg hsr]
            rw [hfail c.1 p (lookup_mem hlook)]
            simp only
            rw [ih]
            cases fe with
            | none => rfl
            | some e0 => rfl

end SmartRouting

namespace SmartRouting

/-- A failing invocation never aborts the walk: walking `l1 ++ l2` when
every invocable candidate of `l1` fails continues as a walk of `l2`. -/
theorem walk_append_of_fail {ε : Type} (providers : List (String × Provider ε))
    (tier : String) (confidence score : ℚ) (signals : List String)
    (use_agentic pinned : Bool) :
    ∀ (l1 l2 : List Candidate) (idx : ℕ) (chat : List (String × JValue))
      (ctx : JValue) (fe : Option ε) (parts : List String),
      (∀ c ∈ l1, ∀ p, List.lookup c.1 providers = some p →
        ∀ ch x, ∃ e, (p.pchat ch x).2 = .error e) →
      ∃ idx2 chat2 ctx2 fe2 parts2,
        walk providers tier confidence score signals use_agentic pinned
          (l1 ++ l2) idx chat ctx fe parts =
        walk providers tier confidence score signals use_agentic pinned
          l2 idx2 chat2 ctx2 fe2 parts2 := by
  intro l1
  induction l1 with
  | nil =>
      intro l2 idx chat ctx fe parts _
      exact ⟨idx, chat, ctx, fe, parts, rfl⟩
  | cons c rest ih =>
      intro l2 idx chat ctx fe parts hfc
      rw [List.cons_append, walk]
      cases hlook : List.lookup c.1 providers with
      | none =>
          exact ih l2 (idx + 1) chat ctx fe parts
            (fun d hd => hfc d (List.mem_cons_of_mem _ hd))
      | some p =>
          by_cases hsr : c.1 = "smart_routing"
          · simp only [if_pos hsr]
            exact ih l2 (idx + 1) chat ctx fe parts
              (fun d hd => hfc d (List.mem_cons_of_mem _ hd))
          · rcases hfc c (List.mem_cons_self _ _) p hlook
              (.obj (oset chat "model" (.str c.2.1)))
              (update_context_provider_info ctx p c.1 c.2.1) with ⟨e, he⟩
            rcases hres : p.pchat (.obj (oset chat "model" (.str c.2.1)))
              (update_context_provider_info ctx p c.1 c.2.1) with ⟨ctx2, r⟩
            rw [hres] at he
            simp only at he
            subst he
            simp only [if_neg hsr, hres]
            exact ih l2 (idx + 1) _ ctx2 _ _
              (fun d hd => hfc d (List.mem_cons_of_mem _ hd))

/-- **C4.** For every candidate list processed by the fallback executor:
an empty list fails with the distinct "no candidates" error without
invoking any provider (the outcome and the untouched context are the same
for every catalog); a non-empty list whose every invocation fails yields
the first invocation failure's own exception (`raised (E pid)` for the
first invocable candidate, never a generic message), while a non-empty
list with no invocable candidate yields the generic exhausted error; and a
failing prefix never aborts the walk, which always continues into the rest
of the list. -/
theorem c4_executor_failure_modes {ε : Type} (providers : List (String × Provider ε))
    (E : String → ε)
    (hfail : ∀ pid p, (pid, p) ∈ providers → ∀ c x, p.pchat c x = (x, .error (E pid)))
    (tier : String) (confidence score : ℚ) (signals : List String)
    (use_agentic pinned : Bool) (chat : List (String × JValue)) (ctx : JValue)
    (parts : List String) :
    (∀ providers2 : List (String × Provider ε),
      execute providers2 [] tier confidence score signals use_agentic pinned
        chat ctx parts = (ctx, .error .noCandidates)) ∧
    (∀ cands : List Candidate, cands ≠ [] →
      (execute providers cands tier confidence score signals use_agentic pinned
        chat ctx parts).2 =
      .error (match firstInvocable providers cands with
        | some c => .raised (E c.1)
        | none => .exhausted)) ∧
    (∀ (l1 l2 : List Candidate) (idx : ℕ) (chat2 : List (String × JValue))
        (ctx2 : JValue) (fe : Option ε) (parts2 : List String),
      ∃ idx3 chat3 ctx3 fe3 parts3,
        walk providers tier confidence score signals use_agentic pinned
          (l1 ++ l2) idx chat2 ctx2 fe parts2 =
        walk providers tier confidence score signals use_agentic pinned
          l2 idx3 chat3 ctx3 fe3 parts3) := by
  refine ⟨fun providers2 => rfl, ?_, ?_⟩
  · intro cands hne
    have hempty : cands.isEmpty = false := by
      cases cands with
      | nil => exact absurd rfl hne
      | cons a l => rfl
    unfold execute
    rw [hempty]
    simp only [Bool.false_eq_true, if_false, ite_false]
    rw [walk_all_fail providers E hfail tier confidence score signals use_agentic pinned]
    cases firstInvocable providers cands <;> rfl
  · intro l1 l2 idx chat2 ctx2 fe parts2
    exact walk_append_of_fail providers tier confidence score signals use_agentic pinned
      l1 l2 idx chat2 ctx2 fe parts2
      (fun c hc p hp ch x => ⟨E c.1, by rw [hfail c.1 p (lookup_mem hp)]⟩)

theorem c4_executor_failure_modes_witness :
    (execute [("pa", witnessProvFail)] ([] : List Candidate) "SIMPLE" 1 0 [] false false
      witnessChat (.obj []) [] = ((.obj []), .error .noCandidates)) ∧
    ((execute [("pa", witnessProvFail)] [("pa", "m1", witnessInfo1), ("px", "mx", .nul)]
        "SIMPLE" 1 0 [] false false witnessChat (.obj []) []).2 =
      Except.error (RouteError.raised ())) ∧
    (∃ idx3 chat3 ctx3 fe3 parts3,
      walk [("pa", witnessProvFail)] "SIMPLE" 1 0 [] false false
        ([("pa", "m1", witnessInfo1)] ++ [("px", "mx", .nul)]) 0 witnessChat (.obj [])
        none [] =
      walk [("pa", witnessProvFail)] "SIMPLE" 1 0 [] false false
        [("px", "mx", .nul)] idx3 chat3 ctx3 fe3 parts3) := by
  have hfail : ∀ pid p, (pid, p) ∈ [("pa", witnessProvFail)] →
      ∀ c x, p.pchat c x = (x, Except.error (())) := by
    intro pid p hmem c x
    rcases List.mem_singleton.1 hmem with h
    cases h
    rfl
  have h := c4_executor_failure_modes [("pa", witnessProvFail)] (fun _ => ()) hfail
    "SIMPLE" 1 0 [] false false witnessChat (.obj []) []
  refine ⟨h.1 _, ?_, h.2.2 [("pa", "m1", witnessInfo1)] [("px", "mx", .nul)] 0
    witnessChat (.obj []) none []⟩
  have h2 := h.2.1 [("pa", "m1", witnessInfo1), ("px", "mx", .nul)]
    (fun hc => List.noConfusion hc)
  rw [h2]
  rfl

end SmartRouting

namespace SmartRouting

/-- **C3.** A chat request whose conversation context carries a Selection
Pin that the catalog still recognizes (the pinned provider exists, is not
the router itself, and still resolves the pinned model — all encoded by
`get_pinned_selection` returning the pinned candidate) is served from that
single pinned candidate: the outcome does not depend on the preference
tables at all (ranking is bypassed), and when the pinned provider's
invocation succeeds with a `dict` response, the response's routing
metadata records `pinned = true`, the pinned provider and model, and
attempt count 1 — even though the prompt's classification would have fed
ranking otherwise. -/
theorem c3_selection_pin_bypasses_ranking {ε : Type} (cal : ℚ → ℚ → ℚ) (S : SmartCfg)
    (providers : List (String × Provider ε)) (chat : List (String × JValue))
    (ctx : JValue) (pid mid : String) (info : JValue) (p : Provider ε)
    (rkvs : List (String × JValue))
    (hpin : get_pinned_selection ctx providers = some (pid, mid, info))
    (hp : List.lookup pid providers = some p)
    (hsr : pid ≠ "smart_routing")
    (hok : ∀ c x, p.pchat c x = (x, Except.ok (.obj rkvs))) :
    (∀ T1 A1 T2 A2 : PrefTable,
      smart_chat cal { S with tier_preferences := T1, agentic_preferences := A1 }
        providers chat ctx =
      smart_chat cal { S with tier_preferences := T2, agentic_preferences := A2 }
        providers chat ctx) ∧
    ∃ resp : List (String × JValue),
      (smart_chat cal S providers chat ctx).2 = .ok (.obj resp) ∧
      ∃ rmeta : List (String × JValue), jlook resp "routing" = some (.obj rmeta) ∧
        jlook rmeta "pinned" = some (.bool true) ∧
        jlook rmeta "provider" = some (.str pid) ∧
        jlook rmeta "model" = some (.str mid) ∧
        jlook rmeta "attempts" = some (.int 1) := by
  constructor
  · intro T1 A1 T2 A2
    simp only [smart_chat, hpin]
  · simp only [smart_chat, hpin, execute, List.isEmpty_cons, Bool.false_eq_true, if_false,
      ite_false, walk, hp, if_neg hsr, hok, Nat.lt_irrefl]
    refine ⟨_, rfl, ?_⟩
    rw [jlook_oset_self]
    refine ⟨_, rfl, ?_, ?_, ?_, ?_⟩ <;> simp [routing_meta, jlook]

theorem c3_selection_pin_bypasses_ranking_witness :
    (smart_chat witnessCal
        { witnessSmartCfg with tier_preferences := [], agentic_preferences := [] }
        witnessProviders witnessChat witnessPinnedCtx =
      smart_chat witnessCal
        { witnessSmartCfg with
            tier_preferences := DEFAULT_TIER_PREFERENCES
            agentic_preferences := DEFAULT_AGENTIC_PREFERENCES }
        witnessProviders witnessChat witnessPinnedCtx) ∧
    ∃ resp : List (String × JValue),
      (smart_chat witnessCal witnessSmartCfg witnessProviders witnessChat
        witnessPinnedCtx).2 = .ok (.obj resp) ∧
      ∃ rmeta : List (String × JValue), jlook resp "routing" = some (.obj rmeta) ∧
        jlook rmeta "pinned" = some (.bool true) ∧
        jlook rmeta "provider" = some (.str "pb") ∧
        jlook rmeta "model" = some (.str "m2") ∧
        jlook rmeta "attempts" = some (.int 1) :=
  have h := c3_selection_pin_bypasses_ranking witnessCal witnessSmartCfg witnessProviders
    witnessChat witnessPinnedCtx "pb" "m2" witnessInfo2 witnessProvOk
    [("choices", .list [])] rfl rfl (by decide) (fun _ _ => rfl)
  ⟨h.1 [] [] DEFAULT_TIER_PREFERENCES DEFAULT_AGENTIC_PREFERENCES, h.2⟩

end SmartRouting

namespace SmartRouting

/-! # Association-list and deep-merge lemmas -/

theorem dmVal_none (v : JValue) : dmVal none v = v := by
  cases v <;> rfl

theorem jkeys_cons (k : String) (v : JValue) (rest : List (String × JValue)) :
    jkeys ((k, v) :: rest) = k :: jkeys rest := rfl

theorem jlook_eq_none_iff (kvs : List (String × JValue)) (k : String) :
    jlook kvs k = none ↔ k ∉ jkeys kvs := by
  induction kvs with
  | nil => simp [jlook, jkeys]
  | cons kv rest ih =>
      rcases kv with ⟨k0, v0⟩
      simp only [jlook, jkeys, List.map_cons, List.mem_cons]
      by_cases hk : k0 = k
      · subst hk
        simp
      · rw [if_neg hk]
        simp only [jkeys] at ih
        rw [ih]
        constructor
        · intro h hor
          rcases hor with h1 | h1
          · exact hk h1.symm
          · exact h h1
        · intro h h1
          exact h (Or.inr h1)

theorem jlook_eq_some_of_mem {kvs : List (String × JValue)} {k : String}
    (h : k ∈ jkeys kvs) : ∃ v, jlook kvs k = some v := by
  cases hv : jlook kvs k with
  | none => exact absurd ((jlook_eq_none_iff kvs k).1 hv) (fun hc => hc h)
  | some v => exact ⟨v, rfl⟩

theorem jkeys_oset_of_mem {kvs : List (String × JValue)} {k : String} (v : JValue)
    (h : k ∈ jkeys kvs) : jkeys (oset kvs k v) = jkeys kvs := by
  induction kvs with
  | nil => simp [jkeys] at h
  | cons kv rest ih =>
      rcases kv with ⟨k0, v0⟩
      simp only [oset]
      by_cases hk : k0 = k
      · rw [if_pos hk]
        simp [jkeys, hk]
      · rw [if_neg hk]
        simp only [jkeys, List.map_cons] at h ⊢
        rcases List.mem_cons.1 h with h1 | h1
        · exact absurd h1.symm hk
        · have hih := ih h1
          simp only [jkeys] at hih
          rw [hih]

theorem jkeys_oset_of_not_mem {kvs : List (String × JValue)} {k : String} (v : JValue)
    (h : k ∉ jkeys kvs) : jkeys (oset kvs k v) = jkeys kvs ++ [k] := by
  induction kvs with
  | nil => simp [oset, jkeys]
  | cons kv rest ih =>
      rcases kv with ⟨k0, v0⟩
      simp only [jkeys, List.map_cons, List.mem_cons] at h
      push_neg at h
      simp only [oset]
      rw [if_neg (fun hc => h.1 hc.symm)]
      simp only [jkeys, List.map_cons, List.cons_append, List.cons.injEq, true_and]
      exact ih h.2

theorem nodup_jkeys_oset {kvs : List (String × JValue)} {k : String} (v : JValue)
    (h : (jkeys kvs).Nodup) : (jkeys (oset kvs k v)).Nodup := by
  by_cases hm : k ∈ jkeys kvs
  · rw [jkeys_oset_of_mem v hm]; exact h
  · rw [jkeys_oset_of_not_mem v hm]
    simp only [List.nodup_append, List.nodup_singleton, true_and]
    exact ⟨h, by simpa using fun hc => hm hc⟩

theorem jkeys_oset_grows (kvs : List (String × JValue)) (k : String) (v : JValue) :
    jkeys kvs <+: jkeys (oset kvs k v) := by
  by_cases hm : k ∈ jkeys kvs
  · rw [jkeys_oset_of_mem v hm]
  · rw [jkeys_oset_of_not_mem v hm]
    exact List.prefix_append _ _

theorem jkeys_dmList_grows (over : List (String × JValue)) :
    ∀ base : List (String × JValue), jkeys base <+: jkeys (dmList base over) := by
  induction over with
  | nil => intro base; rw [dmList]
  | cons kv rest ih =>
      intro base
      rcases kv with ⟨k, v⟩
      rw [dmList]
      exact (jkeys_oset_grows base k (dmVal (jlook base k) v)).trans (ih _)

theorem nodup_jkeys_dmList (over : List (String × JValue)) :
    ∀ base : List (String × JValue), (jkeys base).Nodup →
      (jkeys (dmList base over)).Nodup := by
  induction over with
  | nil => intro base h; rw [dmList]; exact h
  | cons kv rest ih =>
      intro base h
      rcases kv with ⟨k, v⟩
      rw [dmList]
      exact ih _ (nodup_jkeys_oset _ h)

theorem jlook_dmList (over : List (String × JValue)) :
    ∀ (base : List (String × JValue)) (k : String), (jkeys over).Nodup →
      jlook (dmList base over) k =
        match jlook over k with
        | none => jlook base k
        | some v => some (dmVal (jlook base k) v) := by
  induction over with
  | nil => intro base k _; rw [dmList]; rfl
  | cons kv rest ih =>
      intro base k hnd
      rcases kv with ⟨k1, v1⟩
      rw [jkeys_cons, List.nodup_cons] at hnd
      rw [dmList, ih _ k hnd.2]
      by_cases hk : k1 = k
      · subst hk
        have hrest : jlook rest k1 = none :=
          (jlook_eq_none_iff rest k1).2 hnd.1
        rw [hrest, jlook_oset_self]
        have hcons : jlook ((k1, v1) :: rest) k1 = some v1 := by simp [jlook]
        rw [hcons]
      · simp only [jlook, if_neg hk]
        rw [jlook_oset_ne _ _ _ _ (fun hc => hk hc.symm)]

theorem jkeys_dmList (over : List (String × JValue)) :
    ∀ base : List (String × JValue), (jkeys over).Nodup →
      jkeys (dmList base over) =
        jkeys base ++ (jkeys over).filter (fun k => decide (k ∉ jkeys base)) := by
  induction over with
  | nil => intro base _; rw [dmList]; simp [jkeys]
  | cons kv rest ih =>
      intro base hnd
      rcases kv with ⟨k, v⟩
      rw [jkeys_cons, List.nodup_cons] at hnd
      rw [dmList, ih _ hnd.2, jkeys_cons, List.filter_cons]
      by_cases hm : k ∈ jkeys base
      · rw [jkeys_oset_of_mem _ hm, decide_eq_false (not_not_intro hm)]
        rfl
      · rw [jkeys_oset_of_not_mem _ hm, decide_eq_true hm]
        rw [List.append_assoc]
        simp only [List.singleton_append]
        congr 1
        congr 1
        apply List.filter_congr
        intro x hx
        have hxk : x ≠ k := fun hc => hnd.1 (hc ▸ hx)
        have hiff : (x ∈ jkeys base ++ [k]) ↔ (x ∈ jkeys base) := by
          rw [List.mem_append]
          simp only [List.mem_singleton]
          exact ⟨fun h => h.elim id (fun hc => absurd hc hxk), Or.inl⟩
        rw [decide_eq_decide]
        rw [hiff]

theorem assoc_ext (a : List (String × JValue)) :
    ∀ b : List (String × JValue), jkeys a = jkeys b → (jkeys a).Nodup →
      (∀ k, jlook a k = jlook b k) → a = b := by
  induction a with
  | nil =>
      intro b hk _ _
      cases b with
      | nil => rfl
      | cons kv rest => simp [jkeys] at hk
  | cons kv rest ih =>
      intro b hk hnd hl
      rcases kv with ⟨k0, v0⟩
      cases b with
      | nil => simp [jkeys] at hk
      | cons kv1 rest1 =>
          rcases kv1 with ⟨k1, w1⟩
          rw [jkeys_cons, jkeys_cons, List.cons.injEq] at hk
          rcases hk with ⟨hk01, hktail⟩
          subst hk01
          rw [jkeys_cons, List.nodup_cons] at hnd
          have hv : v0 = w1 := by
            have h0 := hl k0
            simp only [jlook, if_pos rfl] at h0
            exact Option.some_inj.1 h0
          subst hv
          have htail : rest = rest1 := by
            apply ih rest1 hktail hnd.2
            intro k
            by_cases hkk : k = k0
            · subst hkk
              rw [(jlook_eq_none_iff rest k).2 hnd.1,
                (jlook_eq_none_iff rest1 k).2 (hktail ▸ hnd.1)]
            · have h0 := hl k
              simp only [jlook, if_neg (fun hc : k0 = k => hkk hc.symm)] at h0
              exact h0
          rw [htail]

/-- When every base key maps in `o` to a value the deep merge keeps
unchanged, merging `b` into `o`'s shape is the identity. -/
theorem dmList_eq_self (b o : List (String × JValue))
    (hpre : jkeys b <+: jkeys o) (hnd : (jkeys o).Nodup)
    (habs : ∀ k, k ∈ jkeys b → ∀ v, jlook o k = some v → dmVal (jlook b k) v = v) :
    dmList b o = o := by
  have hndb : (jkeys b).Nodup := hpre.sublist.nodup hnd
  rcases hpre with ⟨t, ht⟩
  have hdisj : ∀ x ∈ t, x ∉ jkeys b := by
    intro x hx
    have := ht ▸ hnd
    rw [List.nodup_append] at this
    intro hc
    exact this.2.2 hc hx
  apply assoc_ext
  · rw [jkeys_dmList o b hnd, ← ht]
    congr 1
    rw [List.filter_append]
    have h1 : (jkeys b).filter (fun k => decide (k ∉ jkeys b)) = [] := by
      apply List.filter_eq_nil_iff.2
      intro x hx
      simp only [decide_eq_true_eq, not_not]
      exact hx
    have h2 : t.filter (fun k => decide (k ∉ jkeys b)) = t := by
      apply List.filter_eq_self.2
      intro x hx
      exact decide_eq_true (hdisj x hx)
    rw [h1, h2, List.nil_append]
  · exact nodup_jkeys_dmList o b hndb
  · intro k
    rw [jlook_dmList o b k hnd]
    by_cases hm : k ∈ jkeys b
    · rcases jlook_eq_some_of_mem (ht ▸ (List.mem_append.2 (Or.inl hm))) with ⟨v, hv⟩
      rw [hv]
      simp only
      rw [habs k hm v hv]
    · rw [(jlook_eq_none_iff b k).2 hm]
      cases ho : jlook o k with
      | none => rfl
      | some v => simp only [dmVal_none]

end SmartRouting

namespace SmartRouting

/-! # Coercion, strip and sanitize lemmas -/

theorem head?_dropWhile (p : Char → Bool) (l : List Char) :
    ∀ c ∈ (l.dropWhile p).head?, p c = false := by
  induction l with
  | nil => simp [List.dropWhile]
  | cons c cs ih =>
      intro d hd
      rw [List.dropWhile_cons] at hd
      by_cases hc : p c = true
      · rw [if_pos hc] at hd
        exact ih d hd
      · rw [if_neg hc] at hd
        simp only [List.head?_cons, Option.mem_def, Option.some_inj] at hd
        subst hd
        exact Bool.eq_false_iff.2 hc

theorem dropWhile_eq_self_of_head (p : Char → Bool) (l : List Char)
    (h : ∀ c ∈ l.head?, p c = false) : l.dropWhile p = l := by
  cases l with
  | nil => rfl
  | cons c cs =>
      rw [List.dropWhile_cons]
      rw [h c rfl]
      simp

theorem getLast?_of_suffix {l1 l2 : List Char} (h : l1 <:+ l2) (hne : l1 ≠ []) :
    l1.getLast? = l2.getLast? := by
  rcases h with ⟨t, ht⟩
  subst ht
  rw [List.getLast?_append]
  cases hl : l1.getLast? with
  | none => exact absurd (List.getLast?_eq_none_iff.1 hl) hne
  | some c => rfl

/-- `str.strip()` is idempotent. -/
theorem pyStrip_idem (s : String) : pyStrip (pyStrip s) = pyStrip s := by
  unfold pyStrip
  simp only
  have hAhead : ∀ c ∈ (s.data.dropWhile isPySpace).head?, isPySpace c = false :=
    head?_dropWhile isPySpace s.data
  have hBhead : ∀ c ∈ ((s.data.dropWhile isPySpace).reverse.dropWhile isPySpace).head?,
      isPySpace c = false := head?_dropWhile isPySpace _
  set A := s.data.dropWhile isPySpace with hA
  set B := A.reverse.dropWhile isPySpace with hB
  have hstep1 : B.reverse.dropWhile isPySpace = B.reverse := by
    apply dropWhile_eq_self_of_head
    intro c hc
    rw [List.head?_reverse] at hc
    by_cases hBnil : B = []
    · rw [hBnil] at hc; cases hc
    · rw [getLast?_of_suffix (List.dropWhile_suffix isPySpace) hBnil] at hc
      rw [List.getLast?_reverse] at hc
      exact hAhead c hc
  rw [hstep1, List.reverse_reverse]
  have hstep2 : B.dropWhile isPySpace = B :=
    dropWhile_eq_self_of_head isPySpace B hBhead
  rw [hstep2]

theorem coerce_float_mem (v : JValue) (d lo hi : ℚ) (h1 : lo ≤ d) (h2 : d ≤ hi) :
    lo ≤ coerce_float v d (some lo) (some hi) ∧
      coerce_float v d (some lo) (some hi) ≤ hi := by
  unfold coerce_float
  cases pyToFloat v with
  | none => exact ⟨h1, h2⟩
  | some c =>
      simp only
      by_cases hlo : c < lo
      · rw [if_pos (decide_eq_true hlo)]
        exact ⟨h1, h2⟩
      · rw [if_neg (by simpa using hlo)]
        by_cases hhi : hi < c
        · rw [if_pos (decide_eq_true hhi)]
          exact ⟨h1, h2⟩
        · rw [if_neg (by simpa using hhi)]
          exact ⟨le_of_not_lt hlo, le_of_not_lt hhi⟩

theorem coerce_float_float_eq (q d lo hi : ℚ) (h1 : lo ≤ q) (h2 : q ≤ hi) :
    coerce_float (.float q) d (some lo) (some hi) = q := by
  unfold coerce_float pyToFloat
  simp only
  rw [if_neg (by simpa using not_lt.2 h1), if_neg (by simpa using not_lt.2 h2)]

theorem coerce_float_float_free (q d : ℚ) :
    coerce_float (.float q) d none none = q := by
  unfold coerce_float pyToFloat
  simp

theorem coerce_int_ge (v : JValue) (d me : ℤ) (h : me ≤ d) :
    me ≤ coerce_int v d me := by
  unfold coerce_int
  cases pyToInt v with
  | none => exact h
  | some c =>
      simp only
      by_cases hc : me ≤ c
      · rw [if_pos hc]; exact hc
      · rw [if_neg hc]; exact h

theorem coerce_int_int_eq (n d me : ℤ) (h : me ≤ n) :
    coerce_int (.int n) d me = n := by
  unfold coerce_int pyToInt
  simp only
  rw [if_pos h]

theorem coerce_tier_mem (v : JValue) (d : String) (h : d ∈ TIERS) :
    coerce_tier v d ∈ TIERS := by
  unfold coerce_tier
  cases v with
  | str s =>
      simp only
      split
      · assumption
      · exact h
  | nul => exact h
  | bool b => exact h
  | int n => exact h
  | float q => exact h
  | list xs => exact h
  | obj kvs => exact h

theorem coerce_tier_fix (t d : String) (h : t ∈ TIERS) :
    coerce_tier (.str t) d = t := by
  simp only [TIERS, List.mem_cons, List.not_mem_nil, or_false] at h
  rcases h with rfl | rfl | rfl | rfl <;> rfl

theorem coerce_bool_bool (b d : Bool) : coerce_bool (.bool b) d = b := rfl

/-- Elements of a sanitized string list are stripped, non-empty strings
(provided the fallback default list already is). -/
theorem sanitize_clean (v : JValue) (dflt : List String)
    (hd : ∀ x ∈ dflt, pyStrip x = x ∧ x ≠ "") :
    ∀ t ∈ sanitize_string_list v dflt, pyStrip t = t ∧ t ≠ "" := by
  unfold sanitize_string_list
  cases v with
  | list xs =>
      simp only
      split
      · exact hd
      · intro t ht
        rcases List.mem_filterMap.1 ht with ⟨item, _, hsome⟩
        cases item with
        | str s =>
            simp only at hsome
            by_cases hstr : pyStrip s = ""
            · rw [if_pos hstr] at hsome; cases hsome
            · rw [if_neg hstr] at hsome
              cases hsome
              exact ⟨pyStrip_idem s, hstr⟩
        | nul => cases hsome
        | bool b => cases hsome
        | int n => cases hsome
        | float q => cases hsome
        | list ys => cases hsome
        | obj kvs => cases hsome
  | nul => exact hd
  | bool b => exact hd
  | int n => exact hd
  | float q => exact hd
  | str s => exact hd
  | obj kvs => exact hd

theorem sanitize_ne_nil (v : JValue) (dflt : List String) (hd : dflt ≠ []) :
    sanitize_string_list v dflt ≠ [] := by
  unfold sanitize_string_list
  cases v with
  | list xs =>
      simp only
      split
      · exact hd
      · rename_i hne
        exact fun hc => hne (by rw [hc]; rfl)
  | nul => exact hd
  | bool b => exact hd
  | int n => exact hd
  | float q => exact hd
  | str s => exact hd
  | obj kvs => exact hd

/-- Sanitizing a list of already-clean strings returns it unchanged. -/
theorem sanitize_self (l : List String) (dflt : List String)
    (hclean : ∀ t ∈ l, pyStrip t = t ∧ t ≠ "") (hne : l ≠ []) :
    sanitize_string_list (.list (l.map .str)) dflt = l := by
  unfold sanitize_string_list
  simp only
  have hfm : (l.map JValue.str).filterMap (fun item =>
      match item with
      | .str s => if pyStrip s = "" then none else some (pyStrip s)
      | _ => none) = l := by
    rw [List.filterMap_map]
    have : ∀ t ∈ l, (fun item =>
        match item with
        | JValue.str s => if pyStrip s = "" then none else some (pyStrip s)
        | _ => none) (JValue.str t) = some t := by
      intro t ht
      simp only [Function.comp]
      rw [if_neg (by rw [(hclean t ht).1]; exact (hclean t ht).2)]
      rw [(hclean t ht).1]
    calc l.filterMap _ = l.filterMap some := List.filterMap_congr (by
          intro t ht
          exact this t ht)
      _ = l := List.filterMap_some l
  rw [hfm]
  rw [if_neg (by simpa [List.isEmpty_iff] using hne)]

theorem jkeys_mapVal (kvs : List (String × JValue)) (f : String → JValue → JValue) :
    jkeys (kvs.map (fun kv => (kv.1, f kv.1 kv.2))) = jkeys kvs := by
  induction kvs with
  | nil => rfl
  | cons kv rest ih =>
      simp only [jkeys] at ih ⊢
      simp only [List.map_cons, ih]

theorem jlook_mapVal (kvs : List (String × JValue)) (f : String → JValue → JValue)
    (k : String) :
    jlook (kvs.map (fun kv => (kv.1, f kv.1 kv.2))) k =
      match jlook kvs k with
      | some v => some (f k v)
      | none => none := by
  induction kvs with
  | nil => rfl
  | cons kv rest ih =>
      rcases kv with ⟨k0, v0⟩
      simp only [List.map_cons, jlook]
      by_cases hk : k0 = k
      · subst hk
        rw [if_pos rfl, if_pos rfl]
      · rw [if_neg hk, if_neg hk]
        exact ih

theorem jlook_keyFnMap (l : List (String × ℚ)) (g : String → JValue) (k : String) :
    k ∈ l.map Prod.fst →
      jlook (l.map (fun kd => (kd.1, g kd.1))) k = some (g k) := by
  induction l with
  | nil => simp
  | cons kd rest ih =>
      intro hk
      simp only [List.map_cons, jlook]
      by_cases h0 : kd.1 = k
      · rw [if_pos h0, h0]
      · rw [if_neg h0]
        apply ih
        rcases List.mem_cons.1 hk with h1 | h1
        · exact absurd h1.symm h0
        · exact h1

theorem caps_bool_map_id (caps : List (String × JValue))
    (h : ∀ kv ∈ caps, ∃ b, kv.2 = JValue.bool b) :
    caps.map (fun kv => (kv.1, JValue.bool (jtruthy kv.2))) = caps := by
  induction caps with
  | nil => rfl
  | cons kv rest ih =>
      rcases h kv (List.mem_cons_self _ _) with ⟨b, hb⟩
      simp only [List.map_cons]
      rw [ih (fun kv2 h2 => h kv2 (List.mem_cons_of_mem _ h2))]
      rcases kv with ⟨k0, v0⟩
      simp only at hb
      subst hb
      rfl

end SmartRouting

namespace SmartRouting

/-! # Deep-merge value lemmas and well-formedness -/

theorem dmVal_int (o : Option JValue) (n : ℤ) : dmVal o (.int n) = .int n := by
  cases o with
  | none => rfl
  | some b => cases b <;> rfl

theorem dmVal_float (o : Option JValue) (q : ℚ) : dmVal o (.float q) = .float q := by
  cases o with
  | none => rfl
  | some b => cases b <;> rfl

theorem dmVal_str (o : Option JValue) (s : String) : dmVal o (.str s) = .str s := by
  cases o with
  | none => rfl
  | some b => cases b <;> rfl

theorem dmVal_bool (o : Option JValue) (b : Bool) : dmVal o (.bool b) = .bool b := by
  cases o with
  | none => rfl
  | some w => cases w <;> rfl

theorem dmVal_list (o : Option JValue) (xs : List JValue) :
    dmVal o (.list xs) = .list xs := by
  cases o with
  | none => rfl
  | some b => cases b <;> rfl

theorem dmVal_obj_obj (b o : List (String × JValue)) :
    dmVal (some (.obj b)) (.obj o) = .obj (dmList b o) := rfl

theorem dmVal_not_obj (w : JValue) (hw : ∀ kvs, w ≠ JValue.obj kvs) (v : JValue) :
    dmVal (some w) v = v := by
  cases w with
  | obj kvs => exact absurd rfl (hw kvs)
  | nul => cases v <;> rfl
  | bool b => cases v <;> rfl
  | int n => cases v <;> rfl
  | float q => cases v <;> rfl
  | str s => cases v <;> rfl
  | list xs => cases v <;> rfl

theorem jlook_mem {kvs : List (String × JValue)} {k : String} {v : JValue}
    (h : jlook kvs k = some v) : (k, v) ∈ kvs := by
  induction kvs with
  | nil => cases h
  | cons kv rest ih =>
      rcases kv with ⟨k0, v0⟩
      simp only [jlook] at h
      by_cases hk : k0 = k
      · rw [if_pos hk] at h
        obtain rfl := Option.some_inj.1 h
        subst hk
        exact List.mem_cons_self _ _
      · rw [if_neg hk] at h
        exact List.mem_cons_of_mem _ (ih h)

theorem jlook_elemMap {α : Type} (l : List (String × α)) (g : String × α → JValue)
    (hnd : (l.map Prod.fst).Nodup) :
    ∀ e ∈ l, jlook (l.map (fun e => (e.1, g e))) e.1 = some (g e) := by
  induction l with
  | nil => simp
  | cons e0 rest ih =>
      intro e he
      rw [List.map_cons, List.nodup_cons] at hnd
      simp only [List.map_cons, jlook]
      rcases List.mem_cons.1 he with rfl | he1
      · rw [if_pos rfl]
      · by_cases h0 : e0.1 = e.1
        · exact absurd (by rw [h0]; exact List.mem_map_of_mem Prod.fst he1) hnd.1
        · rw [if_neg h0]
          exact ih hnd.2 e he1

theorem jkeys_pairMap {α : Type} (l : List (String × α)) (g : String × α → JValue) :
    jkeys (l.map (fun e => (e.1, g e))) = l.map Prod.fst := by
  induction l with
  | nil => rfl
  | cons e rest ih =>
      simp only [List.map_cons, jkeys_cons, ih]

theorem strNodup_nodup : ∀ l : List String, strNodup l = true → l.Nodup := by
  intro l
  induction l with
  | nil => intro _; exact List.nodup_nil
  | cons k rest ih =>
      intro h
      rw [strNodup, Bool.and_eq_true] at h
      rw [List.nodup_cons]
      refine ⟨?_, ih h.2⟩
      have h1 := h.1
      rw [Bool.not_eq_true'] at h1
      exact of_decide_eq_false h1

theorem jwfObj_val {kvs : List (String × JValue)} (h : jwfObj kvs = true) :
    ∀ kv ∈ kvs, jwfB kv.2 = true := by
  induction kvs with
  | nil =>
      intro kv hkv
      cases hkv
  | cons kv0 rest ih =>
      rw [jwfObj, Bool.and_eq_true] at h
      intro kv hkv
      rcases List.mem_cons.1 hkv with rfl | h1
      · exact h.1
      · exact ih h.2 kv h1

theorem asKvs_wf {v : JValue} (h : jwfB v = true) :
    (jkeys (asKvs v)).Nodup ∧ ∀ kv ∈ asKvs v, jwfB kv.2 = true := by
  cases v with
  | obj kvs =>
      rw [jwfB, Bool.and_eq_true] at h
      exact ⟨strNodup_nodup _ h.1, jwfObj_val h.2⟩
  | nul => exact ⟨List.nodup_nil, by intro kv hkv; cases hkv⟩
  | bool b => exact ⟨List.nodup_nil, by intro kv hkv; cases hkv⟩
  | int n => exact ⟨List.nodup_nil, by intro kv hkv; cases hkv⟩
  | float q => exact ⟨List.nodup_nil, by intro kv hkv; cases hkv⟩
  | str s => exact ⟨List.nodup_nil, by intro kv hkv; cases hkv⟩
  | list xs => exact ⟨List.nodup_nil, by intro kv hkv; cases hkv⟩

theorem isBoolV_exists {v : JValue} (h : isBoolV v = true) :
    ∃ b, v = JValue.bool b := by
  cases v with
  | bool b => exact ⟨b, rfl⟩
  | nul => cases h
  | int n => cases h
  | float q => cases h
  | str s => cases h
  | list xs => cases h
  | obj kvs => cases h

end SmartRouting

namespace SmartRouting

/-! # Decidable facts about the built-in defaults -/

theorem dsc_keys_nodup : (jkeys DEFAULT_SCORING_CONFIG_KVS).Nodup := by decide

theorem clean_code :
    (∀ x ∈ defaultCodeKeywords, pyStrip x = x ∧ x ≠ "") ∧ defaultCodeKeywords ≠ [] := by
  decide

theorem clean_reasoning :
    (∀ x ∈ defaultReasoningKeywords, pyStrip x = x ∧ x ≠ "") ∧
      defaultReasoningKeywords ≠ [] := by
  decide

theorem clean_simple :
    (∀ x ∈ defaultSimpleKeywords, pyStrip x = x ∧ x ≠ "") ∧
      defaultSimpleKeywords ≠ [] := by
  decide

theorem clean_technical :
    (∀ x ∈ defaultTechnicalKeywords, pyStrip x = x ∧ x ≠ "") ∧
      defaultTechnicalKeywords ≠ [] := by
  decide

theorem clean_creative :
    (∀ x ∈ defaultCreativeKeywords, pyStrip x = x ∧ x ≠ "") ∧
      defaultCreativeKeywords ≠ [] := by
  decide

theorem clean_imperative :
    (∀ x ∈ defaultImperativeVerbs, pyStrip x = x ∧ x ≠ "") ∧
      defaultImperativeVerbs ≠ [] := by
  decide

theorem clean_constraint :
    (∀ x ∈ defaultConstraintIndicators, pyStrip x = x ∧ x ≠ "") ∧
      defaultConstraintIndicators ≠ [] := by
  decide

theorem clean_outputFormat :
    (∀ x ∈ defaultOutputFormatKeywords, pyStrip x = x ∧ x ≠ "") ∧
      defaultOutputFormatKeywords ≠ [] := by
  decide

theorem clean_reference :
    (∀ x ∈ defaultReferenceKeywords, pyStrip x = x ∧ x ≠ "") ∧
      defaultReferenceKeywords ≠ [] := by
  decide

theorem clean_negation :
    (∀ x ∈ defaultNegationKeywords, pyStrip x = x ∧ x ≠ "") ∧
      defaultNegationKeywords ≠ [] := by
  decide

theorem clean_domain :
    (∀ x ∈ defaultDomainSpecificKeywords, pyStrip x = x ∧ x ≠ "") ∧
      defaultDomainSpecificKeywords ≠ [] := by
  decide

theorem clean_agentic :
    (∀ x ∈ defaultAgenticTaskKeywords, pyStrip x = x ∧ x ≠ "") ∧
      defaultAgenticTaskKeywords ≠ [] := by
  decide

theorem dw_keys_nodup : (defaultDimensionWeights.map Prod.fst).Nodup := by decide

theorem dw_bounds : ∀ kd ∈ defaultDimensionWeights, -2 ≤ kd.2 ∧ kd.2 ≤ 2 := by decide

theorem baseClean_tier : baseClean defaultTierPrefsBase := by
  unfold baseClean
  exact ⟨by decide, by decide⟩

theorem baseClean_agentic : baseClean defaultAgenticPrefsBase := by
  unfold baseClean
  exact ⟨by decide, by decide⟩

end SmartRouting

namespace SmartRouting

/-! # Reduction lemmas for `scoringFieldValue`, one per reassigned key -/

theorem sfv_tct (m t w b : List (String × JValue)) (v : JValue) :
    scoringFieldValue m t w b "tokenCountThresholds" v =
      .obj [("simple", .int (coerce_int ((jlook t "simple").getD .nul) 50 1)),
            ("complex", .int
              (if coerce_int ((jlook t "complex").getD .nul) 500 1 <
                  coerce_int ((jlook t "simple").getD .nul) 50 1
               then coerce_int ((jlook t "simple").getD .nul) 50 1
               else coerce_int ((jlook t "complex").getD .nul) 500 1))] := rfl

theorem sfv_code (m t w b : List (String × JValue)) (v : JValue) :
    scoringFieldValue m t w b "codeKeywords" v =
      .list ((sanitize_string_list ((jlook m "codeKeywords").getD .nul)
        defaultCodeKeywords).map .str) := rfl

theorem sfv_reasoning (m t w b : List (String × JValue)) (v : JValue) :
    scoringFieldValue m t w b "reasoningKeywords" v =
      .list ((sanitize_string_list ((jlook m "reasoningKeywords").getD .nul)
        defaultReasoningKeywords).map .str) := rfl

theorem sfv_simple (m t w b : List (String × JValue)) (v : JValue) :
    scoringFieldValue m t w b "simpleKeywords" v =
      .list ((sanitize_string_list ((jlook m "simpleKeywords").getD .nul)
        defaultSimpleKeywords).map .str) := rfl

theorem sfv_technical (m t w b : List (String × JValue)) (v : JValue) :
    scoringFieldValue m t w b "technicalKeywords" v =
      .list ((sanitize_string_list ((jlook m "technicalKeywords").getD .nul)
        defaultTechnicalKeywords).map .str) := rfl

theorem sfv_creative (m t w b : List (String × JValue)) (v : JValue) :
    scoringFieldValue m t w b "creativeKeywords" v =
      .list ((sanitize_string_list ((jlook m "creativeKeywords").getD .nul)
        defaultCreativeKeywords).map .str) := rfl

theorem sfv_imperative (m t w b : List (String × JValue)) (v : JValue) :
    scoringFieldValue m t w b "imperativeVerbs" v =
      .list ((sanitize_string_list ((jlook m "imperativeVerbs").getD .nul)
        defaultImperativeVerbs).map .str) := rfl

theorem sfv_constraint (m t w b : List (String × JValue)) (v : JValue) :
    scoringFieldValue m t w b "constraintIndicators" v =
      .list ((sanitize_string_list ((jlook m "constraintIndicators").getD .nul)
        defaultConstraintIndicators).map .str) := rfl

theorem sfv_outputFormat (m t w b : List (String × JValue)) (v : JValue) :
    scoringFieldValue m t w b "outputFormatKeywords" v =
      .list ((sanitize_string_list ((jlook m "outputFormatKeywords").getD .nul)
        defaultOutputFormatKeywords).map .str) := rfl

theorem sfv_reference (m t w b : List (String × JValue)) (v : JValue) :
    scoringFieldValue m t w b "referenceKeywords" v =
      .list ((sanitize_string_list ((jlook m "referenceKeywords").getD .nul)
        defaultReferenceKeywords).map .str) := rfl

theorem sfv_negation (m t w b : List (String × JValue)) (v : JValue) :
    scoringFieldValue m t w b "negationKeywords" v =
      .list ((sanitize_string_list ((jlook m "negationKeywords").getD .nul)
        defaultNegationKeywords).map .str) := rfl

theorem sfv_domain (m t w b : List (String × JValue)) (v : JValue) :
    scoringFieldValue m t w b "domainSpecificKeywords" v =
      .list ((sanitize_string_list ((jlook m "domainSpecificKeywords").getD .nul)
        defaultDomainSpecificKeywords).map .str) := rfl

theorem sfv_agentic (m t w b : List (String × JValue)) (v : JValue) :
    scoringFieldValue m t w b "agenticTaskKeywords" v =
      .list ((sanitize_string_list ((jlook m "agenticTaskKeywords").getD .nul)
        defaultAgenticTaskKeywords).map .str) := rfl

theorem sfv_weights (m t w b : List (String × JValue)) (v : JValue) :
    scoringFieldValue m t w b "dimensionWeights" v =
      .obj (defaultDimensionWeights.map (fun kd => (kd.1, JValue.float
        (coerce_float ((jlook w kd.1).getD .nul) kd.2 (some (-2)) (some 2))))) := rfl

theorem sfv_bounds (m t w b : List (String × JValue)) (v : JValue) :
    scoringFieldValue m t w b "tierBoundaries" v =
      .obj [("simpleMedium",
             .float (coerce_float ((jlook b "simpleMedium").getD .nul) 0 none none)),
            ("mediumComplex", .float
              (if coerce_float ((jlook b "mediumComplex").getD .nul) (mkRat 9 50) none none <
                  coerce_float ((jlook b "simpleMedium").getD .nul) 0 none none
               then coerce_float ((jlook b "simpleMedium").getD .nul) 0 none none
               else coerce_float ((jlook b "mediumComplex").getD .nul) (mkRat 9 50) none none)),
            ("complexReasoning", .float
              (if coerce_float ((jlook b "complexReasoning").getD .nul) (mkRat 2 5) none none <
                  (if coerce_float ((jlook b "mediumComplex").getD .nul) (mkRat 9 50) none none <
                      coerce_float ((jlook b "simpleMedium").getD .nul) 0 none none
                   then coerce_float ((jlook b "simpleMedium").getD .nul) 0 none none
                   else coerce_float ((jlook b "mediumComplex").getD .nul) (mkRat 9 50) none none)
               then (if coerce_float ((jlook b "mediumComplex").getD .nul) (mkRat 9 50) none none <
                        coerce_float ((jlook b "simpleMedium").getD .nul) 0 none none
                     then coerce_float ((jlook b "simpleMedium").getD .nul) 0 none none
                     else coerce_float ((jlook b "mediumComplex").getD .nul) (mkRat 9 50) none none)
               else coerce_float ((jlook b "complexReasoning").getD .nul) (mkRat 2 5) none none))]
    := rfl

theorem sfv_steep (m t w b : List (String × JValue)) (v : JValue) :
    scoringFieldValue m t w b "confidenceSteepness" v =
      .float (coerce_float ((jlook m "confidenceSteepness").getD .nul) 12
        (some (mkRat 1 10)) (some 100)) := rfl

theorem sfv_thresh (m t w b : List (String × JValue)) (v : JValue) :
    scoringFieldValue m t w b "confidenceThreshold" v =
      .float (coerce_float ((jlook m "confidenceThreshold").getD .nul) (mkRat 7 10)
        (some 0) (some 1)) := rfl

theorem scoringFieldValue_other (m t w b : List (String × JValue)) (k : String) (v : JValue)
    (hk : k ∉ jkeys DEFAULT_SCORING_CONFIG_KVS) :
    scoringFieldValue m t w b k v = v := by
  simp only [DEFAULT_SCORING_CONFIG_KVS, jkeys, List.map_cons, List.map_nil, List.mem_cons,
    List.not_mem_nil, or_false, not_or] at hk
  obtain ⟨h1, h2, h3, h4, h5, h6, h7, h8, h9, h10, h11, h12, h13, h14, h15, h16, h17⟩ := hk
  unfold scoringFieldValue
  rw [if_neg h1, if_neg h2, if_neg h3, if_neg h4, if_neg h5, if_neg h6, if_neg h7,
    if_neg h8, if_neg h9, if_neg h10, if_neg h11, if_neg h12, if_neg h13, if_neg h14,
    if_neg h15, if_neg h16, if_neg h17]

/-! # Merging a normalized scoring field back onto the defaults is a no-op -/

theorem dmVal_tct (a c : ℤ) :
    dmVal (jlook DEFAULT_SCORING_CONFIG_KVS "tokenCountThresholds")
      (.obj [("simple", .int a), ("complex", .int c)]) =
    .obj [("simple", .int a), ("complex", .int c)] := rfl

theorem dmVal_bounds (q1 q2 q3 : ℚ) :
    dmVal (jlook DEFAULT_SCORING_CONFIG_KVS "tierBoundaries")
      (.obj [("simpleMedium", .float q1), ("mediumComplex", .float q2),
             ("complexReasoning", .float q3)]) =
    .obj [("simpleMedium", .float q1), ("mediumComplex", .float q2),
          ("complexReasoning", .float q3)] := rfl

theorem dmVal_weights (w : List (String × JValue)) :
    dmVal (jlook DEFAULT_SCORING_CONFIG_KVS "dimensionWeights")
      (.obj (defaultDimensionWeights.map (fun kd => (kd.1, JValue.float
        (coerce_float ((jlook w kd.1).getD .nul) kd.2 (some (-2)) (some 2)))))) =
    .obj (defaultDimensionWeights.map (fun kd => (kd.1, JValue.float
        (coerce_float ((jlook w kd.1).getD .nul) kd.2 (some (-2)) (some 2))))) := by
  have hD : jlook DEFAULT_SCORING_CONFIG_KVS "dimensionWeights" =
      some (.obj (defaultDimensionWeights.map
        (fun kw => (kw.1, JValue.float kw.2)))) := rfl
  rw [hD, dmVal_obj_obj]
  refine congrArg JValue.obj ?_
  apply dmList_eq_self
  · rw [jkeys_pairMap, jkeys_pairMap]
  · rw [jkeys_pairMap]
    exact dw_keys_nodup
  · intro k hk v hv
    rcases List.mem_map.1 (jlook_mem hv) with ⟨kd, hkd, hpair⟩
    have hv2 : v = JValue.float
        (coerce_float ((jlook w kd.1).getD .nul) kd.2 (some (-2)) (some 2)) :=
      (congrArg Prod.snd hpair).symm
    rw [hv2]
    exact dmVal_float _ _

end SmartRouting

namespace SmartRouting

/-! # Structure of a successful `_normalize_scoring` run -/

theorem normalize_scoring_eq_ok {x : JValue} {s : List (String × JValue)}
    (h : normalize_scoring x = .ok s) :
    ∃ tkvs wkvs bkvs,
      (jlook (dmList DEFAULT_SCORING_CONFIG_KVS (asKvs x)) "tokenCountThresholds").getD
          (.obj []) = .obj tkvs ∧
      (jlook (dmList DEFAULT_SCORING_CONFIG_KVS (asKvs x)) "dimensionWeights").getD
          (.obj []) = .obj wkvs ∧
      (jlook (dmList DEFAULT_SCORING_CONFIG_KVS (asKvs x)) "tierBoundaries").getD
          (.obj []) = .obj bkvs ∧
      s = (dmList DEFAULT_SCORING_CONFIG_KVS (asKvs x)).map (fun kv =>
        (kv.1, scoringFieldValue (dmList DEFAULT_SCORING_CONFIG_KVS (asKvs x))
          tkvs wkvs bkvs kv.1 kv.2)) := by
  simp only [normalize_scoring] at h
  split at h
  · rename_i tkvs heq1
    split at h
    · rename_i wkvs heq2
      split at h
      · rename_i bkvs heq3
        injection h with h1
        exact ⟨tkvs, wkvs, bkvs, heq1, heq2, heq3, h1.symm⟩
      · exact Except.noConfusion h
    · exact Except.noConfusion h
  · exact Except.noConfusion h

theorem dmList_default_scoring_absorb {x : JValue} {s : List (String × JValue)}
    (h : normalize_scoring x = .ok s) :
    dmList DEFAULT_SCORING_CONFIG_KVS s = s := by
  obtain ⟨tkvs, wkvs, bkvs, heq1, heq2, heq3, hs⟩ := normalize_scoring_eq_ok h
  have hndm : (jkeys (dmList DEFAULT_SCORING_CONFIG_KVS (asKvs x))).Nodup :=
    nodup_jkeys_dmList _ _ dsc_keys_nodup
  have hpre : jkeys DEFAULT_SCORING_CONFIG_KVS <+:
      jkeys (dmList DEFAULT_SCORING_CONFIG_KVS (asKvs x)) := jkeys_dmList_grows _ _
  have hkeys : jkeys s = jkeys (dmList DEFAULT_SCORING_CONFIG_KVS (asKvs x)) := by
    rw [hs, jkeys_mapVal]
  apply dmList_eq_self
  · rw [hkeys]; exact hpre
  · rw [hkeys]; exact hndm
  · intro k hk v hv
    rw [hs, jlook_mapVal] at hv
    cases hmk : jlook (dmList DEFAULT_SCORING_CONFIG_KVS (asKvs x)) k with
    | none => rw [hmk] at hv; cases hv
    | some v0 =>
        rw [hmk] at hv
        simp only at hv
        obtain rfl := (Option.some_inj.1 hv).symm
        have hk17 := hk
        simp only [DEFAULT_SCORING_CONFIG_KVS, jkeys, List.map_cons, List.map_nil,
          List.mem_cons, List.not_mem_nil, or_false] at hk17
        rcases hk17 with rfl | rfl | rfl | rfl | rfl | rfl | rfl | rfl | rfl | rfl | rfl
          | rfl | rfl | rfl | rfl | rfl | rfl
        · rw [sfv_tct]; exact dmVal_tct _ _
        · rw [sfv_code]; exact dmVal_list _ _
        · rw [sfv_reasoning]; exact dmVal_list _ _
        · rw [sfv_simple]; exact dmVal_list _ _
        · rw [sfv_technical]; exact dmVal_list _ _
        · rw [sfv_creative]; exact dmVal_list _ _
        · rw [sfv_imperative]; exact dmVal_list _ _
        · rw [sfv_constraint]; exact dmVal_list _ _
        · rw [sfv_outputFormat]; exact dmVal_list _ _
        · rw [sfv_reference]; exact dmVal_list _ _
        · rw [sfv_negation]; exact dmVal_list _ _
        · rw [sfv_domain]; exact dmVal_list _ _
        · rw [sfv_agentic]; exact dmVal_list _ _
        · rw [sfv_weights]; exact dmVal_weights _
        · rw [sfv_bounds]; exact dmVal_bounds _ _ _
        · rw [sfv_steep]; exact dmVal_float _ _
        · rw [sfv_thresh]; exact dmVal_float _ _

end SmartRouting

namespace SmartRouting

/-! # Second-pass stability of each scoring field -/

theorem jlook_of_mem_nodup {kvs : List (String × JValue)} {k : String} {v : JValue}
    (h : (k, v) ∈ kvs) (hnd : (jkeys kvs).Nodup) : jlook kvs k = some v := by
  induction kvs with
  | nil => cases h
  | cons kv rest ih =>
      rcases kv with ⟨k0, v0⟩
      rw [jkeys_cons, List.nodup_cons] at hnd
      rcases List.mem_cons.1 h with heq | hmem
      · injection heq with h1 h2
        subst h1
        subst h2
        simp [jlook]
      · simp only [jlook]
        by_cases hk : k0 = k
        · subst hk
          exact absurd (List.mem_map_of_mem Prod.fst hmem) hnd.1
        · rw [if_neg hk]
          exact ih hmem hnd.2

theorem sanitize_roundtrip (key : String) (s2 : List (String × JValue))
    (dflt l : List String)
    (hc : ∀ t ∈ l, pyStrip t = t ∧ t ≠ "") (hne : l ≠ [])
    (hlook : jlook s2 key = some (.list (l.map .str))) :
    sanitize_string_list ((jlook s2 key).getD .nul) dflt = l := by
  rw [hlook]
  simp only [Option.getD_some]
  exact sanitize_self l dflt hc hne

theorem sfv_tct_stable (m2 w2 b2 m t w b : List (String × JValue)) (v v2 : JValue) :
    scoringFieldValue m2 (asKvs (scoringFieldValue m t w b "tokenCountThresholds" v))
        w2 b2 "tokenCountThresholds" v2 =
      scoringFieldValue m t w b "tokenCountThresholds" v := by
  rw [sfv_tct m, sfv_tct m2]
  simp only [asKvs]
  set a := coerce_int ((jlook t "simple").getD .nul) 50 1 with ha
  set c := coerce_int ((jlook t "complex").getD .nul) 500 1 with hc
  have h1a : (1:ℤ) ≤ a := by rw [ha]; exact coerce_int_ge _ _ _ (by decide)
  have h1c : (1:ℤ) ≤ c := by rw [hc]; exact coerce_int_ge _ _ _ (by decide)
  set cc := if c < a then a else c with hcc
  have h1cc : (1:ℤ) ≤ cc := by
    rw [hcc]
    by_cases hx : c < a
    · rw [if_pos hx]
      exact h1a
    · rw [if_neg hx]
      exact h1c
  have hacc : a ≤ cc := by
    rw [hcc]
    by_cases hx : c < a
    · rw [if_pos hx]
    · rw [if_neg hx]
      exact le_of_not_lt hx
  have hl1 : jlook [("simple", JValue.int a), ("complex", JValue.int cc)] "simple" =
      some (.int a) := rfl
  have hl2 : jlook [("simple", JValue.int a), ("complex", JValue.int cc)] "complex" =
      some (.int cc) := rfl
  rw [hl1, hl2]
  simp only [Option.getD_some]
  rw [coerce_int_int_eq _ _ _ h1a, coerce_int_int_eq _ _ _ h1cc,
    if_neg (not_lt.2 hacc)]

theorem sfv_weights_stable (m2 t2 b2 m t w b : List (String × JValue)) (v v2 : JValue) :
    scoringFieldValue m2 t2 (asKvs (scoringFieldValue m t w b "dimensionWeights" v))
        b2 "dimensionWeights" v2 =
      scoringFieldValue m t w b "dimensionWeights" v := by
  rw [sfv_weights m, sfv_weights m2]
  simp only [asKvs]
  refine congrArg JValue.obj (List.map_congr_left ?_)
  intro kd hkd
  rw [jlook_elemMap defaultDimensionWeights _ dw_keys_nodup kd hkd]
  simp only [Option.getD_some]
  have hb := dw_bounds kd hkd
  rw [coerce_float_float_eq _ _ _ _ (coerce_float_mem _ _ _ _ hb.1 hb.2).1
    (coerce_float_mem _ _ _ _ hb.1 hb.2).2]

theorem sfv_bounds_stable (m2 t2 w2 m t w b : List (String × JValue)) (v v2 : JValue) :
    scoringFieldValue m2 t2 w2 (asKvs (scoringFieldValue m t w b "tierBoundaries" v))
        "tierBoundaries" v2 =
      scoringFieldValue m t w b "tierBoundaries" v := by
  rw [sfv_bounds m, sfv_bounds m2]
  simp only [asKvs]
  set sm := coerce_float ((jlook b "simpleMedium").getD .nul) 0 none none with hsm
  set mc0 := coerce_float ((jlook b "mediumComplex").getD .nul) (mkRat 9 50) none none
    with hmc0
  set cr0 := coerce_float ((jlook b "complexReasoning").getD .nul) (mkRat 2 5) none none
    with hcr0
  set mc := if mc0 < sm then sm else mc0 with hmc
  set cr := if cr0 < mc then mc else cr0 with hcr
  have hsmmc : sm ≤ mc := by
    rw [hmc]
    by_cases hx : mc0 < sm
    · rw [if_pos hx]
    · rw [if_neg hx]
      exact le_of_not_lt hx
  have hmccr : mc ≤ cr := by
    rw [hcr]
    by_cases hx : cr0 < mc
    · rw [if_pos hx]
    · rw [if_neg hx]
      exact le_of_not_lt hx
  have hl1 : jlook [("simpleMedium", JValue.float sm), ("mediumComplex", JValue.float mc),
      ("complexReasoning", JValue.float cr)] "simpleMedium" = some (.float sm) := rfl
  have hl2 : jlook [("simpleMedium", JValue.float sm), ("mediumComplex", JValue.float mc),
      ("complexReasoning", JValue.float cr)] "mediumComplex" = some (.float mc) := rfl
  have hl3 : jlook [("simpleMedium", JValue.float sm), ("mediumComplex", JValue.float mc),
      ("complexReasoning", JValue.float cr)] "complexReasoning" = some (.float cr) := rfl
  rw [hl1, hl2, hl3]
  simp only [Option.getD_some, coerce_float_float_free]
  rw [if_neg (not_lt.2 hsmmc), if_neg (not_lt.2 hmccr)]

theorem sfv_steep_stable (m2 t2 w2 b2 m t w b : List (String × JValue)) (v v2 : JValue)
    (hlook : jlook m2 "confidenceSteepness" =
      some (scoringFieldValue m t w b "confidenceSteepness" v)) :
    scoringFieldValue m2 t2 w2 b2 "confidenceSteepness" v2 =
      scoringFieldValue m t w b "confidenceSteepness" v := by
  rw [sfv_steep m] at hlook ⊢
  rw [sfv_steep m2, hlook]
  simp only [Option.getD_some]
  have hm := coerce_float_mem ((jlook m "confidenceSteepness").getD .nul) 12
    (mkRat 1 10) 100 (by decide) (by decide)
  rw [coerce_float_float_eq _ _ _ _ hm.1 hm.2]

theorem sfv_thresh_stable (m2 t2 w2 b2 m t w b : List (String × JValue)) (v v2 : JValue)
    (hlook : jlook m2 "confidenceThreshold" =
      some (scoringFieldValue m t w b "confidenceThreshold" v)) :
    scoringFieldValue m2 t2 w2 b2 "confidenceThreshold" v2 =
      scoringFieldValue m t w b "confidenceThreshold" v := by
  rw [sfv_thresh m] at hlook ⊢
  rw [sfv_thresh m2, hlook]
  simp only [Option.getD_some]
  have hm := coerce_float_mem ((jlook m "confidenceThreshold").getD .nul) (mkRat 7 10)
    0 1 (by decide) (by decide)
  rw [coerce_float_float_eq _ _ _ _ hm.1 hm.2]

end SmartRouting

namespace SmartRouting

/-- Running `_normalize_scoring` on its own successful output is the
identity: the defaults merge absorbs into the normalized `dict` and every
field reassignment reproduces its first-pass value. -/
theorem normalize_scoring_stable {x : JValue} {s : List (String × JValue)}
    (h : normalize_scoring x = .ok s) :
    normalize_scoring (.obj s) = .ok s := by
  obtain ⟨tkvs, wkvs, bkvs, heq1, heq2, heq3, hs⟩ := normalize_scoring_eq_ok h
  have habs : dmList DEFAULT_SCORING_CONFIG_KVS s = s := dmList_default_scoring_absorb h
  set M := dmList DEFAULT_SCORING_CONFIG_KVS (asKvs x) with hM
  have hndm : (jkeys M).Nodup := nodup_jkeys_dmList _ _ dsc_keys_nodup
  have hpre : jkeys DEFAULT_SCORING_CONFIG_KVS <+: jkeys M := jkeys_dmList_grows _ _
  have hlookM : ∀ k, k ∈ jkeys DEFAULT_SCORING_CONFIG_KVS → ∃ v, jlook M k = some v :=
    fun k hk => jlook_eq_some_of_mem (hpre.subset hk)
  obtain ⟨vt, hvt⟩ := hlookM "tokenCountThresholds" (by decide)
  rw [hvt] at heq1
  simp only [Option.getD_some] at heq1
  subst heq1
  obtain ⟨vw, hvw⟩ := hlookM "dimensionWeights" (by decide)
  rw [hvw] at heq2
  simp only [Option.getD_some] at heq2
  subst heq2
  obtain ⟨vb, hvb⟩ := hlookM "tierBoundaries" (by decide)
  rw [hvb] at heq3
  simp only [Option.getD_some] at heq3
  subst heq3
  have hfix : ∀ ek ev, (ek, ev) ∈ M →
      scoringFieldValue s
        (asKvs (scoringFieldValue M tkvs wkvs bkvs "tokenCountThresholds" (.obj tkvs)))
        (asKvs (scoringFieldValue M tkvs wkvs bkvs "dimensionWeights" (.obj wkvs)))
        (asKvs (scoringFieldValue M tkvs wkvs bkvs "tierBoundaries" (.obj bkvs)))
        ek (scoringFieldValue M tkvs wkvs bkvs ek ev)
      = scoringFieldValue M tkvs wkvs bkvs ek ev := by
    intro ek ev heM
    have hvk : jlook M ek = some ev := jlook_of_mem_nodup heM hndm
    by_cases hmem : ek ∈ jkeys DEFAULT_SCORING_CONFIG_KVS
    · simp only [DEFAULT_SCORING_CONFIG_KVS, jkeys, List.map_cons, List.map_nil,
        List.mem_cons, List.not_mem_nil, or_false] at hmem
      rcases hmem with rfl | rfl | rfl | rfl | rfl | rfl | rfl | rfl | rfl | rfl | rfl
        | rfl | rfl | rfl | rfl | rfl | rfl
      · exact sfv_tct_stable _ _ _ _ _ _ _ _ _
      · have hsk : jlook s "codeKeywords" =
            some (scoringFieldValue M tkvs wkvs bkvs "codeKeywords" ev) := by
          rw [hs, jlook_mapVal, hvk]
        rw [sfv_code M] at hsk
        rw [sfv_code s, sfv_code M, sanitize_roundtrip _ _ _ _
          (sanitize_clean _ _ clean_code.1) (sanitize_ne_nil _ _ clean_code.2) hsk]
      · have hsk : jlook s "reasoningKeywords" =
            some (scoringFieldValue M tkvs wkvs bkvs "reasoningKeywords" ev) := by
          rw [hs, jlook_mapVal, hvk]
        rw [sfv_reasoning M] at hsk
        rw [sfv_reasoning s, sfv_reasoning M, sanitize_roundtrip _ _ _ _
          (sanitize_clean _ _ clean_reasoning.1) (sanitize_ne_nil _ _ clean_reasoning.2) hsk]
      · have hsk : jlook s "simpleKeywords" =
            some (scoringFieldValue M tkvs wkvs bkvs "simpleKeywords" ev) := by
          rw [hs, jlook_mapVal, hvk]
        rw [sfv_simple M] at hsk
        rw [sfv_simple s, sfv_simple M, sanitize_roundtrip _ _ _ _
          (sanitize_clean _ _ clean_simple.1) (sanitize_ne_nil _ _ clean_simple.2) hsk]
      · have hsk : jlook s "technicalKeywords" =
            some (scoringFieldValue M tkvs wkvs bkvs "technicalKeywords" ev) := by
          rw [hs, jlook_mapVal, hvk]
        rw [sfv_technical M] at hsk
        rw [sfv_technical s, sfv_technical M, sanitize_roundtrip _ _ _ _
          (sanitize_clean _ _ clean_technical.1) (sanitize_ne_nil _ _ clean_technical.2) hsk]
      · have hsk : jlook s "creativeKeywords" =
            some (scoringFieldValue M tkvs wkvs bkvs "creativeKeywords" ev) := by
          rw [hs, jlook_mapVal, hvk]
        rw [sfv_creative M] at hsk
        rw [sfv_creative s, sfv_creative M, sanitize_roundtrip _ _ _ _
          (sanitize_clean _ _ clean_creative.1) (sanitize_ne_nil _ _ clean_creative.2) hsk]
      · have hsk : jlook s "imperativeVerbs" =
            some (scoringFieldValue M tkvs wkvs bkvs "imperativeVerbs" ev) := by
          rw [hs, jlook_mapVal, hvk]
        rw [sfv_imperative M] at hsk
        rw [sfv_imperative s, sfv_imperative M, sanitize_roundtrip _ _ _ _
          (sanitize_clean _ _ clean_imperative.1) (sanitize_ne_nil _ _ clean_imperative.2) hsk]
      · have hsk : jlook s "constraintIndicators" =
            some (scoringFieldValue M tkvs wkvs bkvs "constraintIndicators" ev) := by
          rw [hs, jlook_mapVal, hvk]
        rw [sfv_constraint M] at hsk
        rw [sfv_constraint s, sfv_constraint M, sanitize_roundtrip _ _ _ _
          (sanitize_clean _ _ clean_constraint.1) (sanitize_ne_nil _ _ clean_constraint.2) hsk]
      · have hsk : jlook s "outputFormatKeywords" =
            some (scoringFieldValue M tkvs wkvs bkvs "outputFormatKeywords" ev) := by
          rw [hs, jlook_mapVal, hvk]
        rw [sfv_outputFormat M] at hsk
        rw [sfv_outputFormat s, sfv_outputFormat M, sanitize_roundtrip _ _ _ _
          (sanitize_clean _ _ clean_outputFormat.1) (sanitize_ne_nil _ _ clean_outputFormat.2) hsk]
      · have hsk : jlook s "referenceKeywords" =
            some (scoringFieldValue M tkvs wkvs bkvs "referenceKeywords" ev) := by
          rw [hs, jlook_mapVal, hvk]
        rw [sfv_reference M] at hsk
        rw [sfv_reference s, sfv_reference M, sanitize_roundtrip _ _ _ _
          (sanitize_clean _ _ clean_reference.1) (sanitize_ne_nil _ _ clean_reference.2) hsk]
      · have hsk : jlook s "negationKeywords" =
            some (scoringFieldValue M tkvs wkvs bkvs "negationKeywords" ev) := by
          rw [hs, jlook_mapVal, hvk]
        rw [sfv_negation M] at hsk
        rw [sfv_negation s, sfv_negation M, sanitize_roundtrip _ _ _ _
          (sanitize_clean _ _ clean_negation.1) (sanitize_ne_nil _ _ clean_negation.2) hsk]
      · have hsk : jlook s "domainSpecificKeywords" =
            some (scoringFieldValue M tkvs wkvs bkvs "domainSpecificKeywords" ev) := by
          rw [hs, jlook_mapVal, hvk]
        rw [sfv_domain M] at hsk
        rw [sfv_domain s, sfv_domain M, sanitize_roundtrip _ _ _ _
          (sanitize_clean _ _ clean_domain.1) (sanitize_ne_nil _ _ clean_domain.2) hsk]
      · have hsk : jlook s "agenticTaskKeywords" =
            some (scoringFieldValue M tkvs wkvs bkvs "agenticTaskKeywords" ev) := by
          rw [hs, jlook_mapVal, hvk]
        rw [sfv_agentic M] at hsk
        rw [sfv_agentic s, sfv_agentic M, sanitize_roundtrip _ _ _ _
          (sanitize_clean _ _ clean_agentic.1) (sanitize_ne_nil _ _ clean_agentic.2) hsk]
      · exact sfv_weights_stable _ _ _ _ _ _ _ _ _
      · exact sfv_bounds_stable _ _ _ _ _ _ _ _ _
      · refine sfv_steep_stable _ _ _ _ _ _ _ _ _ _ ?_
        rw [hs, jlook_mapVal, hvk]
      · refine sfv_thresh_stable _ _ _ _ _ _ _ _ _ _ ?_
        rw [hs, jlook_mapVal, hvk]
    · rw [scoringFieldValue_other M tkvs wkvs bkvs ek ev hmem,
        scoringFieldValue_other s _ _ _ ek ev hmem]
  have hsTct : jlook s "tokenCountThresholds" =
      some (scoringFieldValue M tkvs wkvs bkvs "tokenCountThresholds" (.obj tkvs)) := by
    rw [hs, jlook_mapVal, hvt]
  have hsW : jlook s "dimensionWeights" =
      some (scoringFieldValue M tkvs wkvs bkvs "dimensionWeights" (.obj wkvs)) := by
    rw [hs, jlook_mapVal, hvw]
  have hsB : jlook s "tierBoundaries" =
      some (scoringFieldValue M tkvs wkvs bkvs "tierBoundaries" (.obj bkvs)) := by
    rw [hs, jlook_mapVal, hvb]
  rw [sfv_tct M] at hsTct
  rw [sfv_weights M] at hsW
  rw [sfv_bounds M] at hsB
  simp only [normalize_scoring, asKvs]
  rw [habs, hsTct, hsW, hsB]
  simp only [Option.getD_some]
  refine congrArg Except.ok ?_
  conv_rhs => rw [← List.map_id s]
  apply List.map_congr_left
  intro a ha
  rw [hs] at ha
  rcases List.mem_map.1 ha with ⟨⟨ek, ev⟩, heM, hpa⟩
  rw [← hpa]
  simp only [id_eq]
  exact congrArg (Prod.mk ek) (hfix ek ev heM)

end SmartRouting

namespace SmartRouting

/-! # `_normalize_overrides`: shape, absorption and stability -/

theorem normalize_overrides_shape (x : JValue) :
    ∃ (n : ℤ) (t1 t2 : String) (bb : Bool),
      normalize_overrides x =
        [("maxTokensForceComplex", .int n), ("structuredOutputMinTier", .str t1),
         ("ambiguousDefaultTier", .str t2), ("agenticMode", .bool bb)] ∧
      1 ≤ n ∧ t1 ∈ TIERS ∧ t2 ∈ TIERS := by
  refine ⟨_, _, _, _, rfl, ?_, ?_, ?_⟩
  · exact coerce_int_ge _ _ _ (by decide)
  · exact coerce_tier_mem _ _ (by decide)
  · exact coerce_tier_mem _ _ (by decide)

theorem dmList_overrides_absorb (n : ℤ) (t1 t2 : String) (bb : Bool) :
    dmList DEFAULT_OVERRIDES_KVS
      [("maxTokensForceComplex", .int n), ("structuredOutputMinTier", .str t1),
       ("ambiguousDefaultTier", .str t2), ("agenticMode", .bool bb)] =
      [("maxTokensForceComplex", .int n), ("structuredOutputMinTier", .str t1),
       ("ambiguousDefaultTier", .str t2), ("agenticMode", .bool bb)] := rfl

theorem normalize_overrides_stable (x : JValue) :
    normalize_overrides (.obj (normalize_overrides x)) = normalize_overrides x := by
  obtain ⟨n, t1, t2, bb, hval, hn, ht1, ht2⟩ := normalize_overrides_shape x
  rw [hval]
  simp only [normalize_overrides, asKvs]
  rw [dmList_overrides_absorb]
  have hl1 : jlook [("maxTokensForceComplex", JValue.int n),
      ("structuredOutputMinTier", JValue.str t1), ("ambiguousDefaultTier", JValue.str t2),
      ("agenticMode", JValue.bool bb)] "maxTokensForceComplex" = some (.int n) := rfl
  have hl2 : jlook [("maxTokensForceComplex", JValue.int n),
      ("structuredOutputMinTier", JValue.str t1), ("ambiguousDefaultTier", JValue.str t2),
      ("agenticMode", JValue.bool bb)] "structuredOutputMinTier" = some (.str t1) := rfl
  have hl3 : jlook [("maxTokensForceComplex", JValue.int n),
      ("structuredOutputMinTier", JValue.str t1), ("ambiguousDefaultTier", JValue.str t2),
      ("agenticMode", JValue.bool bb)] "ambiguousDefaultTier" = some (.str t2) := rfl
  have hl4 : jlook [("maxTokensForceComplex", JValue.int n),
      ("structuredOutputMinTier", JValue.str t1), ("ambiguousDefaultTier", JValue.str t2),
      ("agenticMode", JValue.bool bb)] "agenticMode" = some (.bool bb) := rfl
  rw [hl1, hl2, hl3, hl4]
  simp only [Option.getD_some]
  rw [coerce_int_int_eq _ _ _ hn, coerce_tier_fix _ _ ht1, coerce_tier_fix _ _ ht2,
    coerce_bool_bool]

/-! # `_normalize_preferences` helpers -/

theorem obj_or_not (v : JValue) :
    (∃ kvs, v = JValue.obj kvs) ∨ ((∀ kvs, v ≠ JValue.obj kvs) ∧ asKvs v = []) := by
  cases v
  case obj kvs => exact Or.inl ⟨kvs, rfl⟩
  all_goals exact Or.inr ⟨fun kvs hc => JValue.noConfusion hc, rfl⟩

theorem jlook_two_fst (k1 k2 : String) (v1 v2 : JValue) :
    jlook [(k1, v1), (k2, v2)] k1 = some v1 := by
  simp [jlook]

theorem jlook_two_snd (k1 k2 : String) (v1 v2 : JValue) (h : k1 ≠ k2) :
    jlook [(k1, v1), (k2, v2)] k2 = some v2 := by
  simp [jlook, h]

theorem pref_vc_of_nonobj_section {p : JValue} (hp : asKvs p = []) (tier : String) :
    (jlook (prefRawEntry p tier) "capabilities").getD .nul = .nul := by
  rw [prefRawEntry, hp]
  rfl

theorem pref_vc_of_flat_entry {kvs : List (String × JValue)} {tier : String} {w : JValue}
    (hw : jlook kvs tier = some w) (hnw : asKvs w = []) :
    (jlook (prefRawEntry (.obj kvs) tier) "capabilities").getD .nul = .nul := by
  rw [prefRawEntry]
  rw [show asKvs (JValue.obj kvs) = kvs from rfl, hw]
  simp only [Option.getD_some]
  rw [hnw]
  rfl

theorem normalize_preferences_unfold (prefs : JValue)
    (base : List (String × List String × List (String × JValue))) :
    normalize_preferences prefs base = base.map (fun e => (e.1, JValue.obj
      [("preferred_models", .list ((sanitize_string_list
          ((jlook (prefRawEntry prefs e.1) "preferred_models").getD .nul) e.2.1).map .str)),
       ("capabilities", .obj (sanitize_capabilities
          ((jlook (prefRawEntry prefs e.1) "capabilities").getD .nul) e.2.2))])) := rfl

end SmartRouting

namespace SmartRouting

theorem dmVal_flat (o : Option JValue) (v : JValue) (hv : ∀ kvs, v ≠ JValue.obj kvs) :
    dmVal o v = v := by
  cases o with
  | none => exact dmVal_none v
  | some w =>
      cases v with
      | obj kvs => exact absurd rfl (hv kvs)
      | nul => cases w <;> rfl
      | bool b => cases w <;> rfl
      | int n => cases w <;> rfl
      | float q => cases w <;> rfl
      | str s => cases w <;> rfl
      | list xs => cases w <;> rfl

/-- For a well-formed raw configuration, the capability `dict` each tier of
a normalized preference table ends up with always contains the built-in
default capability keys first (the deep merge can only extend the default
entry), has distinct keys, and holds only `bool` values. -/
theorem pref_entry_caps {raw : JValue} (hwf : jwfB raw = true)
    (key : String)
    (base : List (String × List String × List (String × JValue)))
    (hb : baseClean base)
    (hkey : jlook default_config_kvs key = some (.obj (prefsBaseToKvs base))) :
    ∀ e ∈ base,
      jkeys e.2.2 <+: jkeys (sanitize_capabilities
          ((jlook (prefRawEntry (cfgSection raw key) e.1) "capabilities").getD .nul) e.2.2) ∧
      (jkeys (sanitize_capabilities
          ((jlook (prefRawEntry (cfgSection raw key) e.1) "capabilities").getD .nul)
          e.2.2)).Nodup ∧
      ∀ kv ∈ sanitize_capabilities
          ((jlook (prefRawEntry (cfgSection raw key) e.1) "capabilities").getD .nul) e.2.2,
        isBoolV kv.2 = true := by
  intro e he
  obtain ⟨hbe1, hbe2, hbe3, hbe4⟩ := hb.2 e he
  have hcaps : ∀ vc : JValue,
      (vc = .obj e.2.2 ∨ (∃ ckvs, vc = .obj (dmList e.2.2 ckvs)) ∨
        ∀ ckvs, vc ≠ .obj ckvs) →
      jkeys e.2.2 <+: jkeys (sanitize_capabilities vc e.2.2) ∧
      (jkeys (sanitize_capabilities vc e.2.2)).Nodup ∧
      ∀ kv ∈ sanitize_capabilities vc e.2.2, isBoolV kv.2 = true := by
    intro vc hvc
    rcases hvc with h1 | ⟨ckvs, h2⟩ | h3
    · subst h1
      have hsv : sanitize_capabilities (.obj e.2.2) e.2.2 = e.2.2 := by
        simp only [sanitize_capabilities]
        exact caps_bool_map_id _ (fun kv hkv => isBoolV_exists (hbe3 kv hkv))
      rw [hsv]
      exact ⟨List.prefix_rfl, hbe4, hbe3⟩
    · subst h2
      simp only [sanitize_capabilities]
      refine ⟨?_, ?_, ?_⟩
      · rw [jkeys_pairMap]
        exact jkeys_dmList_grows _ _
      · rw [jkeys_pairMap]
        exact nodup_jkeys_dmList _ _ hbe4
      · intro kv hkv
        rcases List.mem_map.1 hkv with ⟨kv0, _, hkv2⟩
        rw [← hkv2]
        rfl
    · have hsv : sanitize_capabilities vc e.2.2 = e.2.2 := by
        cases vc with
        | obj kvs => exact absurd rfl (h3 kvs)
        | nul => rfl
        | bool b => rfl
        | int n => rfl
        | float q => rfl
        | str s => rfl
        | list xs => rfl
      rw [hsv]
      exact ⟨List.prefix_rfl, hbe4, hbe3⟩
  apply hcaps
  have hraw := asKvs_wf hwf
  have hPe : jlook (prefsBaseToKvs base) e.1 =
      some (.obj [("preferred_models", .list (e.2.1.map .str)),
                  ("capabilities", .obj e.2.2)]) :=
    jlook_elemMap base _ hb.1 e he
  have hsec : jlook (dmList default_config_kvs (asKvs raw)) key =
      match jlook (asKvs raw) key with
      | none => jlook default_config_kvs key
      | some v => some (dmVal (jlook default_config_kvs key) v) :=
    jlook_dmList _ _ _ hraw.1
  cases h0 : jlook (asKvs raw) key with
  | none =>
      simp only [h0, hkey] at hsec
      have hcfg : cfgSection raw key = .obj (prefsBaseToKvs base) := by
        rw [cfgSection, hsec]
        rfl
      refine Or.inl ?_
      rw [hcfg, prefRawEntry]
      rw [show asKvs (JValue.obj (prefsBaseToKvs base)) = prefsBaseToKvs base from rfl,
        hPe]
      rfl
  | some rv =>
      simp only [h0, hkey] at hsec
      have hrwf : jwfB rv = true := hraw.2 (key, rv) (jlook_mem h0)
      rcases obj_or_not rv with ⟨rkvs, rfl⟩ | ⟨hno, hnil⟩
      · rw [dmVal_obj_obj] at hsec
        obtain ⟨hrnd, hrv⟩ : (jkeys rkvs).Nodup ∧ ∀ kv ∈ rkvs, jwfB kv.2 = true := by
          have h := asKvs_wf hrwf
          exact ⟨h.1, h.2⟩
        have hcfg : cfgSection raw key = .obj (dmList (prefsBaseToKvs base) rkvs) := by
          rw [cfgSection, hsec]
          rfl
        have hsec2 : jlook (dmList (prefsBaseToKvs base) rkvs) e.1 =
            match jlook rkvs e.1 with
            | none => jlook (prefsBaseToKvs base) e.1
            | some v => some (dmVal (jlook (prefsBaseToKvs base) e.1) v) :=
          jlook_dmList _ _ _ hrnd
        cases h1 : jlook rkvs e.1 with
        | none =>
            simp only [h1, hPe] at hsec2
            refine Or.inl ?_
            rw [hcfg, prefRawEntry]
            rw [show asKvs (JValue.obj (dmList (prefsBaseToKvs base) rkvs)) =
              dmList (prefsBaseToKvs base) rkvs from rfl, hsec2]
            rfl
        | some ev =>
            simp only [h1, hPe] at hsec2
            have hewf : jwfB ev = true := hrv (e.1, ev) (jlook_mem h1)
            rcases obj_or_not ev with ⟨ekvs, rfl⟩ | ⟨hnoe, hnile⟩
            · rw [dmVal_obj_obj] at hsec2
              obtain ⟨hend, -⟩ : (jkeys ekvs).Nodup ∧ ∀ kv ∈ ekvs, jwfB kv.2 = true := by
                have h := asKvs_wf hewf
                exact ⟨h.1, h.2⟩
              have hentry : prefRawEntry (cfgSection raw key) e.1 =
                  dmList [("preferred_models", .list (e.2.1.map .str)),
                          ("capabilities", .obj e.2.2)] ekvs := by
                rw [hcfg, prefRawEntry]
                rw [show asKvs (JValue.obj (dmList (prefsBaseToKvs base) rkvs)) =
                  dmList (prefsBaseToKvs base) rkvs from rfl, hsec2]
                rfl
              have hlc : jlook [("preferred_models", JValue.list (e.2.1.map .str)),
                  ("capabilities", JValue.obj e.2.2)] "capabilities" =
                  some (.obj e.2.2) := jlook_two_snd _ _ _ _ (by decide)
              have hsec3 : jlook (dmList [("preferred_models",
                    JValue.list (e.2.1.map .str)), ("capabilities", JValue.obj e.2.2)]
                    ekvs) "capabilities" =
                  match jlook ekvs "capabilities" with
                  | none => jlook [("preferred_models", JValue.list (e.2.1.map .str)),
                      ("capabilities", JValue.obj e.2.2)] "capabilities"
                  | some v => some (dmVal (jlook [("preferred_models",
                      JValue.list (e.2.1.map .str)), ("capabilities", JValue.obj e.2.2)]
                      "capabilities") v) :=
                jlook_dmList _ _ _ hend
              cases h2 : jlook ekvs "capabilities" with
              | none =>
                  simp only [h2, hlc] at hsec3
                  refine Or.inl ?_
                  rw [hentry, hsec3]
                  rfl
              | some cv =>
                  simp only [h2, hlc] at hsec3
                  rcases obj_or_not cv with ⟨ckvs, rfl⟩ | ⟨hnoc, hnilc⟩
                  · rw [dmVal_obj_obj] at hsec3
                    refine Or.inr (Or.inl ⟨ckvs, ?_⟩)
                    rw [hentry, hsec3]
                    rfl
                  · rw [dmVal_flat _ _ hnoc] at hsec3
                    refine Or.inr (Or.inr ?_)
                    intro ckvs2 hc
                    rw [hentry, hsec3] at hc
                    simp only [Option.getD_some] at hc
                    exact absurd hc (hnoc ckvs2)
            · rw [dmVal_flat _ _ hnoe] at hsec2
              refine Or.inr (Or.inr ?_)
              intro ckvs2 hc
              rw [hcfg] at hc
              rw [pref_vc_of_flat_entry hsec2 hnile] at hc
              exact JValue.noConfusion hc
      · rw [dmVal_flat _ _ hno] at hsec
        have hcfg : cfgSection raw key = rv := by
          rw [cfgSection, hsec]
          rfl
        refine Or.inr (Or.inr ?_)
        intro ckvs2 hc
        rw [hcfg, pref_vc_of_nonobj_section hnil e.1] at hc
        exact JValue.noConfusion hc

end SmartRouting

namespace SmartRouting

/-- Merging the default preference table back onto a normalized table is a
no-op: tiers coincide, preferred-model lists are replaced wholesale, and
every capability entry merge is absorbed because the normalized capability
`dict` already starts with the default keys and holds only `bool`s. -/
theorem dmList_prefs_absorb (base : List (String × List String × List (String × JValue)))
    (hb : baseClean base) (prefs : JValue)
    (hcaps : ∀ e ∈ base,
      jkeys e.2.2 <+: jkeys (sanitize_capabilities
          ((jlook (prefRawEntry prefs e.1) "capabilities").getD .nul) e.2.2) ∧
      (jkeys (sanitize_capabilities
          ((jlook (prefRawEntry prefs e.1) "capabilities").getD .nul) e.2.2)).Nodup ∧
      ∀ kv ∈ sanitize_capabilities
          ((jlook (prefRawEntry prefs e.1) "capabilities").getD .nul) e.2.2,
        isBoolV kv.2 = true) :
    dmList (prefsBaseToKvs base) (normalize_preferences prefs base) =
      normalize_preferences prefs base := by
  rw [normalize_preferences_unfold]
  apply dmList_eq_self
  · rw [show prefsBaseToKvs base = base.map (fun e => (e.1, JValue.obj
      [("preferred_models", .list (e.2.1.map .str)),
       ("capabilities", .obj e.2.2)])) from rfl, jkeys_pairMap, jkeys_pairMap]
  · rw [jkeys_pairMap]
    exact hb.1
  · intro k hk v hv
    rcases List.mem_map.1 (jlook_mem hv) with ⟨e, he, hpair⟩
    injection hpair with hk1 hv1
    subst hk1
    subst hv1
    have hPe : jlook (prefsBaseToKvs base) e.1 =
        some (.obj [("preferred_models", .list (e.2.1.map .str)),
                    ("capabilities", .obj e.2.2)]) :=
      jlook_elemMap base _ hb.1 e he
    rw [hPe, dmVal_obj_obj]
    refine congrArg JValue.obj ?_
    apply dmList_eq_self
    · simp only [jkeys, List.map_cons, List.map_nil]
      exact List.prefix_rfl
    · simp only [jkeys, List.map_cons, List.map_nil]
      decide
    · intro k2 hk2 v2 hv2
      simp only [jkeys, List.map_cons, List.map_nil, List.mem_cons, List.not_mem_nil,
        or_false] at hk2
      rcases hk2 with rfl | rfl
      · rcases List.mem_cons.1 (jlook_mem hv2) with h | h
        · injection h with h1 h2
          rw [h2]
          exact dmVal_list _ _
        · rcases List.mem_cons.1 h with h1 | h1
          · injection h1 with h2 h3
            exact absurd h2 (by decide)
          · cases h1
      · rcases List.mem_cons.1 (jlook_mem hv2) with h | h
        · injection h with h1 h2
          exact absurd h1 (by decide)
        · rcases List.mem_cons.1 h with h1 | h1
          · injection h1 with h2 h3
            rw [h3]
            rw [jlook_two_snd _ _ _ _ (by decide : "preferred_models" ≠ "capabilities")]
            rw [dmVal_obj_obj]
            refine congrArg JValue.obj ?_
            obtain ⟨hcp, hcn, hcb⟩ := hcaps e he
            apply dmList_eq_self _ _ hcp hcn
            intro k3 hk3 v3 hv3
            rcases isBoolV_exists (hcb _ (jlook_mem hv3)) with ⟨b3, hb3⟩
            have hb3v : v3 = JValue.bool b3 := hb3
            rw [hb3v]
            exact dmVal_bool _ _
          · cases h1

theorem sanitize_capabilities_obj (kvs d : List (String × JValue)) :
    sanitize_capabilities (.obj kvs) d =
      kvs.map (fun kv => (kv.1, JValue.bool (jtruthy kv.2))) := rfl

/-- `_normalize_preferences` on its own output (for a clean default table)
is the identity. -/
theorem normalize_preferences_stable
    (base : List (String × List String × List (String × JValue)))
    (hb : baseClean base) (prefs : JValue)
    (hcaps : ∀ e ∈ base,
      jkeys e.2.2 <+: jkeys (sanitize_capabilities
          ((jlook (prefRawEntry prefs e.1) "capabilities").getD .nul) e.2.2) ∧
      (jkeys (sanitize_capabilities
          ((jlook (prefRawEntry prefs e.1) "capabilities").getD .nul) e.2.2)).Nodup ∧
      ∀ kv ∈ sanitize_capabilities
          ((jlook (prefRawEntry prefs e.1) "capabilities").getD .nul) e.2.2,
        isBoolV kv.2 = true) :
    normalize_preferences (.obj (normalize_preferences prefs base)) base =
      normalize_preferences prefs base := by
  rw [normalize_preferences_unfold (JValue.obj (normalize_preferences prefs base)) base]
  conv_rhs => rw [normalize_preferences_unfold prefs base]
  apply List.map_congr_left
  intro e he
  have hrawe : prefRawEntry (.obj (normalize_preferences prefs base)) e.1 =
      [("preferred_models", .list ((sanitize_string_list
          ((jlook (prefRawEntry prefs e.1) "preferred_models").getD .nul) e.2.1).map .str)),
       ("capabilities", .obj (sanitize_capabilities
          ((jlook (prefRawEntry prefs e.1) "capabilities").getD .nul) e.2.2))] := by
    rw [prefRawEntry]
    rw [show asKvs (JValue.obj (normalize_preferences prefs base)) =
      normalize_preferences prefs base from rfl]
    rw [normalize_preferences_unfold prefs base, jlook_elemMap base _ hb.1 e he]
    rfl
  rw [hrawe]
  rw [jlook_two_fst, jlook_two_snd _ _ _ _
    (by decide : "preferred_models" ≠ "capabilities")]
  simp only [Option.getD_some]
  rw [sanitize_self _ _ (sanitize_clean _ _ (hb.2 e he).1)
    (sanitize_ne_nil _ _ (hb.2 e he).2.1)]
  rw [sanitize_capabilities_obj,
    caps_bool_map_id _ (fun kv hkv => isBoolV_exists ((hcaps e he).2.2 kv hkv))]

end SmartRouting

namespace SmartRouting

theorem normalize_config_eq (raw : JValue) :
    normalize_config raw =
      match normalize_scoring (cfgSection raw "scoring") with
      | .error u => .error u
      | .ok s => .ok (.obj [("scoring", .obj s),
          ("overrides", .obj (normalize_overrides (cfgSection raw "overrides"))),
          ("tierPreferences", .obj (normalize_preferences
            (cfgSection raw "tierPreferences") defaultTierPrefsBase)),
          ("agenticPreferences", .obj (normalize_preferences
            (cfgSection raw "agenticPreferences") defaultAgenticPrefsBase))]) := by
  simp only [normalize_config, cfgSection]
  cases hx : normalize_scoring
      ((jlook (dmList default_config_kvs (asKvs raw)) "scoring").getD (.obj [])) with
  | error u => rfl
  | ok s => rfl

/-- C7: for every well-formed raw configuration value `c` (every `dict` has
distinct keys, as is automatic for Python `dict`s / `json.loads` output),
`normalize_config` is idempotent: feeding its result back in returns the
same configuration, with the `AttributeError` failure propagating
unchanged on the error path. -/
theorem c7_normalize_config_idempotent (c : JValue) (hwf : jwfB c = true) :
    (normalize_config c).bind normalize_config = normalize_config c := by
  rw [normalize_config_eq c]
  cases hsres : normalize_scoring (cfgSection c "scoring") with
  | error u => rfl
  | ok s =>
      set OV := normalize_overrides (cfgSection c "overrides") with hOV
      set TP := normalize_preferences (cfgSection c "tierPreferences")
        defaultTierPrefsBase with hTP
      set AP := normalize_preferences (cfgSection c "agenticPreferences")
        defaultAgenticPrefsBase with hAP
      set L := [("scoring", JValue.obj s), ("overrides", JValue.obj OV),
        ("tierPreferences", JValue.obj TP), ("agenticPreferences", JValue.obj AP)] with hL
      show normalize_config (.obj L) = .ok (.obj L)
      have hasL : asKvs (JValue.obj L) = L := rfl
      have hjs : jlook L "scoring" = some (JValue.obj s) := by
        rw [hL]
        rfl
      have hjo : jlook L "overrides" = some (JValue.obj OV) := by
        rw [hL]
        rfl
      have hjt : jlook L "tierPreferences" = some (JValue.obj TP) := by
        rw [hL]
        rfl
      have hja : jlook L "agenticPreferences" = some (JValue.obj AP) := by
        rw [hL]
        rfl
      have hnd4 : (jkeys L).Nodup := by
        rw [hL]
        simp only [jkeys, List.map_cons, List.map_nil]
        decide
      have habs_s : dmList DEFAULT_SCORING_CONFIG_KVS s = s :=
        dmList_default_scoring_absorb hsres
      have hlv_s : jlook (dmList default_config_kvs L) "scoring" =
          some (JValue.obj s) := by
        rw [jlook_dmList _ _ _ hnd4]
        simp only [hjs]
        rw [show jlook default_config_kvs "scoring" =
          some (JValue.obj DEFAULT_SCORING_CONFIG_KVS) from rfl, dmVal_obj_obj, habs_s]
      have hcfg_s2 : cfgSection (JValue.obj L) "scoring" = JValue.obj s := by
        rw [cfgSection, hasL, hlv_s]
        rfl
      obtain ⟨n, t1, t2, bb, hval, hn, ht1, ht2⟩ :=
        normalize_overrides_shape (cfgSection c "overrides")
      rw [← hOV] at hval
      have habs_o : dmList DEFAULT_OVERRIDES_KVS OV = OV := by
        rw [hval]
        exact dmList_overrides_absorb n t1 t2 bb
      have hlv_o : jlook (dmList default_config_kvs L) "overrides" =
          some (JValue.obj OV) := by
        rw [jlook_dmList _ _ _ hnd4]
        simp only [hjo]
        rw [show jlook default_config_kvs "overrides" =
          some (JValue.obj DEFAULT_OVERRIDES_KVS) from rfl, dmVal_obj_obj, habs_o]
      have hcfg_o2 : cfgSection (JValue.obj L) "overrides" = JValue.obj OV := by
        rw [cfgSection, hasL, hlv_o]
        rfl
      have hcaps_t := pref_entry_caps hwf "tierPreferences" defaultTierPrefsBase
        baseClean_tier rfl
      have habs_t : dmList (prefsBaseToKvs defaultTierPrefsBase) TP = TP := by
        rw [hTP]
        exact dmList_prefs_absorb _ baseClean_tier _ hcaps_t
      have hlv_t : jlook (dmList default_config_kvs L) "tierPreferences" =
          some (JValue.obj TP) := by
        rw [jlook_dmList _ _ _ hnd4]
        simp only [hjt]
        rw [show jlook default_config_kvs "tierPreferences" =
          some (JValue.obj (prefsBaseToKvs defaultTierPrefsBase)) from rfl,
          dmVal_obj_obj, habs_t]
      have hcfg_t2 : cfgSection (JValue.obj L) "tierPreferences" = JValue.obj TP := by
        rw [cfgSection, hasL, hlv_t]
        rfl
      have hcaps_a := pref_entry_caps hwf "agenticPreferences" defaultAgenticPrefsBase
        baseClean_agentic rfl
      have habs_a : dmList (prefsBaseToKvs defaultAgenticPrefsBase) AP = AP := by
        rw [hAP]
        exact dmList_prefs_absorb _ baseClean_agentic _ hcaps_a
      have hlv_a : jlook (dmList default_config_kvs L) "agenticPreferences" =
          some (JValue.obj AP) := by
        rw [jlook_dmList _ _ _ hnd4]
        simp only [hja]
        rw [show jlook default_config_kvs "agenticPreferences" =
          some (JValue.obj (prefsBaseToKvs defaultAgenticPrefsBase)) from rfl,
          dmVal_obj_obj, habs_a]
      have hcfg_a2 : cfgSection (JValue.obj L) "agenticPreferences" = JValue.obj AP := by
        rw [cfgSection, hasL, hlv_a]
        rfl
      have hno2 : normalize_overrides (JValue.obj OV) = OV := by
        rw [hOV]
        exact normalize_overrides_stable _
      have hnt2 : normalize_preferences (JValue.obj TP) defaultTierPrefsBase = TP := by
        rw [hTP]
        exact normalize_preferences_stable _ baseClean_tier _ hcaps_t
      have hna2 : normalize_preferences (JValue.obj AP) defaultAgenticPrefsBase = AP := by
        rw [hAP]
        exact normalize_preferences_stable _ baseClean_agentic _ hcaps_a
      rw [normalize_config_eq (JValue.obj L), hcfg_s2, normalize_scoring_stable hsres,
        hcfg_o2, hcfg_t2, hcfg_a2, hno2, hnt2, hna2]

/-- Witness for C7 at a small concrete raw configuration. -/
theorem c7_normalize_config_idempotent_witness :
    jwfB (JValue.obj [("overrides", .obj [("agenticMode", .bool true)]),
        ("scoring", .obj [("confidenceThreshold", .int 1)])]) = true ∧
    (normalize_config (JValue.obj [("overrides", .obj [("agenticMode", .bool true)]),
        ("scoring", .obj [("confidenceThreshold", .int 1)])])).bind normalize_config =
      normalize_config (JValue.obj [("overrides", .obj [("agenticMode", .bool true)]),
        ("scoring", .obj [("confidenceThreshold", .int 1)])]) :=
  ⟨by decide, c7_normalize_config_idempotent _ (by decide)⟩

end SmartRouting

namespace SmartRouting

theorem jgetPath_nil (v : JValue) : jgetPath v [] = some v := by
  cases v <;> rfl

theorem jgetPath_cons {kvs : List (String × JValue)} {k : String} {v : JValue}
    (rest : List String) (h : jlook kvs k = some v) :
    jgetPath (.obj kvs) (k :: rest) = jgetPath v rest := by
  simp only [jgetPath, h]

theorem jlook_three_fst (k1 k2 k3 : String) (v1 v2 v3 : JValue) :
    jlook [(k1, v1), (k2, v2), (k3, v3)] k1 = some v1 := by
  simp [jlook]

theorem jlook_three_snd (k1 k2 k3 : String) (v1 v2 v3 : JValue) (h : k1 ≠ k2) :
    jlook [(k1, v1), (k2, v2), (k3, v3)] k2 = some v2 := by
  simp [jlook, h]

theorem jlook_three_thd (k1 k2 k3 : String) (v1 v2 v3 : JValue)
    (h1 : k1 ≠ k3) (h2 : k2 ≠ k3) :
    jlook [(k1, v1), (k2, v2), (k3, v3)] k3 = some v3 := by
  simp [jlook, h1, h2]

theorem tct_le (t : List (String × JValue)) :
    coerce_int ((jlook t "simple").getD .nul) 50 1 ≤
      (if coerce_int ((jlook t "complex").getD .nul) 500 1 <
          coerce_int ((jlook t "simple").getD .nul) 50 1
       then coerce_int ((jlook t "simple").getD .nul) 50 1
       else coerce_int ((jlook t "complex").getD .nul) 500 1) := by
  by_cases hx : coerce_int ((jlook t "complex").getD .nul) 500 1 <
      coerce_int ((jlook t "simple").getD .nul) 50 1
  · rw [if_pos hx]
  · rw [if_neg hx]
    exact le_of_not_lt hx

theorem bounds_le1 (b : List (String × JValue)) :
    coerce_float ((jlook b "simpleMedium").getD .nul) 0 none none ≤
      (if coerce_float ((jlook b "mediumComplex").getD .nul) (mkRat 9 50) none none <
          coerce_float ((jlook b "simpleMedium").getD .nul) 0 none none
       then coerce_float ((jlook b "simpleMedium").getD .nul) 0 none none
       else coerce_float ((jlook b "mediumComplex").getD .nul) (mkRat 9 50) none none) := by
  by_cases hx : coerce_float ((jlook b "mediumComplex").getD .nul) (mkRat 9 50) none none <
      coerce_float ((jlook b "simpleMedium").getD .nul) 0 none none
  · rw [if_pos hx]
  · rw [if_neg hx]
    exact le_of_not_lt hx

theorem bounds_le2 (b : List (String × JValue)) :
    (if coerce_float ((jlook b "mediumComplex").getD .nul) (mkRat 9 50) none none <
        coerce_float ((jlook b "simpleMedium").getD .nul) 0 none none
     then coerce_float ((jlook b "simpleMedium").getD .nul) 0 none none
     else coerce_float ((jlook b "mediumComplex").getD .nul) (mkRat 9 50) none none) ≤
      (if coerce_float ((jlook b "complexReasoning").getD .nul) (mkRat 2 5) none none <
          (if coerce_float ((jlook b "mediumComplex").getD .nul) (mkRat 9 50) none none <
              coerce_float ((jlook b "simpleMedium").getD .nul) 0 none none
           then coerce_float ((jlook b "simpleMedium").getD .nul) 0 none none
           else coerce_float ((jlook b "mediumComplex").getD .nul) (mkRat 9 50) none none)
       then (if coerce_float ((jlook b "mediumComplex").getD .nul) (mkRat 9 50) none none <
                coerce_float ((jlook b "simpleMedium").getD .nul) 0 none none
             then coerce_float ((jlook b "simpleMedium").getD .nul) 0 none none
             else coerce_float ((jlook b "mediumComplex").getD .nul) (mkRat 9 50) none none)
       else coerce_float ((jlook b "complexReasoning").getD .nul) (mkRat 2 5) none none) := by
  by_cases hx : coerce_float ((jlook b "complexReasoning").getD .nul) (mkRat 2 5) none none <
      (if coerce_float ((jlook b "mediumComplex").getD .nul) (mkRat 9 50) none none <
          coerce_float ((jlook b "simpleMedium").getD .nul) 0 none none
       then coerce_float ((jlook b "simpleMedium").getD .nul) 0 none none
       else coerce_float ((jlook b "mediumComplex").getD .nul) (mkRat 9 50) none none)
  · rw [if_pos hx]
  · rw [if_neg hx]
    exact le_of_not_lt hx

/-- C5 (amended): whenever `normalize_config` returns (it raises
`AttributeError` when a merged `tokenCountThresholds`, `dimensionWeights`
or `tierBoundaries` entry is not a `dict`), the normalized scoring section
satisfies `tokenCountThresholds.simple ≤ tokenCountThresholds.complex` and
`tierBoundaries.simpleMedium ≤ mediumComplex ≤ complexReasoning`, each
out-of-order value raised to its predecessor. -/
theorem c5_normalized_scoring_bounds {c out : JValue}
    (h : normalize_config c = .ok out) :
    ∃ (a b : ℤ) (sm mc cr : ℚ),
      jgetPath out ["scoring", "tokenCountThresholds", "simple"] = some (.int a) ∧
      jgetPath out ["scoring", "tokenCountThresholds", "complex"] = some (.int b) ∧
      a ≤ b ∧
      jgetPath out ["scoring", "tierBoundaries", "simpleMedium"] = some (.float sm) ∧
      jgetPath out ["scoring", "tierBoundaries", "mediumComplex"] = some (.float mc) ∧
      jgetPath out ["scoring", "tierBoundaries", "complexReasoning"] = some (.float cr) ∧
      sm ≤ mc ∧ mc ≤ cr := by
  rw [normalize_config_eq c] at h
  cases hsres : normalize_scoring (cfgSection c "scoring") with
  | error u =>
      rw [hsres] at h
      exact Except.noConfusion h
  | ok s =>
      simp only [hsres] at h
      injection h with hout
      subst hout
      obtain ⟨tkvs, wkvs, bkvs, heq1, heq2, heq3, hs⟩ := normalize_scoring_eq_ok hsres
      set M := dmList DEFAULT_SCORING_CONFIG_KVS (asKvs (cfgSection c "scoring")) with hM
      have hpre : jkeys DEFAULT_SCORING_CONFIG_KVS <+: jkeys M := jkeys_dmList_grows _ _
      obtain ⟨vt, hvt⟩ := jlook_eq_some_of_mem (hpre.subset (by decide :
        "tokenCountThresholds" ∈ jkeys DEFAULT_SCORING_CONFIG_KVS))
      rw [hvt] at heq1
      simp only [Option.getD_some] at heq1
      subst heq1
      obtain ⟨vb, hvb⟩ := jlook_eq_some_of_mem (hpre.subset (by decide :
        "tierBoundaries" ∈ jkeys DEFAULT_SCORING_CONFIG_KVS))
      rw [hvb] at heq3
      simp only [Option.getD_some] at heq3
      subst heq3
      have hsTct : jlook s "tokenCountThresholds" =
          some (scoringFieldValue M tkvs wkvs bkvs "tokenCountThresholds"
            (.obj tkvs)) := by
        rw [hs, jlook_mapVal, hvt]
      have hsB : jlook s "tierBoundaries" =
          some (scoringFieldValue M tkvs wkvs bkvs "tierBoundaries" (.obj bkvs)) := by
        rw [hs, jlook_mapVal, hvb]
      rw [sfv_tct M] at hsTct
      rw [sfv_bounds M] at hsB
      have hjs : jlook [("scoring", JValue.obj s),
          ("overrides", JValue.obj (normalize_overrides (cfgSection c "overrides"))),
          ("tierPreferences", JValue.obj (normalize_preferences
            (cfgSection c "tierPreferences") defaultTierPrefsBase)),
          ("agenticPreferences", JValue.obj (normalize_preferences
            (cfgSection c "agenticPreferences") defaultAgenticPrefsBase))] "scoring" =
          some (JValue.obj s) := rfl
      set A := coerce_int ((jlook tkvs "simple").getD .nul) 50 1 with hdefA
      set C0 := coerce_int ((jlook tkvs "complex").getD .nul) 500 1 with hdefC0
      set B := if C0 < A then A else C0 with hdefB
      set SM := coerce_float ((jlook bkvs "simpleMedium").getD .nul) 0 none none
        with hdefSM
      set MC0 := coerce_float ((jlook bkvs "mediumComplex").getD .nul) (mkRat 9 50)
        none none with hdefMC0
      set CR0 := coerce_float ((jlook bkvs "complexReasoning").getD .nul) (mkRat 2 5)
        none none with hdefCR0
      set MC := if MC0 < SM then SM else MC0 with hdefMC
      set CR := if CR0 < MC then MC else CR0 with hdefCR
      refine ⟨A, B, SM, MC, CR, ?_, ?_, ?_, ?_, ?_, ?_, ?_, ?_⟩
      · rw [jgetPath_cons _ hjs, jgetPath_cons _ hsTct,
          jgetPath_cons _ (jlook_two_fst _ _ _ _), jgetPath_nil]
      · rw [jgetPath_cons _ hjs, jgetPath_cons _ hsTct,
          jgetPath_cons _ (jlook_two_snd _ _ _ _ (by decide)), jgetPath_nil]
      · exact tct_le tkvs
      · rw [jgetPath_cons _ hjs, jgetPath_cons _ hsB,
          jgetPath_cons _ (jlook_three_fst _ _ _ _ _ _), jgetPath_nil]
      · rw [jgetPath_cons _ hjs, jgetPath_cons _ hsB,
          jgetPath_cons _ (jlook_three_snd _ _ _ _ _ _ (by decide)), jgetPath_nil]
      · rw [jgetPath_cons _ hjs, jgetPath_cons _ hsB,
          jgetPath_cons _ (jlook_three_thd _ _ _ _ _ _ (by decide) (by decide)),
          jgetPath_nil]
      · exact bounds_le1 bkvs
      · exact bounds_le2 bkvs

end SmartRouting

namespace SmartRouting

/-- C5 (counterexample to the claim as stated): overriding
`scoring.tierBoundaries` with a non-`dict` makes `_normalize_scoring` call
`.get` on an `int`, raising `AttributeError`: there is no normalized
configuration at all for this input. -/
theorem c5_counterexample :
    normalize_config (.obj [("scoring", .obj [("tierBoundaries", .int 5)])]) =
      .error () := rfl

/-- Witness for C5 at the empty raw configuration. -/
theorem c5_normalized_scoring_bounds_witness :
    ∃ (a b : ℤ) (sm mc cr : ℚ),
      jgetPath ((normalize_config (.obj [])).toOption.getD .nul)
        ["scoring", "tokenCountThresholds", "simple"] = some (.int a) ∧
      jgetPath ((normalize_config (.obj [])).toOption.getD .nul)
        ["scoring", "tokenCountThresholds", "complex"] = some (.int b) ∧
      a ≤ b ∧
      jgetPath ((normalize_config (.obj [])).toOption.getD .nul)
        ["scoring", "tierBoundaries", "simpleMedium"] = some (.float sm) ∧
      jgetPath ((normalize_config (.obj [])).toOption.getD .nul)
        ["scoring", "tierBoundaries", "mediumComplex"] = some (.float mc) ∧
      jgetPath ((normalize_config (.obj [])).toOption.getD .nul)
        ["scoring", "tierBoundaries", "complexReasoning"] = some (.float cr) ∧
      sm ≤ mc ∧ mc ≤ cr :=
  c5_normalized_scoring_bounds (show normalize_config (.obj []) =
    .ok ((normalize_config (.obj [])).toOption.getD .nul) from rfl)

end SmartRouting

namespace SmartRouting

/-- C8 (counterexample to the claim as stated): a configured
`confidenceSteepness` of exactly 0.1 passes `_coerce_float`'s
`coerced < minimum` check unchanged, so the normalized steepness is 0.1
itself — not inside the open interval `(0.1, 100]` the claim states. -/
theorem c8_counterexample :
    jgetPath ((normalize_config (.obj [("scoring",
        .obj [("confidenceSteepness", .float (mkRat 1 10))])])).toOption.getD .nul)
      ["scoring", "confidenceSteepness"] = some (.float (mkRat 1 10)) ∧
    ¬ mkRat 1 10 < mkRat 1 10 :=
  ⟨rfl, by decide⟩

/-- C8 (amended): whenever `normalize_config` returns, the normalized
`confidenceSteepness` is positive and lies in the closed interval
`[0.1, 100]` (out-of-range or non-numeric values fall back to the default
12), and `confidenceThreshold` lies in `[0, 1]`. -/
theorem c8_confidence_bounds {c out : JValue} (h : normalize_config c = .ok out) :
    ∃ st th : ℚ,
      jgetPath out ["scoring", "confidenceSteepness"] = some (.float st) ∧
      0 < st ∧ mkRat 1 10 ≤ st ∧ st ≤ 100 ∧
      jgetPath out ["scoring", "confidenceThreshold"] = some (.float th) ∧
      0 ≤ th ∧ th ≤ 1 := by
  rw [normalize_config_eq c] at h
  cases hsres : normalize_scoring (cfgSection c "scoring") with
  | error u =>
      rw [hsres] at h
      exact Except.noConfusion h
  | ok s =>
      simp only [hsres] at h
      injection h with hout
      subst hout
      obtain ⟨tkvs, wkvs, bkvs, heq1, heq2, heq3, hs⟩ := normalize_scoring_eq_ok hsres
      set M := dmList DEFAULT_SCORING_CONFIG_KVS (asKvs (cfgSection c "scoring")) with hM
      have hpre : jkeys DEFAULT_SCORING_CONFIG_KVS <+: jkeys M := jkeys_dmList_grows _ _
      obtain ⟨vS, hvS⟩ := jlook_eq_some_of_mem (hpre.subset (by decide :
        "confidenceSteepness" ∈ jkeys DEFAULT_SCORING_CONFIG_KVS))
      obtain ⟨vT, hvT⟩ := jlook_eq_some_of_mem (hpre.subset (by decide :
        "confidenceThreshold" ∈ jkeys DEFAULT_SCORING_CONFIG_KVS))
      have hsSteep : jlook s "confidenceSteepness" =
          some (scoringFieldValue M tkvs wkvs bkvs "confidenceSteepness" vS) := by
        rw [hs, jlook_mapVal, hvS]
      have hsThresh : jlook s "confidenceThreshold" =
          some (scoringFieldValue M tkvs wkvs bkvs "confidenceThreshold" vT) := by
        rw [hs, jlook_mapVal, hvT]
      rw [sfv_steep M] at hsSteep
      rw [sfv_thresh M] at hsThresh
      have hjs : jlook [("scoring", JValue.obj s),
          ("overrides", JValue.obj (normalize_overrides (cfgSection c "overrides"))),
          ("tierPreferences", JValue.obj (normalize_preferences
            (cfgSection c "tierPreferences") defaultTierPrefsBase)),
          ("agenticPreferences", JValue.obj (normalize_preferences
            (cfgSection c "agenticPreferences") defaultAgenticPrefsBase))] "scoring" =
          some (JValue.obj s) := rfl
      set ST := coerce_float ((jlook M "confidenceSteepness").getD .nul) 12
        (some (mkRat 1 10)) (some 100) with hdefST
      set TH := coerce_float ((jlook M "confidenceThreshold").getD .nul) (mkRat 7 10)
        (some 0) (some 1) with hdefTH
      have hstb := coerce_float_mem ((jlook M "confidenceSteepness").getD .nul) 12
        (mkRat 1 10) 100 (by decide) (by decide)
      have hthb := coerce_float_mem ((jlook M "confidenceThreshold").getD .nul)
        (mkRat 7 10) 0 1 (by decide) (by decide)
      refine ⟨ST, TH, ?_, ?_, ?_, ?_, ?_, ?_, ?_⟩
      · rw [jgetPath_cons _ hjs, jgetPath_cons _ hsSteep, jgetPath_nil]
      · exact lt_of_lt_of_le (by decide : (0:ℚ) < mkRat 1 10) hstb.1
      · exact hstb.1
      · exact hstb.2
      · rw [jgetPath_cons _ hjs, jgetPath_cons _ hsThresh, jgetPath_nil]
      · exact hthb.1
      · exact hthb.2

/-- Witness for C8 at a raw configuration that sets a large steepness. -/
theorem c8_confidence_bounds_witness :
    ∃ st th : ℚ,
      jgetPath ((normalize_config (.obj [("scoring",
          .obj [("confidenceSteepness", .int 50)])])).toOption.getD .nul)
        ["scoring", "confidenceSteepness"] = some (.float st) ∧
      0 < st ∧ mkRat 1 10 ≤ st ∧ st ≤ 100 ∧
      jgetPath ((normalize_config (.obj [("scoring",
          .obj [("confidenceSteepness", .int 50)])])).toOption.getD .nul)
        ["scoring", "confidenceThreshold"] = some (.float th) ∧
      0 ≤ th ∧ th ≤ 1 :=
  c8_confidence_bounds (show normalize_config (.obj [("scoring",
      .obj [("confidenceSteepness", .int 50)])]) =
    .ok ((normalize_config (.obj [("scoring",
      .obj [("confidenceSteepness", .int 50)])])).toOption.getD .nul) from rfl)

end SmartRouting

namespace SmartRouting

theorem sanitize_caps_bools (vc : JValue) (d : List (String × JValue))
    (hd : ∀ kv ∈ d, isBoolV kv.2 = true) :
    ∀ kv ∈ sanitize_capabilities vc d, isBoolV kv.2 = true := by
  cases vc with
  | obj kvs =>
      intro kv hkv
      rcases List.mem_map.1 hkv with ⟨kv0, _, h2⟩
      rw [← h2]
      rfl
  | nul => exact hd
  | bool b => exact hd
  | int n => exact hd
  | float q => exact hd
  | str s => exact hd
  | list xs => exact hd

/-- C10 (counterexample to the claim as stated): overriding
`scoring.dimensionWeights` with a non-`dict` raises `AttributeError`
inside `_normalize_scoring` before the preference tables are ever built:
no normalized configuration (and hence no normalized preference table)
exists for this raw input. -/
theorem c10_counterexample :
    normalize_config (.obj [("scoring", .obj [("dimensionWeights", .str "x")])]) =
      .error () := rfl

/-- C10 (amended): whenever `normalize_config` returns, both normalized
preference tables hold exactly the four tier keys in order; each entry has
a non-empty `preferred_models` list of stripped non-empty strings (the
default list when the sanitized list would be empty) and a `bool`-valued
`capabilities` mapping. -/
theorem c10_preference_tables_shape {c out : JValue}
    (h : normalize_config c = .ok out) :
    ∀ key ∈ (["tierPreferences", "agenticPreferences"] : List String),
      ∃ tbl : List (String × JValue),
        jgetPath out [key] = some (.obj tbl) ∧
        jkeys tbl = TIERS ∧
        ∀ tier ∈ TIERS, ∃ (pm : List String) (caps : List (String × JValue)),
          jlook tbl tier = some (.obj [("preferred_models", .list (pm.map .str)),
            ("capabilities", .obj caps)]) ∧
          pm ≠ [] ∧ (∀ t ∈ pm, pyStrip t = t ∧ t ≠ "") ∧
          ∀ kv ∈ caps, isBoolV kv.2 = true := by
  rw [normalize_config_eq c] at h
  cases hsres : normalize_scoring (cfgSection c "scoring") with
  | error u =>
      rw [hsres] at h
      exact Except.noConfusion h
  | ok s =>
      simp only [hsres] at h
      injection h with hout
      subst hout
      intro key hkey
      rcases List.mem_cons.1 hkey with rfl | hkey2
      · refine ⟨normalize_preferences (cfgSection c "tierPreferences")
          defaultTierPrefsBase, ?_, ?_, ?_⟩
        · rw [jgetPath_cons _ (show jlook [("scoring", JValue.obj s),
            ("overrides", JValue.obj (normalize_overrides (cfgSection c "overrides"))),
            ("tierPreferences", JValue.obj (normalize_preferences
              (cfgSection c "tierPreferences") defaultTierPrefsBase)),
            ("agenticPreferences", JValue.obj (normalize_preferences
              (cfgSection c "agenticPreferences") defaultAgenticPrefsBase))]
            "tierPreferences" = some (JValue.obj (normalize_preferences
              (cfgSection c "tierPreferences") defaultTierPrefsBase)) from rfl),
            jgetPath_nil]
        · rw [normalize_preferences_unfold, jkeys_pairMap]
          rfl
        · intro tier htier
          have htier2 : tier ∈ defaultTierPrefsBase.map Prod.fst := htier
          rcases List.mem_map.1 htier2 with ⟨e, he, he1⟩
          refine ⟨sanitize_string_list ((jlook (prefRawEntry
              (cfgSection c "tierPreferences") e.1) "preferred_models").getD .nul) e.2.1,
            sanitize_capabilities ((jlook (prefRawEntry
              (cfgSection c "tierPreferences") e.1) "capabilities").getD .nul) e.2.2,
            ?_, ?_, ?_, ?_⟩
          · rw [normalize_preferences_unfold, ← he1]
            exact jlook_elemMap defaultTierPrefsBase _ baseClean_tier.1 e he
          · exact sanitize_ne_nil _ _ (baseClean_tier.2 e he).2.1
          · exact sanitize_clean _ _ (baseClean_tier.2 e he).1
          · exact sanitize_caps_bools _ _ (baseClean_tier.2 e he).2.2.1
      · rcases List.mem_cons.1 hkey2 with rfl | hkey3
        · refine ⟨normalize_preferences (cfgSection c "agenticPreferences")
            defaultAgenticPrefsBase, ?_, ?_, ?_⟩
          · rw [jgetPath_cons _ (show jlook [("scoring", JValue.obj s),
              ("overrides", JValue.obj (normalize_overrides (cfgSection c "overrides"))),
              ("tierPreferences", JValue.obj (normalize_preferences
                (cfgSection c "tierPreferences") defaultTierPrefsBase)),
              ("agenticPreferences", JValue.obj (normalize_preferences
                (cfgSection c "agenticPreferences") defaultAgenticPrefsBase))]
              "agenticPreferences" = some (JValue.obj (normalize_preferences
                (cfgSection c "agenticPreferences") defaultAgenticPrefsBase)) from rfl),
              jgetPath_nil]
          · rw [normalize_preferences_unfold, jkeys_pairMap]
            rfl
          · intro tier htier
            have htier2 : tier ∈ defaultAgenticPrefsBase.map Prod.fst := htier
            rcases List.mem_map.1 htier2 with ⟨e, he, he1⟩
            refine ⟨sanitize_string_list ((jlook (prefRawEntry
                (cfgSection c "agenticPreferences") e.1) "preferred_models").getD .nul)
                e.2.1,
              sanitize_capabilities ((jlook (prefRawEntry
                (cfgSection c "agenticPreferences") e.1) "capabilities").getD .nul) e.2.2,
              ?_, ?_, ?_, ?_⟩
            · rw [normalize_preferences_unfold, ← he1]
              exact jlook_elemMap defaultAgenticPrefsBase _ baseClean_agentic.1 e he
            · exact sanitize_ne_nil _ _ (baseClean_agentic.2 e he).2.1
            · exact sanitize_clean _ _ (baseClean_agentic.2 e he).1
            · exact sanitize_caps_bools _ _ (baseClean_agentic.2 e he).2.2.1
        · cases hkey3

/-- Witness for C10 at a raw configuration overriding one tier's models. -/
theorem c10_preference_tables_shape_witness :
    ∃ tbl : List (String × JValue),
      jgetPath ((normalize_config (.obj [("tierPreferences", .obj [("REASONING",
          .obj [("preferred_models", .list [.str "my-model"])])])])).toOption.getD .nul)
        ["tierPreferences"] = some (.obj tbl) ∧
      jkeys tbl = TIERS ∧
      ∀ tier ∈ TIERS, ∃ (pm : List String) (caps : List (String × JValue)),
        jlook tbl tier = some (.obj [("preferred_models", .list (pm.map .str)),
          ("capabilities", .obj caps)]) ∧
        pm ≠ [] ∧ (∀ t ∈ pm, pyStrip t = t ∧ t ≠ "") ∧
        ∀ kv ∈ caps, isBoolV kv.2 = true :=
  c10_preference_tables_shape (show normalize_config (.obj [("tierPreferences",
      .obj [("REASONING", .obj [("preferred_models", .list [.str "my-model"])])])]) =
    .ok ((normalize_config (.obj [("tierPreferences", .obj [("REASONING",
      .obj [("preferred_models", .list [.str "my-model"])])])])).toOption.getD .nul)
    from rfl) "tierPreferences" (by decide)

end SmartRouting
